import Mathlib

/-!
# Reliable Data Transport (p04): segment codec, RTT estimator, connection state machine

A shallow embedding of `RDTSegment.{h,cpp}`, `UnreliableSocket.{h,cpp}` and
`ReliableSocket.{h,cpp}`, and of the receive loop of `receiver.cpp` (namespace
`RDT`); the message header and the chunked senders of the music server (p05)
follow in namespace `Music`. The definitions of both come first, then the
theorems.

Conventions of the embedding

* `uint8_t`, `uint16_t`, `uint32_t` values are natural numbers reduced modulo
  `2^8`, `2^16`, `2^32` at the places where C++ converts; `int` values are integers.
* Memory is a flat map from addresses to bytes, a `std::span<uint8_t>` is an
  address and a length.
* The environment (the network, the clock, the byte order of the host, the
  content of uninitialised storage) is an explicit input.
-/

namespace RDT

/-! ## Memory, spans, byte order -/

/-- Flat byte-addressed memory. -/
abbrev Mem := Nat → Nat

/-- A `std::span<uint8_t>`: the address of its first byte and its length. -/
structure Span where
  data : Nat
  size : Nat
  deriving DecidableEq, Repr

/-- The byte stored at address `a`. -/
def Mem.read (m : Mem) (a : Nat) : Nat := m a % 256

/-- The bytes a span views, first to last. -/
def Mem.read_span (m : Mem) (s : Span) : List Nat :=
  (List.range s.size).map (fun i => m.read (s.data + i))

/-- Memory after storing `bytes` from address `a` on. -/
def Mem.write (m : Mem) (a : Nat) (bytes : List Nat) : Mem :=
  fun x => if a ≤ x ∧ x < a + bytes.length then bytes.getD (x - a) 0 else m x

/-- What the program depends on but does not fix: the byte order of the host and
the content of storage that is read before it was written (`junk i` is the value
found in the padding byte of the `i`-th segment object built from fields). -/
structure Host where
  little_endian : Bool
  junk : Nat → Nat

/-- The function `htons`: a 16-bit value in network (big-endian) order, as the
host stores it. The argument is converted to `uint16_t` first. -/
def htons (host : Host) (x : Nat) : Nat :=
  let v := x % 65536
  if host.little_endian then (v % 256) * 256 + v / 256 else v

/-- The function `ntohs`, the same byte swap as `htons`. -/
def ntohs (host : Host) (x : Nat) : Nat :=
  let v := x % 65536
  if host.little_endian then (v % 256) * 256 + v / 256 else v

/-- Object representation of a `uint16_t` on the host: the byte at offset `i`. -/
def u16_byte (host : Host) (v : Nat) (i : Nat) : Nat :=
  if host.little_endian then (if i = 0 then v % 256 else v / 256 % 256)
  else (if i = 0 then v / 256 % 256 else v % 256)

/-- The `uint16_t` whose object representation is the two bytes `b0 b1`. -/
def u16_of_bytes (host : Host) (b0 b1 : Nat) : Nat :=
  if host.little_endian then b0 % 256 + 256 * (b1 % 256) else 256 * (b0 % 256) + b1 % 256

/-! ## `struct RDTHeader` and its layout

`RDTHeader` is declared without any packing attribute, so its members sit at
their natural alignment: each member at the next multiple of its alignment, the
size of the struct rounded up to the largest alignment. -/

/-- Round `off` up to a multiple of `align`. -/
def align_up (off align : Nat) : Nat := (off + align - 1) / align * align

/-- Offsets of the members `(size, alignment)` of a struct laid out from `off`. -/
def member_offsets : Nat → List (Nat × Nat) → List Nat
  | _, [] => []
  | off, (sz, al) :: ms => align_up off al :: member_offsets (align_up off al + sz) ms

/-- End of the last member of a struct laid out from `off`. -/
def members_end : Nat → List (Nat × Nat) → Nat
  | off, [] => off
  | off, (sz, al) :: ms => members_end (align_up off al + sz) ms

/-- Size of a struct: the end of its last member rounded up to its alignment. -/
def struct_size (ms : List (Nat × Nat)) : Nat :=
  align_up (members_end 0 ms) ((ms.map Prod.snd).foldl max 1)

/-- Members of `struct RDTHeader` as `(size, alignment)`: `uint8_t sequence_number`,
`uint8_t ack_number`, `RDTMessageType type` (an enum over `uint8_t`),
`uint16_t payload_size`. -/
def RDTHeader_members : List (Nat × Nat) := [(1, 1), (1, 1), (1, 1), (2, 2)]

/-- The value of `sizeof(RDTHeader)`. -/
def sizeof_RDTHeader : Nat := struct_size RDTHeader_members

/-- Offset of `sequence_number` in `RDTHeader`. -/
def offsetof_sequence_number : Nat := (member_offsets 0 RDTHeader_members).getD 0 0
/-- Offset of `ack_number` in `RDTHeader`. -/
def offsetof_ack_number : Nat := (member_offsets 0 RDTHeader_members).getD 1 0
/-- Offset of `type` in `RDTHeader`. -/
def offsetof_type : Nat := (member_offsets 0 RDTHeader_members).getD 2 0
/-- Offset of `payload_size` in `RDTHeader`. -/
def offsetof_payload_size : Nat := (member_offsets 0 RDTHeader_members).getD 3 0

/-- Offset of the byte of `RDTHeader` that lies between `type` and `payload_size`
and belongs to no member. -/
def offsetof_pad : Nat := offsetof_type + 1

/-- The enumerators of `RDTMessageType : uint8_t`. -/
def RDT_DATA : Nat := 0
/-- Enumerator `RDT_ACK`. -/
def RDT_ACK : Nat := 1
/-- Enumerator `RDT_CONN`. -/
def RDT_CONN : Nat := 2
/-- Enumerator `RDT_CLOSE`. -/
def RDT_CLOSE : Nat := 3

/-- An `RDTHeader` object: its four members as stored (`payload_size` holds the
value produced by `htons`) and `pad`, the byte of the object that belongs to no
member. -/
structure RDTHeader where
  sequence_number : Nat
  ack_number : Nat
  type : Nat
  payload_size : Nat
  pad : Nat
  deriving DecidableEq, Repr

/-- Byte `i` of the object representation of a header. -/
def RDTHeader.byte_at (host : Host) (h : RDTHeader) (i : Nat) : Nat :=
  if i = offsetof_sequence_number then h.sequence_number % 256
  else if i = offsetof_ack_number then h.ack_number % 256
  else if i = offsetof_type then h.type % 256
  else if offsetof_payload_size ≤ i ∧ i < offsetof_payload_size + 2 then
    u16_byte host h.payload_size (i - offsetof_payload_size)
  else h.pad % 256

/-- The object representation of a header, what `memcpy(dst, &header, sizeof(RDTHeader))` copies. -/
def RDTHeader.object_bytes (host : Host) (h : RDTHeader) : List Nat :=
  (List.range sizeof_RDTHeader).map (h.byte_at host)

/-- The header whose object representation is stored at address `a`, what
`memcpy(&header, src, sizeof(RDTHeader))` leaves in `header`. -/
def RDTHeader.of_memory (host : Host) (m : Mem) (a : Nat) : RDTHeader :=
  { sequence_number := m.read (a + offsetof_sequence_number)
    ack_number := m.read (a + offsetof_ack_number)
    type := m.read (a + offsetof_type)
    payload_size := u16_of_bytes host (m.read (a + offsetof_payload_size))
      (m.read (a + offsetof_payload_size + 1))
    pad := m.read (a + offsetof_pad) }

/-! ## `class RDTSegment` -/

/-- An `RDTSegment` object: a header and a span viewing the payload. -/
structure RDTSegment where
  header : RDTHeader
  payload : Span
  deriving DecidableEq, Repr

/-- The constructor `RDTSegment(sequence_number, ack_number, type)`. The members
are assigned one by one, the padding byte keeps what the storage held (`pad`),
the payload span is default constructed. -/
def RDTSegment.control (host : Host) (pad : Nat) (sequence_number ack_number type : Nat) :
    RDTSegment :=
  { header :=
      { sequence_number := sequence_number % 256
        ack_number := ack_number % 256
        type := type % 256
        payload_size := htons host 0
        pad := pad % 256 }
    payload := ⟨0, 0⟩ }

/-- The constructor `RDTSegment(sequence_number, ack_number, type, payload)`. -/
def RDTSegment.with_payload (host : Host) (pad : Nat) (sequence_number ack_number type : Nat)
    (payload : Span) : RDTSegment :=
  { header :=
      { sequence_number := sequence_number % 256
        ack_number := ack_number % 256
        type := type % 256
        payload_size := htons host payload.size
        pad := pad % 256 }
    payload := payload }

/-- The constructor `RDTSegment(span<uint8_t> source)`: the header is copied out
of the first `sizeof(RDTHeader)` bytes at `source.data()`, the payload is the
span that starts right behind them and has the length the header announces.
The length of `source` is not consulted. -/
def RDTSegment.of_span (host : Host) (m : Mem) (source : Span) : RDTSegment :=
  let header := RDTHeader.of_memory host m source.data
  { header := header
    payload := ⟨source.data + sizeof_RDTHeader, ntohs host header.payload_size⟩ }

/-- The method `copy_to(destination)`: the bytes it stores from
`destination.data()` on, the object representation of the header followed by
the payload bytes. `m` is the memory the payload span views; the destination is
storage of its own (the callers pass a fresh vector). -/
def RDTSegment.copy_to (host : Host) (m : Mem) (seg : RDTSegment) : List Nat :=
  seg.header.object_bytes host ++ m.read_span seg.payload

/-- The method `copy_payload_to(destination)`: the bytes it stores from
`destination.data()` on. -/
def RDTSegment.copy_payload_to (m : Mem) (seg : RDTSegment) : List Nat :=
  m.read_span seg.payload

/-- Getter `get_sequence_number`. -/
def RDTSegment.get_sequence_number (seg : RDTSegment) : Nat := seg.header.sequence_number
/-- Getter `get_ack_number`. -/
def RDTSegment.get_ack_number (seg : RDTSegment) : Nat := seg.header.ack_number
/-- Getter `get_type`. -/
def RDTSegment.get_type (seg : RDTSegment) : Nat := seg.header.type
/-- Getter `get_total_size`, a `uint16_t`. -/
def RDTSegment.get_total_size (seg : RDTSegment) : Nat :=
  (sizeof_RDTHeader + seg.payload.size) % 65536
/-- Getter `get_payload_size`, a `uint16_t`. -/
def RDTSegment.get_payload_size (seg : RDTSegment) : Nat := seg.payload.size % 65536

/-- The function `message_type_to_string`: the name of the enumerator. For a
value that is none of the four it ends the process with `exit(EXIT_FAILURE)`,
which is `none` here. -/
def message_type_to_string (type : Nat) : Option String :=
  if type = RDT_CONN then some "RDT_CONN"
  else if type = RDT_ACK then some "RDT_ACK"
  else if type = RDT_DATA then some "RDT_DATA"
  else if type = RDT_CLOSE then some "RDT_CLOSE"
  else none

/-- The method `to_string()`: the text it returns, or `none` where
`message_type_to_string` ends the process. -/
def RDTSegment.to_string (host : Host) (seg : RDTSegment) : Option String :=
  match message_type_to_string seg.header.type with
  | none => none
  | some name =>
    some ("\x7b" ++ name ++ ": seq=" ++ toString seg.header.sequence_number ++ ", ack=" ++
      toString seg.header.ack_number ++ ", payload=" ++
      toString (ntohs host seg.header.payload_size) ++ " bytes\x7d")

/-- The constant `RDTSegment::MAX_SEG_SIZE` (also `ReliableSocket::MAX_SEG_SIZE`). -/
def MAX_SEG_SIZE : Nat := 1400

/-- The constant `ReliableSocket::MAX_DATA_SIZE = MAX_SEG_SIZE - sizeof(RDTHeader)`. -/
def MAX_DATA_SIZE : Nat := MAX_SEG_SIZE - sizeof_RDTHeader

/-! ## `class UnreliableSocket` -/

/-- The type `enum connection_status`. -/
inductive connection_status
  | INIT | WAIT_HS2 | WAIT_HS3 | WAIT_SEND | WAIT_DATA0 | WAIT_DATA1 | WAIT_ACK0 | WAIT_ACK1
  | CLOSING | CLOSED
  deriving DecidableEq, Repr

/-- What the operating system's `recv` / `recvfrom` gives one call of
`UnreliableSocket::receive`. -/
inductive RecvResult
  /-- A datagram with these bytes arrived. -/
  | datagram (bytes : List Nat)
  /-- The call returned `-1` with `errno == EAGAIN`: the timeout expired. -/
  | eagain
  /-- The call returned `-1` with another `errno`. -/
  | failure
  deriving DecidableEq, Repr

/-- Something observable: a call of the transport, or an assignment to `state`. -/
inductive Event
  | bind (port_num : Int)
  | connect (hostname : String) (port_num : Int)
  /-- The operating system was handed these bytes to transmit. -/
  | send (bytes : List Nat)
  /-- A blocking receive, made while the timeout length was `timeout_length`. -/
  | receive (timeout_length : Nat) (result : RecvResult)
  | set_timeout_length (ms : Nat)
  | close
  /-- The assignment `this->state = s`. -/
  | state (s : connection_status)
  deriving DecidableEq, Repr

/-- The members of `UnreliableSocket` (the file descriptor apart). -/
structure UnreliableSocket where
  timeout_length : Nat
  connected : Bool
  deriving DecidableEq, Repr

/-- How a call of `UnreliableSocket::receive` ends. -/
inductive Received
  /-- It returned `count`, the datagram is in `buffer`. -/
  | segment (buffer : Mem) (count : Nat)
  /-- It threw `SocketTimeout`. -/
  | SocketTimeout
  /-- It threw `ConnectionClosed`. -/
  | ConnectionClosed
  /-- It called `exit(EXIT_FAILURE)`. -/
  | exit

/-- The constructor `UnreliableSocket()`. -/
def UnreliableSocket.init : UnreliableSocket := { timeout_length := 0, connected := false }

/-- The method `UnreliableSocket::connect`. -/
def UnreliableSocket.connect (sock : UnreliableSocket) (hostname : String) (port_num : Int) :
    UnreliableSocket × List Event :=
  ({ sock with connected := true }, [Event.connect hostname port_num])

/-- The method `UnreliableSocket::bind`. -/
def UnreliableSocket.bind (sock : UnreliableSocket) (port_num : Int) :
    UnreliableSocket × List Event :=
  (sock, [Event.bind port_num])

/-- The method `UnreliableSocket::set_timeout_length`; the argument is converted to `uint32_t`. -/
def UnreliableSocket.set_timeout_length (sock : UnreliableSocket) (timeout_length_ms : Int) :
    UnreliableSocket × List Event :=
  let ms := (timeout_length_ms % 4294967296).toNat
  ({ sock with timeout_length := ms }, [Event.set_timeout_length ms])

/-- The method `UnreliableSocket::send`: nothing is transmitted while the socket
is not connected. -/
def UnreliableSocket.send (sock : UnreliableSocket) (bytes : List Nat) :
    UnreliableSocket × List Event :=
  if sock.connected then (sock, [Event.send bytes]) else (sock, [])

/-- The method `UnreliableSocket::receive(buffer)`. At most `MAX_SEG_SIZE` bytes
of the datagram are stored from the start of `buffer`; a return value of `0`
from the system call is reported as `ConnectionClosed`. -/
def UnreliableSocket.receive (sock : UnreliableSocket) (buffer : Mem) (r : RecvResult) :
    UnreliableSocket × List Event × Received :=
  let ev := [Event.receive sock.timeout_length r]
  match r with
  | RecvResult.failure => (sock, ev, Received.exit)
  | RecvResult.eagain => (sock, ev, Received.SocketTimeout)
  | RecvResult.datagram bytes =>
    let num_bytes_received := min bytes.length MAX_SEG_SIZE
    if num_bytes_received = 0 then (sock, ev, Received.ConnectionClosed)
    else
      ({ sock with connected := true }, ev,
        Received.segment (buffer.write 0 (bytes.take MAX_SEG_SIZE)) num_bytes_received)

/-- The method `UnreliableSocket::close`. -/
def UnreliableSocket.close (sock : UnreliableSocket) : UnreliableSocket × List Event :=
  (sock, [Event.close])

/-! ## `class ReliableSocket` -/

/-- The members of `ReliableSocket`, and two ghost fields: `trace`, everything
observable so far, and `objs`, the number of segment objects built from fields
so far. -/
structure ReliableSocket where
  socket : UnreliableSocket
  state : connection_status
  sequence_number : Nat
  estimated_rtt : Int
  dev_rtt : Int
  trace : List Event
  objs : Nat
  deriving DecidableEq, Repr

/-- One pass through the loop of `send_until_acked`, as the environment decides
it: the clock read before sending, what the receive gives, the clock read after. -/
structure Attempt where
  time_sent : Int
  result : RecvResult
  time_recieved : Int
  deriving DecidableEq, Repr

/-- How far a call got on the inputs it was given. -/
inductive Outcome (ι α : Type)
  /-- The call returned `value`; `rest` are the inputs it did not consume. -/
  | returned (st : ReliableSocket) (value : α) (rest : List ι)
  /-- The inputs ran out: the call is blocked in a receive. -/
  | waiting (st : ReliableSocket)
  /-- The process ended in `exit(EXIT_FAILURE)`. -/
  | exited (st : ReliableSocket)
  /-- A `SocketTimeout` or `ConnectionClosed` exception left the call. -/
  | threw (st : ReliableSocket)

/-- The constructor `ReliableSocket()`. -/
def ReliableSocket.init : ReliableSocket :=
  { socket := UnreliableSocket.init
    state := connection_status.INIT
    sequence_number := 0
    estimated_rtt := 200
    dev_rtt := 10
    trace := []
    objs := 0 }

/-- Run a method of the transport and record what it did. -/
def ReliableSocket.on_socket (st : ReliableSocket)
    (call : UnreliableSocket → UnreliableSocket × List Event) : ReliableSocket :=
  { st with socket := (call st.socket).1, trace := st.trace ++ (call st.socket).2 }

/-- The assignment `this->state = s`. -/
def ReliableSocket.set_state (st : ReliableSocket) (s : connection_status) : ReliableSocket :=
  { st with state := s, trace := st.trace ++ [Event.state s] }

/-- The call `this->socket.receive(buffer)`. -/
def ReliableSocket.receive (st : ReliableSocket) (buffer : Mem) (r : RecvResult) :
    ReliableSocket × Received :=
  let res := st.socket.receive buffer r
  ({ st with socket := res.1, trace := st.trace ++ res.2.1 }, res.2.2)

/-- A buffer `array<uint8_t, MAX_SEG_SIZE>` after `fill(0)`. -/
def zero_buffer : Mem := fun _ => 0

/-- The span over a whole `array<uint8_t, MAX_SEG_SIZE>`. -/
def buffer_span : Span := ⟨0, MAX_SEG_SIZE⟩

/-- What `send(send_buffer.data(), segment.get_total_size())` hands over after
`segment.copy_to(send_buffer)`. -/
def wire_bytes (host : Host) (m : Mem) (seg : RDTSegment) : List Nat :=
  (seg.copy_to host m).take seg.get_total_size

/-- The method `send_ack(ack_number)`. -/
def ReliableSocket.send_ack (host : Host) (st : ReliableSocket) (ack_number : Nat) :
    ReliableSocket :=
  let ack_message := RDTSegment.control host (host.junk st.objs) 0 ack_number RDT_ACK
  let st := { st with objs := st.objs + 1 }
  st.on_socket (fun sock => sock.send (wire_bytes host zero_buffer ack_message))

/-- The method `update_rtt(sample_rtt)`. The products and sums are taken in
`double`, where they are exact (the factors are multiples of 1/8 and the
operands are below `2^32`), and stored into `int` members, which truncates
toward zero. The difference `sample_rtt - estimated_rtt` is taken in `unsigned`
and handed to `abs(int)`. -/
def ReliableSocket.update_rtt (st : ReliableSocket) (sample_rtt : Nat) : ReliableSocket :=
  let estimated_rtt := Int.tdiv (7 * st.estimated_rtt + (sample_rtt : Int)) 8
  let diff_unsigned := ((sample_rtt : Int) - estimated_rtt) % 4294967296
  let diff_int := if diff_unsigned < 2147483648 then diff_unsigned else diff_unsigned - 4294967296
  let dev_rtt := Int.tdiv (3 * st.dev_rtt + (diff_int.natAbs : Int)) 4
  let timeout := estimated_rtt + 4 * dev_rtt
  let st := { st with estimated_rtt := estimated_rtt, dev_rtt := dev_rtt }
  st.on_socket (fun sock => sock.set_timeout_length timeout)

/-- The method `get_estimated_rtt`, a `uint32_t`. -/
def ReliableSocket.get_estimated_rtt (st : ReliableSocket) : Nat :=
  (st.estimated_rtt % 4294967296).toNat

/-- The retransmission loop of `send_until_acked`. Every segment received is
written to the log with `response.to_string()` before it is looked at, which
ends the process when its type is none of the four enumerators. -/
def send_loop (host : Host) (send_buffer : List Nat) (is_data : Bool) (expect_ack : Nat) :
    ReliableSocket → List Attempt → Outcome Attempt Unit
  | st, [] => Outcome.waiting (st.on_socket (fun sock => sock.send send_buffer))
  | st, a :: rest =>
    let st := st.on_socket (fun sock => sock.send send_buffer)
    match st.receive zero_buffer a.result with
    | (st, Received.segment received_data _) =>
      let rtt_sample := ((a.time_recieved - a.time_sent) % 4294967296).toNat
      let response := RDTSegment.of_span host received_data buffer_span
      match response.to_string host with
      | none => Outcome.exited st
      | some _ =>
        if response.get_type = RDT_ACK ∧ response.get_ack_number = expect_ack then
          Outcome.returned (if is_data then st.update_rtt rtt_sample else st) () rest
        else send_loop host send_buffer is_data expect_ack st rest
    | (st, Received.SocketTimeout) => send_loop host send_buffer is_data expect_ack st rest
    | (st, Received.ConnectionClosed) => Outcome.exited st
    | (st, Received.exit) => Outcome.exited st

/-- The method `send_until_acked(segment)`; `m` is the memory the payload of the
segment views. Its first statement writes `segment.to_string()` to the log. -/
def ReliableSocket.send_until_acked (host : Host) (st : ReliableSocket) (m : Mem)
    (segment : RDTSegment) (inputs : List Attempt) : Outcome Attempt Unit :=
  match segment.to_string host with
  | none => Outcome.exited st
  | some _ =>
    let send_buffer := wire_bytes host m segment
    if segment.get_type = RDT_DATA then
      send_loop host send_buffer true segment.get_sequence_number st inputs
    else if segment.get_type = RDT_CLOSE then
      send_loop host send_buffer false 4 st inputs
    else
      Outcome.returned (st.on_socket (fun sock => sock.send send_buffer)) () inputs

/-- The method `send_data(data)`; `m` is the memory the span `data` views. -/
def ReliableSocket.send_data (host : Host) (st : ReliableSocket) (m : Mem) (data : Span)
    (inputs : List Attempt) : Outcome Attempt Unit :=
  if st.state ≠ connection_status.WAIT_SEND then Outcome.returned st () inputs
  else
    let data_segment :=
      RDTSegment.with_payload host (host.junk st.objs) st.sequence_number 0 RDT_DATA data
    let st := { st with objs := st.objs + 1 }
    let st :=
      if st.sequence_number = 0 then st.set_state connection_status.WAIT_ACK0
      else st.set_state connection_status.WAIT_ACK1
    match st.send_until_acked host m data_segment inputs with
    | Outcome.returned st _ rest =>
      let st := { st with sequence_number := ((1 - (st.sequence_number : Int)) % 256).toNat }
      Outcome.returned (st.set_state connection_status.WAIT_SEND) () rest
    | other => other

/-- The loop of `connect_to_remote` that sends `RDT_CONN` until `ACK 2` arrives. -/
def connect_loop (host : Host) (send_buffer : List Nat) :
    ReliableSocket → List RecvResult → Outcome RecvResult Unit
  | st, [] => Outcome.waiting (st.on_socket (fun sock => sock.send send_buffer))
  | st, r :: rest =>
    let st := st.on_socket (fun sock => sock.send send_buffer)
    match st.receive zero_buffer r with
    | (st, Received.segment response _) =>
      let seg := RDTSegment.of_span host response buffer_span
      if seg.get_type = RDT_ACK ∧ seg.get_ack_number = 2 then Outcome.returned st () rest
      else connect_loop host send_buffer st rest
    | (st, Received.SocketTimeout) => connect_loop host send_buffer st rest
    | (st, Received.ConnectionClosed) => Outcome.threw st
    | (st, Received.exit) => Outcome.exited st

/-- The method `connect_to_remote(hostname, port_num)`. -/
def ReliableSocket.connect_to_remote (host : Host) (st : ReliableSocket) (hostname : String)
    (port_num : Int) (inputs : List RecvResult) : Outcome RecvResult Unit :=
  if st.state ≠ connection_status.INIT then Outcome.exited st
  else
    let st := st.on_socket (fun sock => sock.connect hostname port_num)
    let conn_message := RDTSegment.control host (host.junk st.objs) 0 0 RDT_CONN
    let st := { st with objs := st.objs + 1 }
    let st := st.on_socket (fun sock => sock.set_timeout_length (st.estimated_rtt + 4 * st.dev_rtt))
    let st := st.set_state connection_status.WAIT_HS2
    match connect_loop host (wire_bytes host zero_buffer conn_message) st inputs with
    | Outcome.returned st _ rest =>
      let st := st.set_state connection_status.WAIT_HS3
      let st := ReliableSocket.send_ack host st 3
      Outcome.returned (st.set_state connection_status.WAIT_SEND) () rest
    | other => other

/-- The second loop of `accept_connection`: wait for `ACK 3`, answer `RDT_CONN`
and timeouts with `ACK 2`. -/
def accept_wait_ack (host : Host) : ReliableSocket → List RecvResult → Outcome RecvResult Unit
  | st, [] => Outcome.waiting st
  | st, r :: rest =>
    match st.receive zero_buffer r with
    | (st, Received.segment response _) =>
      let seg := RDTSegment.of_span host response buffer_span
      if seg.get_type = RDT_ACK ∧ seg.get_ack_number = 3 then
        Outcome.returned (st.set_state connection_status.WAIT_DATA0) () rest
      else if seg.get_type = RDT_CONN then
        accept_wait_ack host (ReliableSocket.send_ack host st 2) rest
      else accept_wait_ack host st rest
    | (st, Received.SocketTimeout) => accept_wait_ack host (ReliableSocket.send_ack host st 2) rest
    | (st, Received.ConnectionClosed) => Outcome.threw st
    | (st, Received.exit) => Outcome.exited st

/-- The first loop of `accept_connection`: wait for `RDT_CONN`, then answer it
with `ACK 2`, set the timeout and go on to the second loop. No exception is
caught here. -/
def accept_wait_conn (host : Host) : ReliableSocket → List RecvResult → Outcome RecvResult Unit
  | st, [] => Outcome.waiting st
  | st, r :: rest =>
    match st.receive zero_buffer r with
    | (st, Received.segment segment _) =>
      let seg := RDTSegment.of_span host segment buffer_span
      if seg.get_type = RDT_CONN then
        let st := ReliableSocket.send_ack host st 2
        let st :=
          st.on_socket (fun sock => sock.set_timeout_length (st.estimated_rtt + 4 * st.dev_rtt))
        accept_wait_ack host st rest
      else accept_wait_conn host st rest
    | (st, Received.SocketTimeout) => Outcome.threw st
    | (st, Received.ConnectionClosed) => Outcome.threw st
    | (st, Received.exit) => Outcome.exited st

/-- The method `accept_connection(port_num)`. -/
def ReliableSocket.accept_connection (host : Host) (st : ReliableSocket) (port_num : Int)
    (inputs : List RecvResult) : Outcome RecvResult Unit :=
  if st.state ≠ connection_status.INIT then Outcome.exited st
  else accept_wait_conn host (st.on_socket (fun sock => sock.bind port_num)) inputs

/-- The linger loop of `close_connection` on the receiving side: every
`RDT_CLOSE` is answered with `ACK 4`, a timeout or a closed channel ends the
loop. The loop reads no clock, only the `result` of each input is used. -/
def close_linger (host : Host) : ReliableSocket → List Attempt → Outcome Attempt Unit
  | st, [] => Outcome.waiting st
  | st, a :: rest =>
    match st.receive zero_buffer a.result with
    | (st, Received.segment received_segment _) =>
      let seg := RDTSegment.of_span host received_segment buffer_span
      if seg.get_type = RDT_CLOSE then close_linger host (ReliableSocket.send_ack host st 4) rest
      else close_linger host st rest
    | (st, Received.SocketTimeout) => Outcome.returned st () rest
    | (st, Received.ConnectionClosed) => Outcome.returned st () rest
    | (st, Received.exit) => Outcome.exited st

/-- The method `close_connection()`. -/
def ReliableSocket.close_connection (host : Host) (st : ReliableSocket) (inputs : List Attempt) :
    Outcome Attempt Unit :=
  if st.state = connection_status.WAIT_SEND then
    let close_message := RDTSegment.control host (host.junk st.objs) 4 0 RDT_CLOSE
    let st := { st with objs := st.objs + 1 }
    match st.send_until_acked host zero_buffer close_message inputs with
    | Outcome.returned st _ rest =>
      let st := st.set_state connection_status.CLOSED
      Outcome.returned (st.on_socket (fun sock => sock.close)) () rest
    | other => other
  else if st.state = connection_status.CLOSING then
    let st := st.on_socket (fun sock => sock.set_timeout_length 2000)
    match close_linger host st inputs with
    | Outcome.returned st _ rest =>
      let st := st.set_state connection_status.CLOSED
      Outcome.returned (st.on_socket (fun sock => sock.close)) () rest
    | other => other
  else Outcome.returned (st.on_socket (fun sock => sock.close)) () inputs

/-- The loop of `receive_data`. `received_segment` is the receive buffer, which
is filled with zeros once before the loop and keeps what earlier datagrams left
in it; `buffer` is the buffer of the caller. The value returned is the return
value of `receive_data` and the caller's buffer afterwards. Every segment
received is written to the log with `data_segment.to_string()` before its type
is tested, which ends the process when the type is none of the four
enumerators. -/
def receive_loop (host : Host) (expected_seq : Nat) (buffer : Mem) :
    Mem → ReliableSocket → List RecvResult → Outcome RecvResult (Nat × Mem)
  | _, st, [] => Outcome.waiting st
  | received_segment, st, r :: rest =>
    match st.receive received_segment r with
    | (st, Received.segment received_segment _) =>
      let data_segment := RDTSegment.of_span host received_segment buffer_span
      match data_segment.to_string host with
      | none => Outcome.exited st
      | some _ =>
        if data_segment.get_type = RDT_DATA then
          if data_segment.get_sequence_number = expected_seq then
            let st := ReliableSocket.send_ack host st expected_seq
            let st :=
              st.set_state
                (if st.state = connection_status.WAIT_DATA0 then connection_status.WAIT_DATA1
                 else connection_status.WAIT_DATA0)
            Outcome.returned st
              (data_segment.get_payload_size,
                buffer.write 0 (data_segment.copy_payload_to received_segment)) rest
          else
            let last_seq := ((1 - (expected_seq : Int)) % 256).toNat
            receive_loop host expected_seq buffer received_segment
              (ReliableSocket.send_ack host st last_seq) rest
        else if data_segment.get_type = RDT_CLOSE then
          let st := ReliableSocket.send_ack host st 4
          Outcome.returned (st.set_state connection_status.CLOSING) (0, buffer) rest
        else receive_loop host expected_seq buffer received_segment st rest
    | (st, Received.SocketTimeout) => Outcome.threw st
    | (st, Received.ConnectionClosed) => Outcome.exited st
    | (st, Received.exit) => Outcome.exited st

/-- The method `receive_data(buffer)`. -/
def ReliableSocket.receive_data (host : Host) (st : ReliableSocket) (buffer : Mem)
    (inputs : List RecvResult) : Outcome RecvResult (Nat × Mem) :=
  if st.state ≠ connection_status.WAIT_DATA0 ∧ st.state ≠ connection_status.WAIT_DATA1 then
    Outcome.returned st (0, buffer) inputs
  else
    let expected_seq := if st.state = connection_status.WAIT_DATA0 then 0 else 1
    let st := st.on_socket (fun sock => sock.set_timeout_length 0)
    receive_loop host expected_seq buffer zero_buffer st inputs

/-! ## Statements: vocabulary -/

/-- The state a call ended in, or is blocked in. -/
def Outcome.final {ι α : Type} : Outcome ι α → ReliableSocket
  | Outcome.returned st _ _ => st
  | Outcome.waiting st => st
  | Outcome.exited st => st
  | Outcome.threw st => st

/-- The state with further events recorded and nothing else changed. -/
def ReliableSocket.log (st : ReliableSocket) (events : List Event) : ReliableSocket :=
  { st with trace := st.trace ++ events }

/-- The segment a receiver decodes from a datagram. -/
def received_segment (host : Host) (bytes : List Nat) : RDTSegment :=
  RDTSegment.of_span host (zero_buffer.write 0 (bytes.take MAX_SEG_SIZE)) buffer_span

/-- The receive timed out. -/
def is_timeout : RecvResult → Bool
  | RecvResult.eagain => true
  | _ => false

/-- The receive delivered a segment (a datagram that is not empty). -/
def is_segment : RecvResult → Bool
  | RecvResult.datagram bytes => !bytes.isEmpty
  | _ => false

/-- The receive delivered a segment of type `type`. -/
def is_type (host : Host) (type : Nat) : RecvResult → Bool
  | RecvResult.datagram bytes =>
    !bytes.isEmpty && decide ((received_segment host bytes).get_type = type)
  | _ => false

/-- The receive delivered an `RDT_ACK` segment with acknowledgement number `n`. -/
def is_ack (host : Host) (n : Nat) : RecvResult → Bool
  | RecvResult.datagram bytes =>
    !bytes.isEmpty && decide ((received_segment host bytes).get_type = RDT_ACK) &&
      decide ((received_segment host bytes).get_ack_number = n)
  | _ => false

/-- The receive neither ends the wait for `ACK n` nor the process: a timeout, or
a segment that is not `ACK n`. This is for the loops of the handshake, which do
not write the segments they receive to the log. -/
def is_noise (host : Host) (n : Nat) (r : RecvResult) : Bool :=
  is_timeout r || (is_segment r && !is_ack host n r)

/-- The type is one of the four enumerators of `RDTMessageType`, the values for
which `message_type_to_string` returns. -/
def known_type (type : Nat) : Bool := (message_type_to_string type).isSome

/-- The receive delivered a segment whose type is one of the four enumerators. -/
def is_known (host : Host) : RecvResult → Bool
  | RecvResult.datagram bytes =>
    !bytes.isEmpty && known_type (received_segment host bytes).get_type
  | _ => false

/-- The receive makes the loop of `send_until_acked`, waiting for `ACK n`, go
round again: a timeout, or a segment of one of the four types that is not
`ACK n`. -/
def is_retry (host : Host) (n : Nat) (r : RecvResult) : Bool :=
  is_timeout r || (is_known host r && !is_ack host n r)

/-- The events of a stop-and-wait loop that transmits `bytes` before each receive. -/
def attempts_trace (bytes : List Nat) (timeout_length : Nat) : List RecvResult → List Event
  | [] => []
  | r :: rs =>
    Event.send bytes :: Event.receive timeout_length r :: attempts_trace bytes timeout_length rs

/-- The byte strings handed to the transport, in order. -/
def sent_bytes : List Event → List (List Nat)
  | [] => []
  | Event.send bytes :: es => bytes :: sent_bytes es
  | _ :: es => sent_bytes es

/-- The values assigned to `state`, in order. -/
def states_assigned : List Event → List connection_status
  | [] => []
  | Event.state s :: es => s :: states_assigned es
  | _ :: es => states_assigned es

/-- The sample `send_until_acked` computes from the two clock readings of an attempt. -/
def rtt_sample (a : Attempt) : Nat := ((a.time_recieved - a.time_sent) % 4294967296).toNat

/-- A little-endian host whose uninitialised bytes are zero. -/
def host_le : Host := ⟨true, fun _ => 0⟩

/-- A datagram carrying the control segment `ACK n` as `send_ack` writes it. -/
def ack_datagram (n : Nat) : RecvResult := RecvResult.datagram [0, n, RDT_ACK, 0, 0, 0]

/-- A datagram carrying the `RDT_CONN` segment as `connect_to_remote` writes it. -/
def conn_datagram : RecvResult := RecvResult.datagram [0, 0, RDT_CONN, 0, 0, 0]

/-- A client right after its handshake: `connect_to_remote` on a new socket,
answered by `ACK 2` at once. -/
def sender_ready : ReliableSocket :=
  (ReliableSocket.init.connect_to_remote host_le "10.0.0.2" 4000 [ack_datagram 2]).final

/-- The state once the transport has remembered its peer. -/
def ReliableSocket.mark_connected (st : ReliableSocket) : ReliableSocket :=
  { st with socket := { st.socket with connected := true } }

/-- The bytes of the control segment `ACK n` built as the `i`-th segment object. -/
def ack_bytes (host : Host) (i n : Nat) : List Nat := [0, n, RDT_ACK, host.junk i % 256, 0, 0]

/-- The bytes of the `RDT_CONN` segment built as the `i`-th segment object. -/
def conn_bytes (host : Host) (i : Nat) : List Nat := [0, 0, RDT_CONN, host.junk i % 256, 0, 0]

/-- The receive makes `accept_connection`, waiting for `ACK 3`, send `ACK 2`
again: a timeout or an `RDT_CONN` segment. -/
def asks_for_ack2 (host : Host) (r : RecvResult) : Bool :=
  is_timeout r || is_type host RDT_CONN r

/-- The events of the second loop of `accept_connection` on receives that do not
end it: every receive, followed by an `ACK 2` where it is a timeout or an
`RDT_CONN` segment; `i` counts the segment objects built. -/
def replies_trace (host : Host) (timeout_length : Nat) : Nat → List RecvResult → List Event
  | _, [] => []
  | i, r :: rs =>
    if asks_for_ack2 host r then
      Event.receive timeout_length r :: Event.send (ack_bytes host i 2) ::
        replies_trace host timeout_length (i + 1) rs
    else Event.receive timeout_length r :: replies_trace host timeout_length i rs

/-- The receive delivered a datagram of type `RDT_DATA` that holds a whole header
and carries sequence number `n`. -/
def is_data (host : Host) (n : Nat) : RecvResult → Bool
  | RecvResult.datagram bytes =>
    decide (sizeof_RDTHeader ≤ bytes.length) &&
      decide ((received_segment host bytes).get_type = RDT_DATA) &&
      decide ((received_segment host bytes).get_sequence_number = n)
  | _ => false

/-- The receive delivered a datagram of type `RDT_DATA` that holds a whole header
and carries a sequence number other than `n`: for a receiver that expects `n`, a
duplicate of what it delivered last. -/
def is_duplicate (host : Host) (n : Nat) : RecvResult → Bool
  | RecvResult.datagram bytes =>
    decide (sizeof_RDTHeader ≤ bytes.length) &&
      decide ((received_segment host bytes).get_type = RDT_DATA) &&
      decide ((received_segment host bytes).get_sequence_number ≠ n)
  | _ => false

/-- The receive delivered a datagram of type `RDT_CLOSE` that holds a whole header. -/
def is_close (host : Host) : RecvResult → Bool
  | RecvResult.datagram bytes =>
    decide (sizeof_RDTHeader ≤ bytes.length) &&
      decide ((received_segment host bytes).get_type = RDT_CLOSE)
  | _ => false

/-- The receive delivered a datagram that holds a whole header and is of one of
the two types that are neither `RDT_DATA` nor `RDT_CLOSE`: an `RDT_ACK` or an
`RDT_CONN` segment. -/
def is_neither (host : Host) : RecvResult → Bool
  | RecvResult.datagram bytes =>
    decide (sizeof_RDTHeader ≤ bytes.length) &&
      (decide ((received_segment host bytes).get_type = RDT_ACK) ||
        decide ((received_segment host bytes).get_type = RDT_CONN))
  | _ => false

/-- The events of the loop of `receive_data`, expecting sequence number `b`, on
receives that do not end it: every receive, followed by an `ACK` for the other
bit where it is a duplicate; `i` counts the segment objects built. -/
def duplicates_trace (host : Host) (b : Nat) : Nat → List RecvResult → List Event
  | _, [] => []
  | i, r :: rs =>
    if is_duplicate host b r then
      Event.receive 0 r :: Event.send (ack_bytes host i (1 - b)) ::
        duplicates_trace host b (i + 1) rs
    else Event.receive 0 r :: duplicates_trace host b i rs

/-- A datagram carrying a DATA segment as `send_data` writes it: sequence number
`b`, padding byte `pad`, the payload. -/
def data_datagram (b pad : Nat) (payload : List Nat) : RecvResult :=
  RecvResult.datagram
    ([b, 0, RDT_DATA, pad, payload.length / 256, payload.length % 256] ++ payload)

/-- A datagram carrying the `RDT_CLOSE` segment as `close_connection` writes it. -/
def close_datagram : RecvResult := RecvResult.datagram [4, 0, RDT_CLOSE, 0, 0, 0]

/-- A server right after its handshake: `accept_connection` on a new socket that
receives `RDT_CONN` and then `ACK 3`. -/
def receiver_ready : ReliableSocket :=
  (ReliableSocket.init.accept_connection host_le 4000 [conn_datagram, ack_datagram 3]).final

/-- The state `WAIT_DATA0` or `WAIT_DATA1` in which sequence number `b` is expected. -/
def wait_data (b : Nat) : connection_status :=
  if b = 0 then connection_status.WAIT_DATA0 else connection_status.WAIT_DATA1

/-- The receive reported that the channel was closed (the system call returned 0). -/
def is_closed_channel : RecvResult → Bool
  | RecvResult.datagram bytes => bytes.isEmpty
  | _ => false

/-- The bytes of the `RDT_CLOSE` segment built as the `i`-th segment object. -/
def close_bytes (host : Host) (i : Nat) : List Nat := [4, 0, RDT_CLOSE, host.junk i % 256, 0, 0]

/-- The events of the linger loop of `close_connection` on segments: every
receive, followed by an `ACK 4` where the segment is a `RDT_CLOSE`; `i` counts
the segment objects built. -/
def linger_trace (host : Host) : Nat → List RecvResult → List Event
  | _, [] => []
  | i, r :: rs =>
    if is_type host RDT_CLOSE r then
      Event.receive 2000 r :: Event.send (ack_bytes host i 4) :: linger_trace host (i + 1) rs
    else Event.receive 2000 r :: linger_trace host i rs

/-- A call of one of the three methods that may follow the handshake, with the
inputs the environment gives it. -/
inductive Call
  | send_data (m : Mem) (data : Span) (inputs : List Attempt)
  | receive_data (buffer : Mem) (inputs : List RecvResult)
  | close_connection (inputs : List Attempt)

/-- The state a call leaves the connection in. -/
def Call.run (host : Host) (st : ReliableSocket) : Call → ReliableSocket
  | Call.send_data m data inputs => (st.send_data host m data inputs).final
  | Call.receive_data buffer inputs => (st.receive_data host buffer inputs).final
  | Call.close_connection inputs => (st.close_connection host inputs).final

/-- The state after a series of calls. -/
def run_calls (host : Host) (st : ReliableSocket) (calls : List Call) : ReliableSocket :=
  calls.foldl (Call.run host) st

/-- A server that has delivered the segment with bit 0 (the bytes of "hello") and
expects bit 1. -/
def receiver_after_hello : ReliableSocket :=
  (receiver_ready.receive_data host_le zero_buffer
    [data_datagram 0 0 [104, 101, 108, 108, 111]]).final

/-- A server that has seen the close request: `receive_data` on a server right
after its handshake, given a `RDT_CLOSE` segment. -/
def receiver_closing : ReliableSocket :=
  (receiver_ready.receive_data host_le zero_buffer [close_datagram]).final

/-! ## The two programs and the channel between them -/

/-- Run a call that reads no clock on inputs that carry clock readings. -/
def on_results {α : Type} (call : List RecvResult → Outcome RecvResult α)
    (inputs : List Attempt) : Outcome Attempt α :=
  match call (inputs.map Attempt.result) with
  | Outcome.returned st value rest =>
    Outcome.returned st value (inputs.drop (inputs.length - rest.length))
  | Outcome.waiting st => Outcome.waiting st
  | Outcome.exited st => Outcome.exited st
  | Outcome.threw st => Outcome.threw st

/-- Go on with the next call when this one has returned. -/
def Outcome.and_then {ι α β : Type} (o : Outcome ι α)
    (next : ReliableSocket → α → List ι → Outcome ι β) : Outcome ι β :=
  match o with
  | Outcome.returned st value rest => next st value rest
  | Outcome.waiting st => Outcome.waiting st
  | Outcome.exited st => Outcome.exited st
  | Outcome.threw st => Outcome.threw st

/-- The value a call returned, if it returned. -/
def Outcome.value {ι α : Type} : Outcome ι α → Option α
  | Outcome.returned _ value _ => some value
  | _ => none

/-- The call is blocked in a receive. -/
def Outcome.is_waiting {ι α : Type} : Outcome ι α → Bool
  | Outcome.waiting _ => true
  | _ => false

/-- The bytes of "hello". -/
def hello : List Nat := [104, 101, 108, 108, 111]

/-- The bytes of "world". -/
def world : List Nat := [119, 111, 114, 108, 100]

/-- The client of the end-to-end scenario: connect, send "hello", send "world",
close. -/
def client_program (host : Host) (inputs : List Attempt) : Outcome Attempt Unit :=
  (on_results (ReliableSocket.init.connect_to_remote host "server" 4000) inputs).and_then
    fun st _ rest =>
  (st.send_data host (Mem.write zero_buffer 0 hello) ⟨0, 5⟩ rest).and_then fun st _ rest =>
  (st.send_data host (Mem.write zero_buffer 0 world) ⟨0, 5⟩ rest).and_then fun st _ rest =>
  st.close_connection host rest

/-- The receive loop of `receiver.cpp`: call `receive_data` until it returns 0 and
append the bytes received to the output. Every pass that goes round consumes an
input, so `fuel` above the number of inputs is never used up. -/
def receive_all (host : Host) :
    Nat → ReliableSocket → Mem → List Nat → List Attempt → Outcome Attempt (List Nat)
  | 0, st, _, _, _ => Outcome.waiting st
  | fuel + 1, st, segment, output, inputs =>
    match on_results (st.receive_data host segment) inputs with
    | Outcome.returned st (bytes_received, segment) rest =>
      if bytes_received = 0 then Outcome.returned st output rest
      else
        receive_all host fuel st segment
          (output ++ (List.range bytes_received).map segment.read) rest
    | Outcome.waiting st => Outcome.waiting st
    | Outcome.exited st => Outcome.exited st
    | Outcome.threw st => Outcome.threw st

/-- The server of the end-to-end scenario, the `main` of `receiver.cpp`: accept,
receive until end of stream, close. The value is the output written. -/
def server_program (host : Host) (inputs : List Attempt) : Outcome Attempt (List Nat) :=
  (on_results (ReliableSocket.init.accept_connection host 4000) inputs).and_then
    fun st _ rest =>
  (receive_all host (rest.length + 1) st zero_buffer [] rest).and_then fun st output rest =>
  (st.close_connection host rest).and_then fun st _ rest => Outcome.returned st output rest

/-- Modelled from the spec: the state of the simulated channel of the end-to-end
scenario, which is not part of the sources. Each endpoint is a function of what
its receives have given it so far (`client`, `server`); `client_taken` and
`server_taken` count the packets of each endpoint the channel has taken over;
`turn` says whose timer goes first when both endpoints are blocked. -/
structure System where
  client : List Attempt
  server : List Attempt
  client_taken : Nat
  server_taken : Nat
  turn : Bool
  deriving DecidableEq, Repr

/-- Modelled from the spec: the scenario starts with nothing received and nothing sent. -/
def System.start : System := ⟨[], [], 0, 0, true⟩

/-- A receive that gives the packet `bytes`. -/
def arrival (bytes : List Nat) : Attempt := ⟨0, RecvResult.datagram bytes, 0⟩

/-- A receive that times out. -/
def expiry : Attempt := ⟨0, RecvResult.eagain, 0⟩

/-- The endpoint is blocked in a receive that can time out (a timeout length of 0
waits for ever). -/
def times_out {α : Type} (o : Outcome Attempt α) : Bool :=
  o.is_waiting && decide (o.final.socket.timeout_length ≠ 0)

/-- Modelled from the spec: one step of the simulated channel. A packet an
endpoint has sent and the channel has not yet taken over is taken over: it is
dropped where `drops` says so (given its number among all packets and among the
packets of its sender) and given to the next receive of the peer otherwise. When
no packet is left, a blocked endpoint times out, the two taking turns. -/
def step (host : Host) (drops : Nat → Nat → Bool) (s : System) : System :=
  let c := client_program host s.client
  let v := server_program host s.server
  let c_sent := sent_bytes c.final.trace
  let v_sent := sent_bytes v.final.trace
  if s.client_taken < c_sent.length then
    let packet := c_sent.getD s.client_taken []
    if drops (s.client_taken + s.server_taken + 1) (s.client_taken + 1) then
      { s with client_taken := s.client_taken + 1 }
    else { s with client_taken := s.client_taken + 1, server := s.server ++ [arrival packet] }
  else if s.server_taken < v_sent.length then
    let packet := v_sent.getD s.server_taken []
    if drops (s.client_taken + s.server_taken + 1) (s.server_taken + 1) then
      { s with server_taken := s.server_taken + 1 }
    else { s with server_taken := s.server_taken + 1, client := s.client ++ [arrival packet] }
  else if times_out c ∧ (s.turn ∨ ¬ times_out v) then
    { s with client := s.client ++ [expiry], turn := false }
  else if times_out v then { s with server := s.server ++ [expiry], turn := true }
  else s

/-- Modelled from the spec: the simulated channel after `n` steps. -/
def simulate (host : Host) (drops : Nat → Nat → Bool) : Nat → System → System
  | 0, s => s
  | n + 1, s => simulate host drops n (step host drops s)

/-- Modelled from the spec: the channel that drops every third packet, counting
all packets in the order they are sent. -/
def every_third : Nat → Nat → Bool := fun packet _ => packet % 3 == 0

/-- Modelled from the spec: the channel that drops every third packet of each
sender. -/
def every_third_of_each : Nat → Nat → Bool := fun _ own => own % 3 == 0

/-- The `RDT_CONN` segment of the scenario on the wire. -/
def conn_wire : List Nat := [0, 0, RDT_CONN, 0, 0, 0]

/-- The segment `ACK n` of the scenario on the wire. -/
def ack_wire (n : Nat) : List Nat := [0, n, RDT_ACK, 0, 0, 0]

/-- The first DATA segment of the scenario on the wire. -/
def hello_wire : List Nat := [0, 0, RDT_DATA, 0, 0, 5] ++ hello

/-- What holds from the moment the client's `ACK 3` is lost: the server has
received the connection request and then only timeouts and the first DATA
segment, the client has received `ACK 2` and then only timeouts and `ACK 2`
again, and the channel has taken over the first two packets of the client and
the first packet of the server. -/
def handshake_stuck (s : System) : Prop :=
  (∃ xs, s.server = arrival conn_wire :: xs ∧ ∀ x ∈ xs, x = expiry ∨ x = arrival hello_wire) ∧
  (∃ ys, s.client = arrival (ack_wire 2) :: ys ∧
    ∀ y ∈ ys, y = expiry ∨ y = arrival (ack_wire 2)) ∧
  2 ≤ s.client_taken ∧ 1 ≤ s.server_taken

/-- The state after `update_rtt` has been given the samples, first to last. -/
def feed_samples (st : ReliableSocket) (samples : List Nat) : ReliableSocket :=
  samples.foldl ReliableSocket.update_rtt st

/-- The receive delivered a segment that is out of place in the handshake of the
server: a DATA segment, a close request, or an `ACK` with a number other than 3. -/
def is_stray (host : Host) (r : RecvResult) : Bool :=
  is_type host RDT_DATA r || is_type host RDT_CLOSE r ||
    (is_type host RDT_ACK r && !is_ack host 3 r)

/-- A call a client makes on its connection, with the inputs the environment
gives it. -/
inductive ClientCall
  | connect_to_remote (hostname : String) (port_num : Int) (inputs : List RecvResult)
  | send_data (m : Mem) (data : Span) (inputs : List Attempt)
  | close_connection (inputs : List Attempt)

/-- The state a call of the client leaves the connection in: the state it
returns in, or the state it is blocked or ended in. -/
def ClientCall.run (host : Host) (st : ReliableSocket) : ClientCall → ReliableSocket
  | ClientCall.connect_to_remote hostname port_num inputs =>
    (st.connect_to_remote host hostname port_num inputs).final
  | ClientCall.send_data m data inputs => (st.send_data host m data inputs).final
  | ClientCall.close_connection inputs => (st.close_connection host inputs).final

/-- The state after a series of calls of the client. Calls that follow one that
did not return are run as well, from the state that one stopped in. -/
def client_run (host : Host) (st : ReliableSocket) (calls : List ClientCall) : ReliableSocket :=
  calls.foldl (ClientCall.run host) st

/-- The DATA segment a call has sent successfully, if it has: the call is a
`send_data` made in `WAIT_SEND` that returned, the segment is the byte string it
handed to the transport last. -/
def ClientCall.acked (host : Host) (st : ReliableSocket) : ClientCall → Option (List Nat)
  | ClientCall.send_data m data inputs =>
    match st.send_data host m data inputs with
    | Outcome.returned st' _ _ =>
      if st.state = connection_status.WAIT_SEND then
        (sent_bytes (st'.trace.drop st.trace.length)).getLast?
      else none
    | _ => none
  | _ => none

/-- The DATA segments a series of calls has sent successfully, in order. -/
def acked_segments (host : Host) : ReliableSocket → List ClientCall → List (List Nat)
  | _, [] => []
  | st, c :: cs => (c.acked host st).toList ++ acked_segments host (c.run host st) cs

/-- The payload a call hands over is no longer than `MAX_DATA_SIZE`. -/
def ClientCall.fits : ClientCall → Bool
  | ClientCall.send_data _ data _ => decide (data.size ≤ MAX_DATA_SIZE)
  | _ => true

end RDT

namespace Music

/-! # Streaming Music Protocol (p05), server: message header and chunked senders

A shallow embedding of `protocol.{h,cpp}` and `ChunkedDataSender.{h,cpp}`. Byte
arrays (`std::vector<char>`) are lists of bytes, a `std::span<char>` is an
address and a length over flat memory as in the transport library above, the
byte order of the host is an input. `size_t` is 64 bits wide. -/

/-- The function `htonl`: a 32-bit value in network (big-endian) order, as the
host stores it. The argument is converted to `uint32_t` first. -/
def htonl (host : RDT.Host) (x : Nat) : Nat :=
  let v := x % 4294967296
  if host.little_endian then
    (v % 256) * 16777216 + (v / 256 % 256) * 65536 + (v / 65536 % 256) * 256 + v / 16777216
  else v

/-- The function `ntohl`, the same byte swap as `htonl`. -/
def ntohl (host : RDT.Host) (x : Nat) : Nat :=
  let v := x % 4294967296
  if host.little_endian then
    (v % 256) * 16777216 + (v / 256 % 256) * 65536 + (v / 65536 % 256) * 256 + v / 16777216
  else v

/-- Object representation of a `uint32_t` on the host: the byte at offset `i`. -/
def u32_byte (host : RDT.Host) (v : Nat) (i : Nat) : Nat :=
  if host.little_endian then v / 256 ^ i % 256 else v / 256 ^ (3 - i) % 256

/-- The `uint32_t` whose object representation is the four bytes `b0 b1 b2 b3`. -/
def u32_of_bytes (host : RDT.Host) (b0 b1 b2 b3 : Nat) : Nat :=
  if host.little_endian then
    b0 % 256 + 256 * (b1 % 256) + 65536 * (b2 % 256) + 16777216 * (b3 % 256)
  else 16777216 * (b0 % 256) + 65536 * (b1 % 256) + 256 * (b2 % 256) + b3 % 256

/-- The enumerators of `message_type : uint8_t`. -/
def LIST_REQUEST : Nat := 0x00
/-- Enumerator `LIST_RESPONSE`. -/
def LIST_RESPONSE : Nat := 0x01
/-- Enumerator `INFO_REQUEST`. -/
def INFO_REQUEST : Nat := 0x02
/-- Enumerator `INFO_RESPONSE`. -/
def INFO_RESPONSE : Nat := 0x03
/-- Enumerator `PLAY_REQUEST`. -/
def PLAY_REQUEST : Nat := 0x04
/-- Enumerator `PLAY_RESPONSE`. -/
def PLAY_RESPONSE : Nat := 0x05
/-- Enumerator `STOP_REQUEST`. -/
def STOP_REQUEST : Nat := 0x06
/-- Enumerator `AUDIO_DATA`. -/
def AUDIO_DATA : Nat := 0x07
/-- Enumerator `STREAM_END`. -/
def STREAM_END : Nat := 0x08
/-- Enumerator `ERROR_RESPONSE`. -/
def ERROR_RESPONSE : Nat := 0xFF

/-- All enumerators of `message_type`. -/
def message_types : List Nat :=
  [LIST_REQUEST, LIST_RESPONSE, INFO_REQUEST, INFO_RESPONSE, PLAY_REQUEST, PLAY_RESPONSE,
    STOP_REQUEST, AUDIO_DATA, STREAM_END, ERROR_RESPONSE]

/-- The function template `unpack<T>(byte_array, offset)`: the `size = sizeof(T)`
bytes that `std::copy_n` copies into the value, starting `offset` bytes into the
span. The length of the span is not consulted. -/
def unpack (m : RDT.Mem) (byte_array : RDT.Span) (offset size : Nat) : List Nat :=
  (List.range size).map (fun i => m.read (byte_array.data + offset + i))

/-- A `Header` object: `type`, and `len` as stored (the value produced by `htonl`). -/
structure Header where
  type : Nat
  len : Nat
  deriving DecidableEq, Repr

/-- The constant `Header::size = sizeof(uint8_t) + sizeof(uint32_t)`. -/
def Header.size : Nat := 1 + 4

/-- The constructor `Header(type, len)`. -/
def Header.of_fields (host : RDT.Host) (type len : Nat) : Header :=
  { type := type % 256, len := htonl host len }

/-- The constructor `Header(byte_array)`: `type` is unpacked from offset 0, `len`
from offset 1. -/
def Header.of_span (host : RDT.Host) (m : RDT.Mem) (byte_array : RDT.Span) : Header :=
  let t := unpack m byte_array 0 1
  let l := unpack m byte_array 1 4
  { type := t.getD 0 0
    len := u32_of_bytes host (l.getD 0 0) (l.getD 1 0) (l.getD 2 0) (l.getD 3 0) }

/-- Getter `get_type`. -/
def Header.get_type (h : Header) : Nat := h.type

/-- Getter `get_len`: the stored value in host order. -/
def Header.get_len (host : RDT.Host) (h : Header) : Nat := ntohl host h.len

/-- The call `std::copy_n(src, n, bytes.begin() + loc)` for `n` bytes `src`: the
vector afterwards. -/
def copy_n (src : List Nat) (bytes : List Nat) (loc : Nat) : List Nat :=
  bytes.take loc ++ src ++ bytes.drop (loc + src.length)

/-- The method `to_byte_array()`. -/
def Header.to_byte_array (host : RDT.Host) (h : Header) : List Nat :=
  let bytes := List.replicate Header.size 0
  let current_loc := 0
  let bytes := copy_n [h.type % 256] bytes current_loc
  let current_loc := current_loc + 1
  copy_n ((List.range 4).map (u32_byte host h.len)) bytes current_loc

/-! ## Chunked senders -/

/-- The constant `CHUNK_SIZE`. -/
def CHUNK_SIZE : Nat := 4096

/-- Conversion to `size_t`. -/
def to_size_t (x : Int) : Nat := (x % 18446744073709551616).toNat

/-- Conversion of a `size_t` value to a signed 64-bit type (`long`,
`std::streamoff`). -/
def to_long (x : Nat) : Int :=
  if x % 18446744073709551616 < 9223372036854775808 then (x % 18446744073709551616 : Nat)
  else ((x % 18446744073709551616 : Nat) : Int) - 18446744073709551616

/-- What one call of the system call `send` gives: its return value, and whether
`errno` is `EAGAIN` afterwards. -/
structure SendResult where
  value : Int
  eagain : Bool
  deriving DecidableEq, Repr

/-- How a call of `send_next_chunk` on a sender object of type `σ` ends. -/
inductive Chunk (σ : Type)
  /-- It returned `value`; `offered` are the bytes it handed to `send`, if it
  called `send`. -/
  | returned (sender : σ) (value : Int) (offered : Option (List Nat))
  /-- It called `exit(EXIT_FAILURE)` after handing `offered` to `send`. -/
  | exited (sender : σ) (offered : List Nat)

/-- The sender object after the call. -/
def Chunk.sender {σ : Type} : Chunk σ → σ
  | Chunk.returned sender _ _ => sender
  | Chunk.exited sender _ => sender

/-- The value the call returned, if it returned. -/
def Chunk.value {σ : Type} : Chunk σ → Option Int
  | Chunk.returned _ value _ => some value
  | Chunk.exited _ _ => none

/-- The bytes the call handed to `send`, if it called `send`. -/
def Chunk.offered {σ : Type} : Chunk σ → Option (List Nat)
  | Chunk.returned _ _ offered => offered
  | Chunk.exited _ offered => some offered

/-- The bytes the socket took over in the call: the first `value` of the bytes
offered when `send` returned a positive `value`. -/
def Chunk.accepted {σ : Type} : Chunk σ → List Nat
  | Chunk.returned _ value (some offered) => if 0 < value then offered.take value.toNat else []
  | _ => []

/-- The members of `ArraySender`. -/
structure ArraySender where
  array : List Nat
  curr_loc : Nat
  deriving DecidableEq, Repr

/-- The constructor `ArraySender(array_to_send)`. -/
def ArraySender.init (array_to_send : List Nat) : ArraySender :=
  { array := array_to_send, curr_loc := 0 }

/-- The method `ArraySender::send_next_chunk(sock_fd)`; `r` is what `send` gives
if it is called. The bytes offered are the `bytes_in_chunk` bytes of the array
from index `curr_loc` on. -/
def ArraySender.send_next_chunk (s : ArraySender) (r : SendResult) : Chunk ArraySender :=
  let num_bytes_remaining := to_size_t ((s.array.length : Int) - (s.curr_loc : Int))
  let bytes_in_chunk := min num_bytes_remaining CHUNK_SIZE
  if bytes_in_chunk > 0 then
    let offered := (s.array.drop s.curr_loc).take bytes_in_chunk
    let num_bytes_sent := r.value
    if num_bytes_sent > 0 then
      Chunk.returned { s with curr_loc := to_size_t ((s.curr_loc : Int) + num_bytes_sent) }
        num_bytes_sent (some offered)
    else if num_bytes_sent < 0 ∧ r.eagain = true then Chunk.returned s (-1) (some offered)
    else Chunk.exited s offered
  else Chunk.returned s 0 none

/-- An open `std::ifstream`, as far as the sender uses it: the content of the
file, the read position, the state flags `eofbit` and `failbit`, and the count
of the last unformatted read. -/
structure IfStream where
  content : List Nat
  pos : Nat
  eofbit : Bool
  failbit : Bool
  gcount : Nat
  deriving DecidableEq, Repr

/-- A stream just opened on a file with this content. -/
def IfStream.opened (content : List Nat) : IfStream :=
  { content := content, pos := 0, eofbit := false, failbit := false, gcount := 0 }

/-- The call `file.read(buffer, n)`: the stream afterwards and the bytes stored
in the buffer. A stream that is not good reads nothing and sets `failbit`; a
read that meets the end of the file before `n` bytes sets `eofbit` and
`failbit`. -/
def IfStream.read (f : IfStream) (n : Nat) : IfStream × List Nat :=
  if f.eofbit = true ∨ f.failbit = true then ({ f with failbit := true, gcount := 0 }, [])
  else
    let bytes := (f.content.drop f.pos).take n
    if bytes.length < n then
      ({ f with pos := f.pos + bytes.length, eofbit := true, failbit := true,
                gcount := bytes.length }, bytes)
    else ({ f with pos := f.pos + n, gcount := n }, bytes)

/-- The call `file.seekg(off, std::ios::cur)`: `eofbit` is cleared, then, unless
the stream has failed, the read position moves by `off`; a position before the
start of the file sets `failbit`. -/
def IfStream.seekg_cur (f : IfStream) (off : Int) : IfStream :=
  let f := { f with eofbit := false }
  if f.failbit = true then f
  else if (f.pos : Int) + off < 0 then { f with failbit := true }
  else { f with pos := ((f.pos : Int) + off).toNat }

/-- The members of `FileSender`. -/
structure FileSender where
  file : IfStream
  file_size : Nat
  bytes_sent : Nat
  deriving DecidableEq, Repr

/-- The constructor `FileSender(file_path)`, for a file with this content. -/
def FileSender.init (content : List Nat) : FileSender :=
  { file := IfStream.opened content, file_size := content.length, bytes_sent := 0 }

/-- The method `FileSender::send_next_chunk(sock_fd)`; `r` is what `send` gives
if it is called. -/
def FileSender.send_next_chunk (s : FileSender) (r : SendResult) : Chunk FileSender :=
  let num_bytes_remaining := to_size_t ((s.file_size : Int) - (s.bytes_sent : Int))
  let bytes_in_chunk := min num_bytes_remaining CHUNK_SIZE
  if bytes_in_chunk > 0 then
    let (file, file_data) := s.file.read bytes_in_chunk
    let bytes_read := file.gcount
    let num_bytes_sent := r.value
    if num_bytes_sent > 0 then
      let bytes_sent := to_size_t ((s.bytes_sent : Int) + num_bytes_sent)
      if to_size_t num_bytes_sent < bytes_read then
        let off := to_long (to_size_t (num_bytes_sent - (bytes_read : Int)))
        Chunk.returned { s with file := file.seekg_cur off, bytes_sent := bytes_sent }
          num_bytes_sent (some file_data)
      else
        Chunk.returned { s with file := file, bytes_sent := bytes_sent } num_bytes_sent
          (some file_data)
    else if num_bytes_sent < 0 then
      Chunk.returned { s with file := file.seekg_cur (to_long bytes_read) } (-1) (some file_data)
    else Chunk.exited { s with file := file } file_data
  else Chunk.returned s 0 none

/-! ## Statements: vocabulary -/

/-- The number of bytes the next call of `send_next_chunk` asks the socket to
take: what is left of the array, at most `CHUNK_SIZE`. -/
def ArraySender.requested (s : ArraySender) : Nat :=
  min (s.array.length - s.curr_loc) CHUNK_SIZE

/-- The socket accepts at least one and at most `requested` bytes. -/
def SendResult.accepts (r : SendResult) (requested : Nat) : Bool :=
  decide (1 ≤ r.value ∧ r.value ≤ (requested : Int))

/-- The socket reports a full buffer: `send` returns -1 and `errno` is `EAGAIN`. -/
def SendResult.full (r : SendResult) : Bool :=
  decide (r.value = -1) && r.eagain

/-- Successive calls of `send_next_chunk`, one for each of `rs`: the sender
afterwards and the bytes the socket took over, in order. -/
def ArraySender.calls : ArraySender → List SendResult → ArraySender × List Nat
  | s, [] => (s, [])
  | s, r :: rs =>
    ((calls (s.send_next_chunk r).sender rs).1,
      (s.send_next_chunk r).accepted ++ (calls (s.send_next_chunk r).sender rs).2)

/-- The socket behaves in each of the calls: where `send` is called it accepts
between 1 and the requested number of bytes or reports a full buffer. -/
def ArraySender.socket_behaves : ArraySender → List SendResult → Bool
  | _, [] => true
  | s, r :: rs =>
    (decide (s.requested = 0) || r.accepts s.requested || r.full) &&
      socket_behaves (s.send_next_chunk r).sender rs

end Music

namespace RDT

/-! ## Theorems: segment codec -/

theorem sizeof_RDTHeader_eq : sizeof_RDTHeader = 6 := by decide

theorem object_bytes_eq (host : Host) (h : RDTHeader) :
    h.object_bytes host =
      [h.sequence_number % 256, h.ack_number % 256, h.type % 256, h.pad % 256,
        u16_byte host h.payload_size 0, u16_byte host h.payload_size 1] := by
  rfl

theorem u16_byte_htons_zero (host : Host) (n : Nat) (h : n < 65536) :
    u16_byte host (htons host n) 0 = n / 256 := by
  have h1 : n % 65536 = n := Nat.mod_eq_of_lt h
  have h2 : n / 256 < 256 := by omega
  have h3 : (n % 256 * 256 + n / 256) % 256 = n / 256 := by
    rw [Nat.add_comm, Nat.add_mul_mod_self_right]; exact Nat.mod_eq_of_lt h2
  have h4 : n / 256 % 256 = n / 256 := Nat.mod_eq_of_lt h2
  unfold u16_byte htons
  cases host.little_endian <;> simp [h1, h3, h4]

theorem u16_byte_htons_one (host : Host) (n : Nat) (h : n < 65536) :
    u16_byte host (htons host n) 1 = n % 256 := by
  have h1 : n % 65536 = n := Nat.mod_eq_of_lt h
  have h2 : n / 256 < 256 := by omega
  have h3 : (n % 256 * 256 + n / 256) / 256 = n % 256 := by
    rw [Nat.add_comm, Nat.add_mul_div_right _ _ (by decide : 0 < 256), Nat.div_eq_of_lt h2]
    simp
  unfold u16_byte htons
  cases host.little_endian <;> simp [h1, h3]

theorem ntohs_u16_of_bytes (host : Host) (b0 b1 : Nat) :
    ntohs host (u16_of_bytes host b0 b1) = 256 * (b0 % 256) + b1 % 256 := by
  unfold ntohs u16_of_bytes
  cases host.little_endian <;> simp <;> omega

theorem read_write_of_lt (m0 : Mem) (a : Nat) (bytes : List Nat) (i : Nat)
    (h : i < bytes.length) : (Mem.write m0 a bytes).read (a + i) = bytes.getD i 0 % 256 := by
  unfold Mem.read Mem.write
  simp [h]

theorem read_span_length (m : Mem) (s : Span) : (m.read_span s).length = s.size := by
  simp [Mem.read_span]

theorem copy_to_eq (host : Host) (m : Mem) (seg : RDTSegment) :
    seg.copy_to host m =
      [seg.header.sequence_number % 256, seg.header.ack_number % 256, seg.header.type % 256,
        seg.header.pad % 256, u16_byte host seg.header.payload_size 0,
        u16_byte host seg.header.payload_size 1] ++ m.read_span seg.payload := by
  rfl

theorem read_span_write_shift (m0 m : Mem) (a : Nat) (hd : List Nat) (s : Span) :
    (Mem.write m0 a (hd ++ m.read_span s)).read_span ⟨a + hd.length, s.size⟩ = m.read_span s := by
  apply List.ext_getElem
  · simp [Mem.read_span]
  · intro i h1 h2
    have hi : i < s.size := by simpa [Mem.read_span] using h2
    simp only [Mem.read_span, List.getElem_map, List.getElem_range]
    have : a + hd.length + i = a + (hd.length + i) := by omega
    rw [this, read_write_of_lt _ _ _ _ (by simp [Mem.read_span]; omega)]
    simp only [List.getD_eq_getElem?_getD, Mem.read_span, Mem.read]
    rw [List.getElem?_append_right (by omega)]
    simp [hi]

/-- C1. Encoding a segment with `copy_to` and decoding the bytes with
`RDTSegment(span)` gives back the sequence number, the acknowledgement number,
the type, the payload size and the payload bytes, on either byte order, for
every payload whose length fits the 16-bit size field (so for every length from
0 up to the maximum payload). -/
theorem C1_encode_decode_round_trip (host : Host) (m m0 : Mem) (a pad sequence_number ack_number
    type : Nat) (payload : Span) (hlen : payload.size < 65536) :
    let seg := RDTSegment.with_payload host pad sequence_number ack_number type payload
    let bytes := seg.copy_to host m
    let decoded := RDTSegment.of_span host (Mem.write m0 a bytes) ⟨a, bytes.length⟩
    decoded.get_sequence_number = seg.get_sequence_number ∧
    decoded.get_ack_number = seg.get_ack_number ∧
    decoded.get_type = seg.get_type ∧
    decoded.get_payload_size = seg.get_payload_size ∧
    decoded.get_payload_size = payload.size ∧
    (Mem.write m0 a bytes).read_span decoded.payload = m.read_span payload := by
  intro seg bytes decoded
  have hn : payload.size < 65536 := hlen
  have hb : bytes = [sequence_number % 256, ack_number % 256, type % 256, pad % 256,
      payload.size / 256, payload.size % 256] ++ m.read_span payload := by
    show seg.copy_to host m = _
    rw [copy_to_eq]
    simp [seg, RDTSegment.with_payload, u16_byte_htons_zero host _ hn,
      u16_byte_htons_one host _ hn]
  have hlen6 : ∀ i, i < 6 → i < bytes.length := by
    intro i hi; rw [hb]; simp; omega
  have r0 := read_write_of_lt m0 a bytes 0 (hlen6 0 (by decide))
  have r1 := read_write_of_lt m0 a bytes 1 (hlen6 1 (by decide))
  have r2 := read_write_of_lt m0 a bytes 2 (hlen6 2 (by decide))
  have r4 := read_write_of_lt m0 a bytes 4 (hlen6 4 (by decide))
  have r5 := read_write_of_lt m0 a bytes 5 (hlen6 5 (by decide))
  have hsz : decoded.payload = ⟨a + 6, payload.size⟩ := by
    have h256 : payload.size / 256 % 256 = payload.size / 256 := by omega
    simp only [decoded, RDTSegment.of_span, RDTHeader.of_memory, ntohs_u16_of_bytes]
    have e4 : a + offsetof_payload_size = a + 4 := rfl
    have e5 : a + 4 + 1 = a + 5 := rfl
    have e6 : a + sizeof_RDTHeader = a + 6 := rfl
    rw [e4, e5, e6, r4, r5, hb]
    simp [h256]
    omega
  refine ⟨?_, ?_, ?_, ?_, ?_, ?_⟩
  · show (Mem.write m0 a bytes).read (a + 0) = sequence_number % 256
    rw [r0, hb]; simp
  · show (Mem.write m0 a bytes).read (a + 1) = ack_number % 256
    rw [r1, hb]; simp
  · show (Mem.write m0 a bytes).read (a + 2) = type % 256
    rw [r2, hb]; simp
  · show decoded.payload.size % 65536 = payload.size % 65536
    rw [hsz]
  · show decoded.payload.size % 65536 = payload.size
    rw [hsz]; exact Nat.mod_eq_of_lt hn
  · rw [hsz, hb]
    exact read_span_write_shift m0 m a _ payload

theorem max_data_size_eq : MAX_DATA_SIZE = 1394 := by decide

/-- C1 (witness). The round trip at a three-byte payload on a little-endian host. -/
theorem C1_encode_decode_round_trip_witness :
    (⟨10, 3⟩ : Span).size < 65536 ∧
    (RDTSegment.of_span ⟨true, fun _ => 0⟩
      (Mem.write zero_buffer 0
        ((RDTSegment.with_payload ⟨true, fun _ => 0⟩ 7 1 0 RDT_DATA ⟨10, 3⟩).copy_to
          ⟨true, fun _ => 0⟩ (fun x => x)))
      ⟨0, ((RDTSegment.with_payload ⟨true, fun _ => 0⟩ 7 1 0 RDT_DATA ⟨10, 3⟩).copy_to
          ⟨true, fun _ => 0⟩ (fun x => x)).length⟩).get_payload_size = 3 :=
  ⟨by decide,
    (C1_encode_decode_round_trip ⟨true, fun _ => 0⟩ (fun x => x) zero_buffer 0 7 1 0 RDT_DATA
      ⟨10, 3⟩ (by decide)).2.2.2.2.1⟩

/-- C2 (counterexample). A DATA segment with a one-byte payload is written as
seven bytes, not six, and the bytes at offsets 3 and 4 are the padding byte and
the high byte of the size, not the size. -/
theorem C2_wire_format_five_byte_header_fails :
    ¬ ((RDTSegment.with_payload ⟨true, fun _ => 0⟩ 0 1 0 RDT_DATA ⟨0, 1⟩).get_total_size = 5 + 1 ∧
       (RDTSegment.with_payload ⟨true, fun _ => 0⟩ 0 1 0 RDT_DATA ⟨0, 1⟩).copy_to
          ⟨true, fun _ => 0⟩ (fun _ => 77) = [1, 0, 0, 0, 1, 77]) := by
  decide

/-- C2 (amended). For every payload of `n ≤ MAX_DATA_SIZE` bytes `copy_to` writes
`get_total_size() = 6 + n` bytes: the sequence number, the acknowledgement
number, the type code, the padding byte of the header struct, `n` as a
big-endian 16-bit integer at offsets 4 and 5, then the payload bytes; the type
codes are 0 = DATA, 1 = ACK, 2 = CONN, 3 = CLOSE. -/
theorem C2_wire_format (host : Host) (m : Mem) (pad sequence_number ack_number type : Nat)
    (payload : Span) (hlen : payload.size ≤ MAX_DATA_SIZE) (hseq : sequence_number < 256)
    (hack : ack_number < 256) (htype : type < 256) :
    let seg := RDTSegment.with_payload host pad sequence_number ack_number type payload
    seg.copy_to host m =
      [sequence_number, ack_number, type, pad % 256, payload.size / 256, payload.size % 256]
        ++ m.read_span payload ∧
    (seg.copy_to host m).length = seg.get_total_size ∧
    seg.get_total_size = 6 + payload.size ∧
    RDT_DATA = 0 ∧ RDT_ACK = 1 ∧ RDT_CONN = 2 ∧ RDT_CLOSE = 3 := by
  intro seg
  have hn : payload.size < 65536 := by
    have := max_data_size_eq
    omega
  have hb : seg.copy_to host m =
      [sequence_number, ack_number, type, pad % 256, payload.size / 256, payload.size % 256]
        ++ m.read_span payload := by
    rw [copy_to_eq]
    simp [seg, RDTSegment.with_payload, u16_byte_htons_zero host _ hn,
      u16_byte_htons_one host _ hn, Nat.mod_eq_of_lt hseq, Nat.mod_eq_of_lt hack,
      Nat.mod_eq_of_lt htype]
  have ht : seg.get_total_size = 6 + payload.size := by
    show (sizeof_RDTHeader + payload.size) % 65536 = 6 + payload.size
    rw [sizeof_RDTHeader_eq]
    have := max_data_size_eq
    omega
  refine ⟨hb, ?_, ht, rfl, rfl, rfl, rfl⟩
  rw [hb, ht]
  simp [read_span_length]
  omega

/-- C2 (witness). The wire format of a DATA segment with a 300-byte payload. -/
theorem C2_wire_format_witness :
    (⟨10, 300⟩ : Span).size ≤ MAX_DATA_SIZE ∧ (1 : Nat) < 256 ∧ (0 : Nat) < 256 ∧ RDT_DATA < 256 ∧
    (RDTSegment.with_payload ⟨false, fun _ => 0⟩ 9 1 0 RDT_DATA ⟨10, 300⟩).get_total_size = 6 + 300 :=
  ⟨by decide, by decide, by decide, by decide,
    (C2_wire_format ⟨false, fun _ => 0⟩ (fun x => x) 9 1 0 RDT_DATA ⟨10, 300⟩ (by decide)
      (by decide) (by decide) (by decide)).2.2.1⟩

/-- C3 (counterexample). A six-byte buffer whose header announces ten payload
bytes, and a three-byte buffer in front of the same memory, are both decoded
into a segment whose payload view is ten bytes long. -/
theorem C3_short_buffer_is_decoded :
    (RDTSegment.of_span ⟨true, fun _ => 0⟩ (Mem.write zero_buffer 0 [0, 0, 0, 0, 0, 10])
        ⟨0, 6⟩).get_payload_size = 10 ∧
    ¬ (RDTSegment.of_span ⟨true, fun _ => 0⟩ (Mem.write zero_buffer 0 [0, 0, 0, 0, 0, 10])
        ⟨0, 6⟩).get_payload_size ≤ 6 - sizeof_RDTHeader ∧
    (RDTSegment.of_span ⟨true, fun _ => 0⟩ (Mem.write zero_buffer 0 [0, 0, 0, 0, 0, 10])
        ⟨0, 3⟩).get_payload_size = 10 := by
  decide

/-- C3 (amended). Decoding checks no length and rejects nothing: for every
buffer the decoded payload view starts `sizeof(RDTHeader)` bytes behind the
start of the buffer and is as long as the header announces (the big-endian
number at offsets 4 and 5), whatever the length of the buffer. -/
theorem C3_decode_trusts_header (host : Host) (m : Mem) (source : Span) :
    (RDTSegment.of_span host m source).payload =
      ⟨source.data + 6, 256 * m.read (source.data + 4) + m.read (source.data + 5)⟩ ∧
    (RDTSegment.of_span host m source).get_payload_size =
      256 * m.read (source.data + 4) + m.read (source.data + 5) ∧
    ∀ size, RDTSegment.of_span host m ⟨source.data, size⟩ = RDTSegment.of_span host m source := by
  have h4 : m.read (source.data + 4) < 256 := Nat.mod_lt _ (by decide)
  have h5 : m.read (source.data + 5) < 256 := Nat.mod_lt _ (by decide)
  have hp : (RDTSegment.of_span host m source).payload =
      ⟨source.data + 6, 256 * m.read (source.data + 4) + m.read (source.data + 5)⟩ := by
    simp only [RDTSegment.of_span, RDTHeader.of_memory, ntohs_u16_of_bytes]
    have e4 : source.data + offsetof_payload_size = source.data + 4 := rfl
    have e5 : source.data + 4 + 1 = source.data + 5 := rfl
    have e6 : source.data + sizeof_RDTHeader = source.data + 6 := rfl
    rw [e4, e5, e6, Nat.mod_eq_of_lt h4, Nat.mod_eq_of_lt h5]
  refine ⟨hp, ?_, fun _ => rfl⟩
  show (RDTSegment.of_span host m source).payload.size % 65536 = _
  rw [hp]
  show (256 * m.read (source.data + 4) + m.read (source.data + 5)) % 65536 = _
  omega

/-- C4 (counterexample). `MAX_DATA_SIZE` is not 1395, and a DATA segment with a
payload of 1395 bytes takes 1401 bytes, more than `MAX_SEG_SIZE`. -/
theorem C4_max_data_size_is_not_1395 :
    MAX_DATA_SIZE ≠ 1400 - 5 ∧
    ((RDTSegment.with_payload ⟨true, fun _ => 0⟩ 0 0 0 RDT_DATA ⟨0, 1395⟩).copy_to
        ⟨true, fun _ => 0⟩ zero_buffer).length = 1401 := by
  constructor
  · decide
  · simp [RDTSegment.copy_to, RDTHeader.object_bytes, read_span_length, sizeof_RDTHeader_eq,
      RDTSegment.with_payload]

/-- C4 (amended). `MAX_DATA_SIZE = MAX_SEG_SIZE - sizeof(RDTHeader) = 1400 - 6 = 1394`; a
DATA segment with a payload of `MAX_DATA_SIZE` bytes encodes to exactly 1400
bytes, and no payload of at most `MAX_DATA_SIZE` bytes encodes to more than
`MAX_SEG_SIZE` bytes. -/
theorem C4_max_data_size (host : Host) (m : Mem) (pad sequence_number ack_number : Nat)
    (payload : Span) (hlen : payload.size ≤ MAX_DATA_SIZE) :
    let seg := RDTSegment.with_payload host pad sequence_number ack_number RDT_DATA payload
    MAX_DATA_SIZE = MAX_SEG_SIZE - sizeof_RDTHeader ∧ MAX_DATA_SIZE = 1400 - 6 ∧
    (seg.copy_to host m).length ≤ MAX_SEG_SIZE ∧
    (payload.size = MAX_DATA_SIZE → (seg.copy_to host m).length = 1400 ∧
      seg.get_total_size = 1400) := by
  intro seg
  have hm := max_data_size_eq
  have hl : (seg.copy_to host m).length = 6 + payload.size := by
    simp [RDTSegment.copy_to, RDTHeader.object_bytes, read_span_length, sizeof_RDTHeader_eq, seg,
      RDTSegment.with_payload]
  have ht : seg.get_total_size = (6 + payload.size) % 65536 := rfl
  refine ⟨rfl, by decide, ?_, ?_⟩
  · rw [hl]; show 6 + payload.size ≤ 1400; omega
  · intro h; rw [hl, ht]; omega

/-- C4 (witness). A payload of exactly `MAX_DATA_SIZE` bytes. -/
theorem C4_max_data_size_witness :
    (⟨0, 1394⟩ : Span).size ≤ MAX_DATA_SIZE ∧
    ((RDTSegment.with_payload ⟨true, fun _ => 0⟩ 0 0 0 RDT_DATA ⟨0, 1394⟩).copy_to
        ⟨true, fun _ => 0⟩ zero_buffer).length = 1400 :=
  ⟨by decide,
    ((C4_max_data_size ⟨true, fun _ => 0⟩ zero_buffer 0 0 0 ⟨0, 1394⟩ (by decide)).2.2.2
      rfl).1⟩

/-! ## Theorems: RTT estimator -/

theorem update_rtt_estimated (st : ReliableSocket) (sample_rtt : Nat) :
    (st.update_rtt sample_rtt).estimated_rtt =
      Int.tdiv (7 * st.estimated_rtt + (sample_rtt : Int)) 8 := rfl

theorem update_rtt_estimated_nonneg (st : ReliableSocket) (sample_rtt : Nat)
    (he : 0 ≤ st.estimated_rtt) :
    (st.update_rtt sample_rtt).estimated_rtt = (7 * st.estimated_rtt + (sample_rtt : Int)) / 8 := by
  rw [update_rtt_estimated]
  exact Int.tdiv_eq_ediv (by omega) (by decide)

theorem update_rtt_dev_nonneg (st : ReliableSocket) (sample_rtt : Nat)
    (he : 0 ≤ st.estimated_rtt) (he2 : st.estimated_rtt < 2147483648) (hd : 0 ≤ st.dev_rtt)
    (hs : sample_rtt < 2147483648) :
    (st.update_rtt sample_rtt).dev_rtt =
      (3 * st.dev_rtt + |(sample_rtt : Int) - (st.update_rtt sample_rtt).estimated_rtt|) / 4 := by
  have hE := update_rtt_estimated_nonneg st sample_rtt he
  have hE0 : 0 ≤ (st.update_rtt sample_rtt).estimated_rtt := by rw [hE]; omega
  have hE1 : (st.update_rtt sample_rtt).estimated_rtt < 2147483648 := by rw [hE]; omega
  show Int.tdiv (3 * st.dev_rtt + _) 4 = _
  rw [Int.tdiv_eq_ediv (by omega) (by decide)]
  congr 2
  show ((if ((sample_rtt : Int) - (st.update_rtt sample_rtt).estimated_rtt) % 4294967296 < 2147483648
      then ((sample_rtt : Int) - (st.update_rtt sample_rtt).estimated_rtt) % 4294967296
      else ((sample_rtt : Int) - (st.update_rtt sample_rtt).estimated_rtt) % 4294967296 - 4294967296).natAbs : Int) = _
  generalize (st.update_rtt sample_rtt).estimated_rtt = e at hE0 hE1 ⊢
  rw [Int.natCast_natAbs]
  congr 1
  split <;> omega

theorem update_rtt_timeout (st : ReliableSocket) (sample_rtt : Nat) :
    (st.update_rtt sample_rtt).socket.timeout_length =
      (((st.update_rtt sample_rtt).estimated_rtt + 4 * (st.update_rtt sample_rtt).dev_rtt)
        % 4294967296).toNat := rfl

/-- C5 (counterexample). From `estimated_rtt = 200`, `dev_rtt = 10` and a sample
of 250 the stored values are 206 and 18, not 206.25 and 18.4375. -/
theorem C5_update_rtt_is_not_exact :
    (ReliableSocket.init.update_rtt 250).estimated_rtt = 206 ∧
    (ReliableSocket.init.update_rtt 250).dev_rtt = 18 ∧
    ¬ (((ReliableSocket.init.update_rtt 250).estimated_rtt : ℚ) = 206.25) ∧
    ¬ (((ReliableSocket.init.update_rtt 250).dev_rtt : ℚ) = 18.4375) := by
  have h1 : (ReliableSocket.init.update_rtt 250).estimated_rtt = 206 := by decide
  have h2 : (ReliableSocket.init.update_rtt 250).dev_rtt = 18 := by decide
  refine ⟨h1, h2, ?_, ?_⟩
  · rw [h1]; norm_num
  · rw [h2]; norm_num

/-- C5 (amended). The statistics are `int` members, so `update_rtt` stores the
formula values with the fraction cut off: for non-negative statistics and a
sample below `2^31`, `estimated_rtt' = ⌊0.875 * estimated_rtt + 0.125 * sample⌋`
and `dev_rtt' = ⌊0.75 * dev_rtt + 0.25 * |sample - estimated_rtt'|⌋`. -/
theorem C5_update_rtt_truncates (st : ReliableSocket) (sample_rtt : Nat)
    (he : 0 ≤ st.estimated_rtt) (he2 : st.estimated_rtt < 2147483648) (hd : 0 ≤ st.dev_rtt)
    (hs : sample_rtt < 2147483648) :
    (st.update_rtt sample_rtt).estimated_rtt =
      ⌊(0.875 : ℚ) * st.estimated_rtt + 0.125 * sample_rtt⌋ ∧
    (st.update_rtt sample_rtt).dev_rtt =
      ⌊(0.75 : ℚ) * st.dev_rtt +
        0.25 * |(sample_rtt : ℚ) - (st.update_rtt sample_rtt).estimated_rtt|⌋ := by
  constructor
  · rw [update_rtt_estimated_nonneg st sample_rtt he]
    symm
    rw [Int.floor_eq_iff]
    have h1 := Int.ediv_mul_le (7 * st.estimated_rtt + (sample_rtt : Int)) (by decide : (8 : Int) ≠ 0)
    have h2 := Int.lt_ediv_add_one_mul_self (7 * st.estimated_rtt + (sample_rtt : Int))
      (by decide : (0 : Int) < 8)
    have h1q : (((7 * st.estimated_rtt + (sample_rtt : Int)) / 8 * 8 : Int) : ℚ) ≤
        ((7 * st.estimated_rtt + (sample_rtt : Int) : Int) : ℚ) := by exact_mod_cast h1
    have h2q : ((7 * st.estimated_rtt + (sample_rtt : Int) : Int) : ℚ) <
        ((((7 * st.estimated_rtt + (sample_rtt : Int)) / 8 + 1) * 8 : Int) : ℚ) := by
      exact_mod_cast h2
    push_cast at h1q h2q
    constructor <;> norm_num <;> linarith
  · rw [update_rtt_dev_nonneg st sample_rtt he he2 hd hs]
    generalize (st.update_rtt sample_rtt).estimated_rtt = e
    symm
    rw [Int.floor_eq_iff]
    have h1 := Int.ediv_mul_le (3 * st.dev_rtt + |(sample_rtt : Int) - e|) (by decide : (4 : Int) ≠ 0)
    have h2 := Int.lt_ediv_add_one_mul_self (3 * st.dev_rtt + |(sample_rtt : Int) - e|)
      (by decide : (0 : Int) < 4)
    have h1q : (((3 * st.dev_rtt + |(sample_rtt : Int) - e|) / 4 * 4 : Int) : ℚ) ≤
        ((3 * st.dev_rtt + |(sample_rtt : Int) - e| : Int) : ℚ) := by exact_mod_cast h1
    have h2q : ((3 * st.dev_rtt + |(sample_rtt : Int) - e| : Int) : ℚ) <
        ((((3 * st.dev_rtt + |(sample_rtt : Int) - e|) / 4 + 1) * 4 : Int) : ℚ) := by
      exact_mod_cast h2
    push_cast at h1q h2q
    constructor <;> norm_num <;> linarith

/-- C5 (witness). The initial statistics and a sample of 250. -/
theorem C5_update_rtt_truncates_witness :
    (0 : Int) ≤ ReliableSocket.init.estimated_rtt ∧
    ReliableSocket.init.estimated_rtt < 2147483648 ∧
    (0 : Int) ≤ ReliableSocket.init.dev_rtt ∧ (250 : Nat) < 2147483648 ∧
    (ReliableSocket.init.update_rtt 250).estimated_rtt =
      ⌊(0.875 : ℚ) * ReliableSocket.init.estimated_rtt + 0.125 * (250 : Nat)⌋ :=
  ⟨by decide, by decide, by decide, by decide,
    (C5_update_rtt_truncates ReliableSocket.init 250 (by decide) (by decide) (by decide)
      (by decide)).1⟩

/-! ## Theorems: connection state machine -/

@[simp]
theorem log_socket (st : ReliableSocket) (es : List Event) :
    (st.log es).socket = st.socket := rfl
@[simp]
theorem log_state (st : ReliableSocket) (es : List Event) :
    (st.log es).state = st.state := rfl
@[simp]
theorem log_sequence_number (st : ReliableSocket) (es : List Event) :
    (st.log es).sequence_number = st.sequence_number := rfl
@[simp]
theorem log_estimated_rtt (st : ReliableSocket) (es : List Event) :
    (st.log es).estimated_rtt = st.estimated_rtt := rfl
@[simp]
theorem log_dev_rtt (st : ReliableSocket) (es : List Event) :
    (st.log es).dev_rtt = st.dev_rtt := rfl
@[simp]
theorem log_objs (st : ReliableSocket) (es : List Event) :
    (st.log es).objs = st.objs := rfl
@[simp]
theorem log_trace (st : ReliableSocket) (es : List Event) :
    (st.log es).trace = st.trace ++ es := rfl

theorem log_log (st : ReliableSocket) (es fs : List Event) :
    (st.log es).log fs = st.log (es ++ fs) := by
  simp [ReliableSocket.log, List.append_assoc]

theorem log_nil (st : ReliableSocket) : st.log [] = st := by
  simp [ReliableSocket.log]

theorem socket_send_connected (st : ReliableSocket) (bytes : List Nat)
    (h : st.socket.connected = true) :
    st.on_socket (fun sock => sock.send bytes) = st.log [Event.send bytes] := by
  simp [ReliableSocket.on_socket, UnreliableSocket.send, h, ReliableSocket.log]

theorem receive_eagain (st : ReliableSocket) (buffer : Mem) :
    st.receive buffer RecvResult.eagain =
      (st.log [Event.receive st.socket.timeout_length RecvResult.eagain],
        Received.SocketTimeout) := by
  simp [ReliableSocket.receive, UnreliableSocket.receive, ReliableSocket.log]

theorem receive_failure (st : ReliableSocket) (buffer : Mem) :
    st.receive buffer RecvResult.failure =
      (st.log [Event.receive st.socket.timeout_length RecvResult.failure], Received.exit) := by
  simp [ReliableSocket.receive, UnreliableSocket.receive, ReliableSocket.log]

theorem receive_empty (st : ReliableSocket) (buffer : Mem) :
    st.receive buffer (RecvResult.datagram []) =
      (st.log [Event.receive st.socket.timeout_length (RecvResult.datagram [])],
        Received.ConnectionClosed) := by
  simp [ReliableSocket.receive, UnreliableSocket.receive, ReliableSocket.log]

theorem receive_datagram (st : ReliableSocket) (buffer : Mem) (bytes : List Nat)
    (h : bytes.isEmpty = false) :
    st.receive buffer (RecvResult.datagram bytes) =
      ({ st with socket := { st.socket with connected := true } }.log
          [Event.receive st.socket.timeout_length (RecvResult.datagram bytes)],
        Received.segment (buffer.write 0 (bytes.take MAX_SEG_SIZE))
          (min bytes.length MAX_SEG_SIZE)) := by
  have hne : bytes ≠ [] := by
    intro h0; simp [h0] at h
  have hlen : 0 < bytes.length := List.length_pos.mpr hne
  have hmin : ¬ (min bytes.length MAX_SEG_SIZE = 0) := by
    have : MAX_SEG_SIZE = 1400 := rfl
    omega
  simp [ReliableSocket.receive, UnreliableSocket.receive, ReliableSocket.log, hmin]

theorem receive_datagram_connected (st : ReliableSocket) (buffer : Mem) (bytes : List Nat)
    (h : bytes.isEmpty = false) (hc : st.socket.connected = true) :
    st.receive buffer (RecvResult.datagram bytes) =
      (st.log [Event.receive st.socket.timeout_length (RecvResult.datagram bytes)],
        Received.segment (buffer.write 0 (bytes.take MAX_SEG_SIZE))
          (min bytes.length MAX_SEG_SIZE)) := by
  rw [receive_datagram st buffer bytes h]
  have : ({ st.socket with connected := true } : UnreliableSocket) = st.socket := by
    cases hs : st.socket; simp [hs] at hc; simp [hc]
  rw [this]

theorem known_type_iff (type : Nat) :
    known_type type = true ↔
      type = RDT_CONN ∨ type = RDT_ACK ∨ type = RDT_DATA ∨ type = RDT_CLOSE := by
  unfold known_type message_type_to_string
  constructor
  · intro h
    by_cases h1 : type = RDT_CONN
    · exact Or.inl h1
    · by_cases h2 : type = RDT_ACK
      · exact Or.inr (Or.inl h2)
      · by_cases h3 : type = RDT_DATA
        · exact Or.inr (Or.inr (Or.inl h3))
        · by_cases h4 : type = RDT_CLOSE
          · exact Or.inr (Or.inr (Or.inr h4))
          · simp [h1, h2, h3, h4] at h
  · rintro (h | h | h | h) <;> subst h <;> rfl

/-- A segment of one of the four types has a text, so writing it to the log
goes through. -/
theorem to_string_of_known (host : Host) (seg : RDTSegment)
    (h : known_type seg.get_type = true) : ∃ text, seg.to_string host = some text := by
  unfold known_type at h
  unfold RDTSegment.to_string
  change (message_type_to_string seg.header.type).isSome = true at h
  cases hm : message_type_to_string seg.header.type with
  | none => simp [hm] at h
  | some name => exact ⟨_, rfl⟩

/-- Writing a segment of another type to the log ends the process. -/
theorem to_string_of_unknown (host : Host) (seg : RDTSegment)
    (h : known_type seg.get_type = false) : seg.to_string host = none := by
  unfold known_type at h
  unfold RDTSegment.to_string
  change (message_type_to_string seg.header.type).isSome = false at h
  cases hm : message_type_to_string seg.header.type with
  | none => rfl
  | some name => simp [hm] at h

theorem is_retry_cases (host : Host) (n : Nat) (r : RecvResult)
    (h : is_retry host n r = true) :
    r = RecvResult.eagain ∨
      ∃ bytes, r = RecvResult.datagram bytes ∧ bytes.isEmpty = false ∧
        known_type (received_segment host bytes).get_type = true ∧
        ¬ ((received_segment host bytes).get_type = RDT_ACK ∧
          (received_segment host bytes).get_ack_number = n) := by
  cases r with
  | eagain => exact Or.inl rfl
  | failure => simp [is_retry, is_timeout, is_known, is_ack] at h
  | datagram bytes =>
    right
    by_cases hne : bytes.isEmpty = true
    · simp [is_retry, is_timeout, is_known, hne] at h
    · have hne2 : bytes.isEmpty = false := by simpa using hne
      simp only [is_retry, is_timeout, is_known, is_ack, hne2, Bool.not_false, Bool.true_and,
        Bool.false_or, Bool.and_eq_true, Bool.not_eq_true', Bool.and_eq_false_iff,
        decide_eq_false_iff_not] at h
      refine ⟨bytes, rfl, hne2, h.1, ?_⟩
      rintro ⟨h1, h2⟩
      rcases h.2 with h' | h'
      · exact h' h1
      · exact h' h2

/-- One pass of the retransmission loop on a timeout or a segment of a known
type other than the awaited acknowledgement. -/
theorem send_loop_noise_step (host : Host) (wire : List Nat) (d : Bool) (e : Nat)
    (st : ReliableSocket) (a : Attempt) (rest : List Attempt)
    (hc : st.socket.connected = true) (hn : is_retry host e a.result = true) :
    send_loop host wire d e st (a :: rest) =
      send_loop host wire d e
        (st.log [Event.send wire, Event.receive st.socket.timeout_length a.result]) rest := by
  rcases a with ⟨ts, r, tr⟩
  rcases is_retry_cases host e r hn with h | ⟨bytes, h, hne, hk, hcond⟩
  · subst h
    simp [send_loop, socket_send_connected _ _ hc, receive_eagain, log_log]
  · subst h
    obtain ⟨text, htext⟩ := to_string_of_known host _ hk
    simp only [send_loop, socket_send_connected _ _ hc]
    rw [receive_datagram_connected _ _ _ hne (by simpa using hc)]
    simp only [log_log, log_socket]
    have : RDTSegment.of_span host (Mem.write zero_buffer 0 (List.take MAX_SEG_SIZE bytes))
        buffer_span = received_segment host bytes := rfl
    simp only [this, htext, hcond, if_false]
    rfl

theorem send_loop_noise (host : Host) (wire : List Nat) (d : Bool) (e : Nat)
    (noise : List Attempt) :
    ∀ (st : ReliableSocket) (rest : List Attempt), st.socket.connected = true →
      (∀ a ∈ noise, is_retry host e a.result = true) →
      send_loop host wire d e st (noise ++ rest) =
        send_loop host wire d e
          (st.log (attempts_trace wire st.socket.timeout_length (noise.map Attempt.result)))
          rest := by
  induction noise with
  | nil => intro st rest _ _; simp [attempts_trace, log_nil]
  | cons a noise ih =>
    intro st rest hc hn
    rw [List.cons_append, send_loop_noise_step host wire d e st a _ hc
      (hn a (List.mem_cons_self _ _))]
    rw [ih _ rest (by simpa using hc) (fun x hx => hn x (List.mem_cons_of_mem _ hx))]
    simp [log_log, attempts_trace]

theorem send_loop_match (host : Host) (wire : List Nat) (d : Bool) (e : Nat)
    (st : ReliableSocket) (a : Attempt) (rest : List Attempt)
    (hc : st.socket.connected = true) (ha : is_ack host e a.result = true) :
    send_loop host wire d e st (a :: rest) =
      Outcome.returned
        (if d then
          (st.log [Event.send wire, Event.receive st.socket.timeout_length a.result]).update_rtt
            (rtt_sample a)
         else st.log [Event.send wire, Event.receive st.socket.timeout_length a.result])
        () rest := by
  rcases a with ⟨ts, r, tr⟩
  cases r with
  | eagain => simp [is_ack] at ha
  | failure => simp [is_ack] at ha
  | datagram bytes =>
    simp only [is_ack, Bool.and_eq_true, Bool.not_eq_true', decide_eq_true_eq] at ha
    obtain ⟨⟨hne, h1⟩, h2⟩ := ha
    obtain ⟨text, htext⟩ := to_string_of_known host (received_segment host bytes)
      ((known_type_iff _).mpr (Or.inr (Or.inl h1)))
    simp only [send_loop, socket_send_connected _ _ hc]
    rw [receive_datagram_connected _ _ _ hne (by simpa using hc)]
    simp only [log_log, log_socket]
    have : RDTSegment.of_span host (Mem.write zero_buffer 0 (List.take MAX_SEG_SIZE bytes))
        buffer_span = received_segment host bytes := rfl
    simp only [this, htext, h1, h2, and_self, if_true]
    rfl

theorem send_loop_waiting (host : Host) (wire : List Nat) (d : Bool) (e : Nat)
    (st : ReliableSocket) (hc : st.socket.connected = true) :
    send_loop host wire d e st [] = Outcome.waiting (st.log [Event.send wire]) := by
  simp [send_loop, socket_send_connected _ _ hc]

theorem wire_bytes_with_payload (host : Host) (m : Mem) (pad sequence_number ack_number type : Nat)
    (payload : Span) (hlen : payload.size ≤ MAX_DATA_SIZE) (hseq : sequence_number < 256)
    (hack : ack_number < 256) (htype : type < 256) :
    wire_bytes host m (RDTSegment.with_payload host pad sequence_number ack_number type payload) =
      [sequence_number, ack_number, type, pad % 256, payload.size / 256, payload.size % 256]
        ++ m.read_span payload := by
  have hn : payload.size < 65536 := by
    have := max_data_size_eq
    omega
  have hb : (RDTSegment.with_payload host pad sequence_number ack_number type payload).copy_to
      host m =
      [sequence_number, ack_number, type, pad % 256, payload.size / 256, payload.size % 256]
        ++ m.read_span payload := by
    rw [copy_to_eq]
    simp [RDTSegment.with_payload, u16_byte_htons_zero host _ hn,
      u16_byte_htons_one host _ hn, Nat.mod_eq_of_lt hseq, Nat.mod_eq_of_lt hack,
      Nat.mod_eq_of_lt htype]
  have ht : (RDTSegment.with_payload host pad sequence_number ack_number type
      payload).get_total_size = 6 + payload.size := by
    show (sizeof_RDTHeader + payload.size) % 65536 = 6 + payload.size
    rw [sizeof_RDTHeader_eq]
    have := max_data_size_eq
    omega
  unfold wire_bytes
  rw [hb, ht]
  apply List.take_of_length_le
  simp [read_span_length]
  omega

theorem wire_bytes_control (host : Host) (m : Mem) (pad sequence_number ack_number type : Nat)
    (hseq : sequence_number < 256) (hack : ack_number < 256) (htype : type < 256) :
    wire_bytes host m (RDTSegment.control host pad sequence_number ack_number type) =
      [sequence_number, ack_number, type, pad % 256, 0, 0] := by
  have h := wire_bytes_with_payload host m pad sequence_number ack_number type ⟨0, 0⟩
    (by decide) hseq hack htype
  simpa [Mem.read_span] using h

/-- For the DATA segment that `send_data` builds, `send_until_acked` is the
retransmission loop waiting for the acknowledgement of its sequence number. -/
theorem send_until_acked_data (host : Host) (st : ReliableSocket) (m : Mem)
    (pad sequence_number : Nat) (data : Span) (inputs : List Attempt) :
    st.send_until_acked host m
        (RDTSegment.with_payload host pad sequence_number 0 RDT_DATA data) inputs =
      send_loop host
        (wire_bytes host m (RDTSegment.with_payload host pad sequence_number 0 RDT_DATA data))
        true
        (RDTSegment.with_payload host pad sequence_number 0 RDT_DATA data).get_sequence_number
        st inputs := by
  obtain ⟨text, htext⟩ := to_string_of_known host
    (RDTSegment.with_payload host pad sequence_number 0 RDT_DATA data) rfl
  have htype : (RDTSegment.with_payload host pad sequence_number 0 RDT_DATA data).get_type =
      RDT_DATA := rfl
  unfold ReliableSocket.send_until_acked
  simp only [htext, htype, if_true]

/-- For the close request that `close_connection` builds, `send_until_acked` is
the retransmission loop waiting for `ACK 4`. -/
theorem send_until_acked_close (host : Host) (st : ReliableSocket) (m : Mem) (pad : Nat)
    (inputs : List Attempt) :
    st.send_until_acked host m (RDTSegment.control host pad 4 0 RDT_CLOSE) inputs =
      send_loop host (wire_bytes host m (RDTSegment.control host pad 4 0 RDT_CLOSE)) false 4
        st inputs := by
  obtain ⟨text, htext⟩ := to_string_of_known host (RDTSegment.control host pad 4 0 RDT_CLOSE) rfl
  have htype : (RDTSegment.control host pad 4 0 RDT_CLOSE).get_type = RDT_CLOSE := rfl
  have hne : ¬ (RDT_CLOSE = RDT_DATA) := by decide
  unfold ReliableSocket.send_until_acked
  simp only [htext, htype, hne, if_true, if_false]

/-- The state `send_data` returns in when the awaited acknowledgement arrives
after any number of timeouts and other segments of the four message types. -/
theorem send_data_completes (host : Host) (st : ReliableSocket) (m : Mem) (data : Span)
    (noise : List Attempt) (a : Attempt) (rest : List Attempt)
    (hstate : st.state = connection_status.WAIT_SEND) (hconn : st.socket.connected = true)
    (hbit : st.sequence_number < 2) (hlen : data.size ≤ MAX_DATA_SIZE)
    (hnoise : ∀ x ∈ noise, is_retry host st.sequence_number x.result = true)
    (hack : is_ack host st.sequence_number a.result = true) :
    st.send_data host m data (noise ++ a :: rest) =
      Outcome.returned
        (ReliableSocket.set_state
          { ((({ st with objs := st.objs + 1 }.set_state
                (if st.sequence_number = 0 then connection_status.WAIT_ACK0
                 else connection_status.WAIT_ACK1)).log
              (attempts_trace
                ([st.sequence_number, 0, RDT_DATA, host.junk st.objs % 256, data.size / 256,
                  data.size % 256] ++ m.read_span data)
                st.socket.timeout_length ((noise ++ [a]).map Attempt.result))).update_rtt
              (rtt_sample a)) with
            sequence_number := 1 - st.sequence_number }
          connection_status.WAIT_SEND)
        () rest := by
  have hw := wire_bytes_with_payload host m (host.junk st.objs) st.sequence_number 0 RDT_DATA data
    hlen (by omega) (by decide) (by decide)
  have hseq : st.sequence_number % 256 = st.sequence_number := Nat.mod_eq_of_lt (by omega)
  have htype : (RDTSegment.with_payload host (host.junk st.objs) st.sequence_number 0 RDT_DATA
      data).get_type = RDT_DATA := rfl
  have hsn : (RDTSegment.with_payload host (host.junk st.objs) st.sequence_number 0 RDT_DATA
      data).get_sequence_number = st.sequence_number := hseq
  have hflip : (((1 : Int) - (st.sequence_number : Int)) % 256).toNat = 1 - st.sequence_number := by
    omega
  unfold ReliableSocket.send_data
  rw [if_neg (not_not.mpr hstate)]
  simp only [send_until_acked_data]
  simp only [htype, hsn, hw, if_true]
  have key : ∀ s : connection_status,
      send_loop host
        ([st.sequence_number, 0, RDT_DATA, host.junk st.objs % 256, data.size / 256,
          data.size % 256] ++ m.read_span data) true st.sequence_number
        ({ st with objs := st.objs + 1 }.set_state s) (noise ++ a :: rest) =
      Outcome.returned
        (((({ st with objs := st.objs + 1 }.set_state s).log
            (attempts_trace
              ([st.sequence_number, 0, RDT_DATA, host.junk st.objs % 256, data.size / 256,
                data.size % 256] ++ m.read_span data)
              st.socket.timeout_length ((noise ++ [a]).map Attempt.result))).update_rtt
            (rtt_sample a))) () rest := by
    intro s
    rw [send_loop_noise host _ true _ noise _ _ (by simpa using hconn) hnoise]
    rw [send_loop_match host _ true _ _ a rest (by simpa using hconn) hack]
    simp [log_log, attempts_trace, ReliableSocket.set_state]
    congr 2
    clear hw hnoise
    induction noise with
    | nil => rfl
    | cons x xs ih => simp [attempts_trace, ih]
  by_cases h0 : st.sequence_number = 0
  · simp only [h0, if_true] at key ⊢
    rw [key]
    simp [ReliableSocket.update_rtt, ReliableSocket.on_socket, ReliableSocket.set_state, h0]
  · simp only [h0, if_false] at key ⊢
    rw [key]
    simp [ReliableSocket.update_rtt, ReliableSocket.on_socket, ReliableSocket.set_state]
    exact hflip

theorem on_socket_trace_grows (st : ReliableSocket)
    (call : UnreliableSocket → UnreliableSocket × List Event) :
    st.trace <+: (st.on_socket call).trace :=
  ⟨_, rfl⟩

theorem receive_trace (st : ReliableSocket) (buffer : Mem) (r : RecvResult) :
    (st.receive buffer r).1.trace =
      st.trace ++ [Event.receive st.socket.timeout_length r] := by
  cases r with
  | eagain => rfl
  | failure => rfl
  | datagram bytes =>
    simp only [ReliableSocket.receive, UnreliableSocket.receive]
    split <;> rfl

theorem update_rtt_trace_grows (st : ReliableSocket) (sample : Nat) :
    st.trace <+: (st.update_rtt sample).trace :=
  ⟨_, rfl⟩

theorem send_loop_trace_grows (host : Host) (wire : List Nat) (d : Bool) (e : Nat)
    (inputs : List Attempt) :
    ∀ st : ReliableSocket, st.trace <+: (send_loop host wire d e st inputs).final.trace := by
  induction inputs with
  | nil => intro st; exact on_socket_trace_grows st (fun sock => sock.send wire)
  | cons a rest ih =>
    intro st
    have h1 := on_socket_trace_grows st (fun sock => sock.send wire)
    have h2 := receive_trace (st.on_socket (fun sock => sock.send wire)) zero_buffer a.result
    have h3 : st.trace <+:
        ((st.on_socket (fun sock => sock.send wire)).receive zero_buffer a.result).1.trace := by
      rw [h2]; exact h1.trans ⟨_, rfl⟩
    simp only [send_loop]
    generalize (st.on_socket (fun sock => sock.send wire)).receive zero_buffer a.result = res
      at h3
    obtain ⟨st2, rc⟩ := res
    simp only at h3
    cases rc with
    | SocketTimeout => exact h3.trans (ih st2)
    | ConnectionClosed => exact h3
    | exit => exact h3
    | segment buf n =>
      simp only
      split
      · exact h3
      · split
        · cases d
          · exact h3
          · exact h3.trans (update_rtt_trace_grows st2 _)
        · exact h3.trans (ih st2)

/-- The first pass of the retransmission loop: the segment is handed to the
transport, then the receive is made under the timeout length set at that time. -/
theorem send_loop_first_receive (host : Host) (wire : List Nat) (d : Bool) (e : Nat)
    (st : ReliableSocket) (a : Attempt) (rest : List Attempt)
    (hc : st.socket.connected = true) :
    st.trace ++ [Event.send wire, Event.receive st.socket.timeout_length a.result] <+:
      (send_loop host wire d e st (a :: rest)).final.trace := by
  have h2 := receive_trace (st.on_socket (fun sock => sock.send wire)) zero_buffer a.result
  rw [socket_send_connected _ _ hc] at h2
  simp only [log_trace, log_socket, List.append_assoc, List.singleton_append] at h2
  simp only [send_loop]
  rw [socket_send_connected _ _ hc]
  generalize (st.log [Event.send wire]).receive zero_buffer a.result = res at h2
  obtain ⟨st2, rc⟩ := res
  simp only at h2
  cases rc with
  | SocketTimeout => simp only; rw [← h2]; exact send_loop_trace_grows host wire d e rest st2
  | ConnectionClosed => simp only [Outcome.final]; rw [h2]
  | exit => simp only [Outcome.final]; rw [h2]
  | segment buf n =>
    simp only
    split
    · simp only [Outcome.final]; rw [h2]
    · split
      · cases d
        · simp only [Outcome.final]; rw [← h2]; simp
        · simp only [Outcome.final]; rw [← h2]; exact update_rtt_trace_grows st2 _
      · rw [← h2]; exact send_loop_trace_grows host wire d e rest st2

theorem send_data_first_receive (host : Host) (st : ReliableSocket) (m : Mem) (data : Span)
    (a : Attempt) (rest : List Attempt)
    (hstate : st.state = connection_status.WAIT_SEND) (hconn : st.socket.connected = true) :
    st.trace ++
        [Event.state (if st.sequence_number = 0 then connection_status.WAIT_ACK0
            else connection_status.WAIT_ACK1),
          Event.send (wire_bytes host m
            (RDTSegment.with_payload host (host.junk st.objs) st.sequence_number 0 RDT_DATA data)),
          Event.receive st.socket.timeout_length a.result] <+:
      (st.send_data host m data (a :: rest)).final.trace := by
  unfold ReliableSocket.send_data
  rw [if_neg (not_not.mpr hstate)]
  simp only [send_until_acked_data]
  have key : ∀ s : connection_status,
      st.trace ++ [Event.state s,
          Event.send (wire_bytes host m
            (RDTSegment.with_payload host (host.junk st.objs) st.sequence_number 0 RDT_DATA data)),
          Event.receive st.socket.timeout_length a.result] <+:
        (send_loop host (wire_bytes host m
            (RDTSegment.with_payload host (host.junk st.objs) st.sequence_number 0 RDT_DATA data))
          true (RDTSegment.with_payload host (host.junk st.objs) st.sequence_number 0 RDT_DATA
            data).get_sequence_number
          ({ st with objs := st.objs + 1 }.set_state s) (a :: rest)).final.trace := by
    intro s
    have h := send_loop_first_receive host (wire_bytes host m
        (RDTSegment.with_payload host (host.junk st.objs) st.sequence_number 0 RDT_DATA data))
      true (RDTSegment.with_payload host (host.junk st.objs) st.sequence_number 0 RDT_DATA
        data).get_sequence_number
      ({ st with objs := st.objs + 1 }.set_state s) a rest (by simpa [ReliableSocket.set_state] using hconn)
    simpa [ReliableSocket.set_state] using h
  have wrap : ∀ (o : Outcome Attempt Unit) (l : List Event), l <+: o.final.trace →
      l <+: (match o with
        | Outcome.returned st _ rest =>
          Outcome.returned
            (ReliableSocket.set_state
              { st with sequence_number := ((1 - (st.sequence_number : Int)) % 256).toNat }
              connection_status.WAIT_SEND) () rest
        | other => other).final.trace := by
    intro o l h
    cases o with
    | returned s v r => exact h.trans ⟨_, rfl⟩
    | waiting s => exact h
    | exited s => exact h
    | threw s => exact h
  by_cases h0 : st.sequence_number = 0
  · simp only [h0, if_true] at key ⊢
    exact wrap _ _ (key _)
  · simp only [h0, if_false] at key ⊢
    exact wrap _ _ (key _)

theorem close_connection_first_receive (host : Host) (st : ReliableSocket) (a : Attempt)
    (rest : List Attempt) (hstate : st.state = connection_status.WAIT_SEND)
    (hconn : st.socket.connected = true) :
    st.trace ++
        [Event.send (wire_bytes host zero_buffer
            (RDTSegment.control host (host.junk st.objs) 4 0 RDT_CLOSE)),
          Event.receive st.socket.timeout_length a.result] <+:
      (st.close_connection host (a :: rest)).final.trace := by
  unfold ReliableSocket.close_connection
  rw [if_pos hstate]
  simp only [send_until_acked_close]
  have key := send_loop_first_receive host (wire_bytes host zero_buffer
      (RDTSegment.control host (host.junk st.objs) 4 0 RDT_CLOSE)) false 4
    { st with objs := st.objs + 1 } a rest hconn
  have wrap : ∀ (o : Outcome Attempt Unit) (l : List Event), l <+: o.final.trace →
      l <+: (match o with
        | Outcome.returned st _ rest =>
          Outcome.returned
            (ReliableSocket.on_socket (st.set_state connection_status.CLOSED)
              (fun sock => sock.close)) () rest
        | other => other).final.trace := by
    intro o l h
    cases o with
    | returned s v r =>
      exact h.trans ⟨[Event.state connection_status.CLOSED, Event.close], by
        simp [Outcome.final, ReliableSocket.on_socket, ReliableSocket.set_state,
          UnreliableSocket.close]⟩
    | waiting s => exact h
    | exited s => exact h
    | threw s => exact h
  exact wrap _ _ key

theorem send_data_waits (host : Host) (st : ReliableSocket) (m : Mem) (data : Span)
    (noise : List Attempt)
    (hstate : st.state = connection_status.WAIT_SEND) (hconn : st.socket.connected = true)
    (hbit : st.sequence_number < 2) (hlen : data.size ≤ MAX_DATA_SIZE)
    (hnoise : ∀ x ∈ noise, is_retry host st.sequence_number x.result = true) :
    st.send_data host m data noise =
      Outcome.waiting
        (({ st with objs := st.objs + 1 }.set_state
            (if st.sequence_number = 0 then connection_status.WAIT_ACK0
             else connection_status.WAIT_ACK1)).log
          (attempts_trace
            ([st.sequence_number, 0, RDT_DATA, host.junk st.objs % 256, data.size / 256,
              data.size % 256] ++ m.read_span data)
            st.socket.timeout_length (noise.map Attempt.result) ++
            [Event.send ([st.sequence_number, 0, RDT_DATA, host.junk st.objs % 256,
              data.size / 256, data.size % 256] ++ m.read_span data)])) := by
  have hw := wire_bytes_with_payload host m (host.junk st.objs) st.sequence_number 0 RDT_DATA data
    hlen (by omega) (by decide) (by decide)
  have hseq : st.sequence_number % 256 = st.sequence_number := Nat.mod_eq_of_lt (by omega)
  have htype : (RDTSegment.with_payload host (host.junk st.objs) st.sequence_number 0 RDT_DATA
      data).get_type = RDT_DATA := rfl
  have hsn : (RDTSegment.with_payload host (host.junk st.objs) st.sequence_number 0 RDT_DATA
      data).get_sequence_number = st.sequence_number := hseq
  unfold ReliableSocket.send_data
  rw [if_neg (not_not.mpr hstate)]
  simp only [send_until_acked_data]
  simp only [htype, hsn, hw, if_true]
  have key : ∀ s : connection_status,
      send_loop host
        ([st.sequence_number, 0, RDT_DATA, host.junk st.objs % 256, data.size / 256,
          data.size % 256] ++ m.read_span data) true st.sequence_number
        ({ st with objs := st.objs + 1 }.set_state s) noise =
      Outcome.waiting
        (({ st with objs := st.objs + 1 }.set_state s).log
          (attempts_trace
            ([st.sequence_number, 0, RDT_DATA, host.junk st.objs % 256, data.size / 256,
              data.size % 256] ++ m.read_span data)
            st.socket.timeout_length (noise.map Attempt.result) ++
            [Event.send ([st.sequence_number, 0, RDT_DATA, host.junk st.objs % 256,
              data.size / 256, data.size % 256] ++ m.read_span data)])) := by
    intro s
    have h := send_loop_noise host
      ([st.sequence_number, 0, RDT_DATA, host.junk st.objs % 256, data.size / 256,
          data.size % 256] ++ m.read_span data) true st.sequence_number noise
      ({ st with objs := st.objs + 1 }.set_state s) [] (by simpa using hconn) hnoise
    rw [List.append_nil] at h
    rw [h, send_loop_waiting _ _ _ _ _ (by simpa using hconn), log_log]
    rfl
  by_cases h0 : st.sequence_number = 0
  · simp only [h0, if_true] at key ⊢
    rw [key]
  · simp only [h0, if_false] at key ⊢
    rw [key]

/-- C10. `send_data` called in `WAIT_SEND` with sequence bit `b` hands the
transport a DATA segment with sequence number `b` and exactly the given payload
(once per attempt), is in `WAIT_ACK0` or `WAIT_ACK1` according to `b` while it
waits through timeouts and segments of the four message types that are not
`ACK b`, returns on the first `ACK b` without consuming further input, and
returns with the bit flipped and the state `WAIT_SEND`. -/
theorem C10_send_data (host : Host) (st : ReliableSocket) (m : Mem) (data : Span)
    (noise : List Attempt) (a : Attempt) (rest : List Attempt)
    (hstate : st.state = connection_status.WAIT_SEND) (hconn : st.socket.connected = true)
    (hbit : st.sequence_number < 2) (hlen : data.size ≤ MAX_DATA_SIZE)
    (hnoise : ∀ x ∈ noise, is_retry host st.sequence_number x.result = true)
    (hack : is_ack host st.sequence_number a.result = true) :
    let wire := [st.sequence_number, 0, RDT_DATA, host.junk st.objs % 256, data.size / 256,
      data.size % 256] ++ m.read_span data
    let wait_ack := if st.sequence_number = 0 then connection_status.WAIT_ACK0
      else connection_status.WAIT_ACK1
    (∃ st', st.send_data host m data (noise ++ a :: rest) = Outcome.returned st' () rest ∧
      st'.state = connection_status.WAIT_SEND ∧
      st'.sequence_number = 1 - st.sequence_number ∧
      st'.trace = st.trace ++ Event.state wait_ack ::
        (attempts_trace wire st.socket.timeout_length ((noise ++ [a]).map Attempt.result) ++
          [Event.set_timeout_length st'.socket.timeout_length,
            Event.state connection_status.WAIT_SEND])) ∧
    (∃ st', st.send_data host m data noise = Outcome.waiting st' ∧
      st'.state = wait_ack ∧ st'.sequence_number = st.sequence_number ∧
      st'.trace = st.trace ++ Event.state wait_ack ::
        (attempts_trace wire st.socket.timeout_length (noise.map Attempt.result) ++
          [Event.send wire])) := by
  intro wire wait_ack
  constructor
  · refine ⟨_, send_data_completes host st m data noise a rest hstate hconn hbit hlen hnoise hack,
      rfl, rfl, ?_⟩
    simp [ReliableSocket.set_state, ReliableSocket.update_rtt, ReliableSocket.on_socket,
      UnreliableSocket.set_timeout_length, wire, wait_ack]
  · refine ⟨_, send_data_waits host st m data noise hstate hconn hbit hlen hnoise, rfl, rfl, ?_⟩
    simp [ReliableSocket.set_state, wire, wait_ack]

/-- C10 (witness). A ready client sends five bytes; the first attempt times out,
the second is answered by `ACK 0`. -/
theorem C10_send_data_witness :
    (sender_ready.state = connection_status.WAIT_SEND ∧
      sender_ready.socket.connected = true ∧ sender_ready.sequence_number < 2 ∧
      (⟨0, 5⟩ : Span).size ≤ MAX_DATA_SIZE ∧
      (∀ x ∈ [(⟨0, RecvResult.eagain, 240⟩ : Attempt)],
        is_retry host_le sender_ready.sequence_number x.result = true) ∧
      is_ack host_le sender_ready.sequence_number (ack_datagram 0) = true) ∧
    ∃ st', sender_ready.send_data host_le (fun x => 104 + x) ⟨0, 5⟩
        ([⟨0, RecvResult.eagain, 240⟩] ++ ⟨240, ack_datagram 0, 300⟩ :: []) =
          Outcome.returned st' () [] ∧
      st'.state = connection_status.WAIT_SEND ∧ st'.sequence_number = 1 :=
  ⟨⟨by decide, by decide, by decide, by decide, by decide, by decide⟩,
    (C10_send_data host_le sender_ready (fun x => 104 + x) ⟨0, 5⟩ [⟨0, RecvResult.eagain, 240⟩]
      ⟨240, ack_datagram 0, 300⟩ [] (by decide) (by decide) (by decide) (by decide) (by decide)
      (by decide)).1.imp (fun _ h => ⟨h.1, h.2.1, h.2.2.1⟩)⟩

/-- C7 (counterexample). The first transmission times out, the retransmission
is acknowledged after 60 ms: the segment went out twice, and `estimated_rtt`,
`dev_rtt` and the timeout length change from 200, 10, 240 to 182, 38, 334. -/
theorem C7_retransmitted_segment_feeds_estimator :
    sender_ready.estimated_rtt = 200 ∧ sender_ready.dev_rtt = 10 ∧
    sender_ready.socket.timeout_length = 240 ∧
    (sent_bytes ((sender_ready.send_data host_le (fun x => 104 + x) ⟨0, 5⟩
      [⟨0, RecvResult.eagain, 240⟩, ⟨240, ack_datagram 0, 300⟩]).final.trace.drop
        sender_ready.trace.length)).length = 2 ∧
    (sender_ready.send_data host_le (fun x => 104 + x) ⟨0, 5⟩
      [⟨0, RecvResult.eagain, 240⟩, ⟨240, ack_datagram 0, 300⟩]).final.estimated_rtt = 182 ∧
    (sender_ready.send_data host_le (fun x => 104 + x) ⟨0, 5⟩
      [⟨0, RecvResult.eagain, 240⟩, ⟨240, ack_datagram 0, 300⟩]).final.dev_rtt = 38 ∧
    (sender_ready.send_data host_le (fun x => 104 + x) ⟨0, 5⟩
      [⟨0, RecvResult.eagain, 240⟩, ⟨240, ack_datagram 0, 300⟩]).final.socket.timeout_length
        = 334 := by
  decide

/-- C7 (amended). `update_rtt` is fed once per completed `send_data`, when the
awaited acknowledgement arrives, whatever the number of transmissions before
it (one more for every timeout and every segment of one of the four message
types that is not the awaited acknowledgement): the sample is the clock
difference between the latest transmission and the arrival of that
acknowledgement. Until it arrives the statistics and the timeout length are
unchanged. -/
theorem C7_estimator_fed_on_every_completion (host : Host) (st : ReliableSocket) (m : Mem)
    (data : Span) (noise : List Attempt) (a : Attempt) (rest : List Attempt)
    (hstate : st.state = connection_status.WAIT_SEND) (hconn : st.socket.connected = true)
    (hbit : st.sequence_number < 2) (hlen : data.size ≤ MAX_DATA_SIZE)
    (hnoise : ∀ x ∈ noise, is_retry host st.sequence_number x.result = true)
    (hack : is_ack host st.sequence_number a.result = true) :
    (∃ st', st.send_data host m data (noise ++ a :: rest) = Outcome.returned st' () rest ∧
      st'.estimated_rtt = (st.update_rtt (rtt_sample a)).estimated_rtt ∧
      st'.dev_rtt = (st.update_rtt (rtt_sample a)).dev_rtt ∧
      st'.socket.timeout_length = (st.update_rtt (rtt_sample a)).socket.timeout_length) ∧
    (∃ st', st.send_data host m data noise = Outcome.waiting st' ∧
      st'.estimated_rtt = st.estimated_rtt ∧ st'.dev_rtt = st.dev_rtt ∧
      st'.socket.timeout_length = st.socket.timeout_length) :=
  ⟨⟨_, send_data_completes host st m data noise a rest hstate hconn hbit hlen hnoise hack,
      rfl, rfl, rfl⟩,
    ⟨_, send_data_waits host st m data noise hstate hconn hbit hlen hnoise, rfl, rfl, rfl⟩⟩

/-- C7 (witness). The acknowledgement arrives on the second transmission. -/
theorem C7_estimator_fed_on_every_completion_witness :
    (sender_ready.state = connection_status.WAIT_SEND ∧
      sender_ready.socket.connected = true ∧ sender_ready.sequence_number < 2 ∧
      (⟨0, 5⟩ : Span).size ≤ MAX_DATA_SIZE ∧
      (∀ x ∈ [(⟨0, RecvResult.eagain, 240⟩ : Attempt)],
        is_retry host_le sender_ready.sequence_number x.result = true) ∧
      is_ack host_le sender_ready.sequence_number (ack_datagram 0) = true) ∧
    ∃ st', sender_ready.send_data host_le (fun x => 104 + x) ⟨0, 5⟩
        ([⟨0, RecvResult.eagain, 240⟩] ++ ⟨240, ack_datagram 0, 300⟩ :: []) =
          Outcome.returned st' () [] ∧
      st'.estimated_rtt = (sender_ready.update_rtt 60).estimated_rtt :=
  ⟨⟨by decide, by decide, by decide, by decide, by decide, by decide⟩,
    (C7_estimator_fed_on_every_completion host_le sender_ready (fun x => 104 + x) ⟨0, 5⟩
      [⟨0, RecvResult.eagain, 240⟩] ⟨240, ack_datagram 0, 300⟩ [] (by decide) (by decide)
      (by decide) (by decide) (by decide) (by decide)).1.imp (fun _ h => ⟨h.1, h.2.1⟩)⟩

theorem update_rtt_nonneg (st : ReliableSocket) (sample : Nat) (he : 0 ≤ st.estimated_rtt)
    (hd : 0 ≤ st.dev_rtt) :
    0 ≤ (st.update_rtt sample).estimated_rtt ∧ 0 ≤ (st.update_rtt sample).dev_rtt := by
  constructor
  · rw [update_rtt_estimated_nonneg st sample he]; omega
  · show 0 ≤ Int.tdiv (3 * st.dev_rtt + _) 4
    rw [Int.tdiv_eq_ediv (by omega) (by decide)]
    omega

theorem sent_bytes_append (xs ys : List Event) :
    sent_bytes (xs ++ ys) = sent_bytes xs ++ sent_bytes ys := by
  induction xs with
  | nil => rfl
  | cons e es ih => cases e <;> simp [sent_bytes, ih]

theorem states_assigned_append (xs ys : List Event) :
    states_assigned (xs ++ ys) = states_assigned xs ++ states_assigned ys := by
  induction xs with
  | nil => rfl
  | cons e es ih => cases e <;> simp [states_assigned, ih]

theorem sent_bytes_attempts (w : List Nat) (t : Nat) (rs : List RecvResult) :
    sent_bytes (attempts_trace w t rs) = List.replicate rs.length w := by
  induction rs with
  | nil => rfl
  | cons r rs ih => simp [attempts_trace, sent_bytes, ih, List.replicate_succ]

theorem states_assigned_attempts (w : List Nat) (t : Nat) (rs : List RecvResult) :
    states_assigned (attempts_trace w t rs) = [] := by
  induction rs with
  | nil => rfl
  | cons r rs ih => simp [attempts_trace, states_assigned, ih]

theorem attempts_trace_append (w : List Nat) (t : Nat) (rs ss : List RecvResult) :
    attempts_trace w t (rs ++ ss) = attempts_trace w t rs ++ attempts_trace w t ss := by
  induction rs with
  | nil => rfl
  | cons r rs ih => simp [attempts_trace, ih]

theorem received_segment_of_span (host : Host) (bytes : List Nat) :
    RDTSegment.of_span host (Mem.write zero_buffer 0 (List.take MAX_SEG_SIZE bytes)) buffer_span =
      received_segment host bytes := rfl

theorem is_noise_cases (host : Host) (n : Nat) (r : RecvResult)
    (h : is_noise host n r = true) :
    r = RecvResult.eagain ∨
      ∃ bytes, r = RecvResult.datagram bytes ∧ bytes.isEmpty = false ∧
        ¬ ((received_segment host bytes).get_type = RDT_ACK ∧
          (received_segment host bytes).get_ack_number = n) := by
  cases r with
  | eagain => exact Or.inl rfl
  | failure => simp [is_noise, is_timeout, is_segment] at h
  | datagram bytes =>
    right
    simp only [is_noise, is_timeout, is_segment, is_ack, Bool.false_or, Bool.and_eq_true,
      Bool.not_eq_true', Bool.and_eq_false_iff, Bool.not_eq_true, decide_eq_false_iff_not,
      decide_eq_true_eq] at h
    obtain ⟨hne, hnot⟩ := h
    have hne2 : bytes.isEmpty = false := by simpa using hne
    refine ⟨bytes, rfl, hne2, ?_⟩
    rintro ⟨h1, h2⟩
    rcases hnot with (h | h) | h
    · simp [hne2] at h
    · exact h h1
    · exact h h2

theorem is_ack_cases (host : Host) (n : Nat) (r : RecvResult) (h : is_ack host n r = true) :
    ∃ bytes, r = RecvResult.datagram bytes ∧ bytes.isEmpty = false ∧
      (received_segment host bytes).get_type = RDT_ACK ∧
      (received_segment host bytes).get_ack_number = n := by
  cases r with
  | eagain => simp [is_ack] at h
  | failure => simp [is_ack] at h
  | datagram bytes =>
    simp only [is_ack, Bool.and_eq_true, Bool.not_eq_true', decide_eq_true_eq] at h
    exact ⟨bytes, rfl, h.1.1, h.1.2, h.2⟩

theorem connect_loop_noise (host : Host) (wire : List Nat) (noise : List RecvResult) :
    ∀ (st : ReliableSocket) (rest : List RecvResult), st.socket.connected = true →
      (∀ r ∈ noise, is_noise host 2 r = true) →
      connect_loop host wire st (noise ++ rest) =
        connect_loop host wire
          (st.log (attempts_trace wire st.socket.timeout_length noise)) rest := by
  induction noise with
  | nil => intro st rest _ _; simp [attempts_trace, log_nil]
  | cons r noise ih =>
    intro st rest hc hn
    have step : connect_loop host wire st (r :: (noise ++ rest)) =
        connect_loop host wire
          (st.log [Event.send wire, Event.receive st.socket.timeout_length r]) (noise ++ rest) := by
      rcases is_noise_cases host 2 r (hn r (List.mem_cons_self _ _)) with h | ⟨bytes, h, hne, hnot⟩
      · subst h
        simp [connect_loop, socket_send_connected _ _ hc, receive_eagain, log_log]
      · subst h
        simp only [connect_loop, socket_send_connected _ _ hc]
        rw [receive_datagram_connected _ _ _ hne (by simpa using hc)]
        simp only [log_log, log_socket, received_segment_of_span, hnot, if_false]
        rfl
    rw [List.cons_append, step,
      ih _ rest (by simpa using hc) (fun x hx => hn x (List.mem_cons_of_mem _ hx))]
    simp [log_log, attempts_trace]

theorem connect_loop_match (host : Host) (wire : List Nat) (st : ReliableSocket)
    (r : RecvResult) (rest : List RecvResult) (hc : st.socket.connected = true)
    (ha : is_ack host 2 r = true) :
    connect_loop host wire st (r :: rest) =
      Outcome.returned
        (st.log [Event.send wire, Event.receive st.socket.timeout_length r]) () rest := by
  obtain ⟨bytes, h, hne, h1, h2⟩ := is_ack_cases host 2 r ha
  subst h
  simp only [connect_loop, socket_send_connected _ _ hc]
  rw [receive_datagram_connected _ _ _ hne (by simpa using hc)]
  simp only [log_log, log_socket, received_segment_of_span, h1, h2, and_self, if_true]
  rfl

/-- The state `connect_to_remote` returns in when `ACK 2` arrives after any
number of timeouts and other segments. -/
theorem connect_completes (host : Host) (st : ReliableSocket) (hostname : String)
    (port_num : Int) (noise : List RecvResult) (r : RecvResult) (rest : List RecvResult)
    (hinit : st.state = connection_status.INIT)
    (hnoise : ∀ x ∈ noise, is_noise host 2 x = true) (hack : is_ack host 2 r = true) :
    st.connect_to_remote host hostname port_num (noise ++ r :: rest) =
      Outcome.returned
        (ReliableSocket.set_state
          (ReliableSocket.send_ack host
            (ReliableSocket.set_state
              ((ReliableSocket.set_state
                (ReliableSocket.on_socket
                  { st.on_socket (fun sock => sock.connect hostname port_num) with
                    objs := st.objs + 1 }
                  (fun sock => sock.set_timeout_length (st.estimated_rtt + 4 * st.dev_rtt)))
                connection_status.WAIT_HS2).log
                (attempts_trace (conn_bytes host st.objs)
                  ((st.estimated_rtt + 4 * st.dev_rtt) % 4294967296).toNat (noise ++ [r])))
              connection_status.WAIT_HS3) 3)
          connection_status.WAIT_SEND) () rest := by
  have hw : wire_bytes host zero_buffer (RDTSegment.control host
      (host.junk (st.on_socket (fun sock => sock.connect hostname port_num)).objs) 0 0 RDT_CONN) =
      conn_bytes host st.objs :=
    wire_bytes_control host zero_buffer _ 0 0 RDT_CONN (by decide) (by decide) (by decide)
  unfold ReliableSocket.connect_to_remote
  rw [if_neg (not_not.mpr hinit)]
  simp only [hw]
  rw [connect_loop_noise host _ noise _ _ rfl hnoise, connect_loop_match host _ _ r rest rfl hack]
  simp only [log_log, attempts_trace_append, attempts_trace]
  rfl

/-- C8. `connect_to_remote` called in `INIT`, given `k` receives that are
timeouts or segments other than `ACK 2` and then `ACK 2`, hands the transport
the same `RDT_CONN` segment `k + 1` times, then one `ACK 3`, assigns the states
`WAIT_HS2`, `WAIT_HS3`, `WAIT_SEND` in this order and returns in `WAIT_SEND`. -/
theorem C8_client_handshake (host : Host) (st : ReliableSocket) (hostname : String)
    (port_num : Int) (noise : List RecvResult) (r : RecvResult) (rest : List RecvResult)
    (hinit : st.state = connection_status.INIT)
    (hnoise : ∀ x ∈ noise, is_noise host 2 x = true) (hack : is_ack host 2 r = true) :
    let timeout_length := ((st.estimated_rtt + 4 * st.dev_rtt) % 4294967296).toNat
    let events := [Event.connect hostname port_num, Event.set_timeout_length timeout_length,
        Event.state connection_status.WAIT_HS2] ++
      attempts_trace (conn_bytes host st.objs) timeout_length (noise ++ [r]) ++
      [Event.state connection_status.WAIT_HS3, Event.send (ack_bytes host (st.objs + 1) 3),
        Event.state connection_status.WAIT_SEND]
    ∃ st', st.connect_to_remote host hostname port_num (noise ++ r :: rest) =
        Outcome.returned st' () rest ∧
      st'.state = connection_status.WAIT_SEND ∧
      st'.trace = st.trace ++ events ∧
      sent_bytes events =
        List.replicate (noise.length + 1) (conn_bytes host st.objs) ++
          [ack_bytes host (st.objs + 1) 3] ∧
      states_assigned events = [connection_status.WAIT_HS2, connection_status.WAIT_HS3,
        connection_status.WAIT_SEND] := by
  intro timeout_length events
  have hw3 : ∀ i, wire_bytes host zero_buffer (RDTSegment.control host (host.junk i) 0 3 RDT_ACK) =
      ack_bytes host i 3 := fun i =>
    wire_bytes_control host zero_buffer _ 0 3 RDT_ACK (by decide) (by decide) (by decide)
  refine ⟨_, connect_completes host st hostname port_num noise r rest hinit hnoise hack, rfl,
    ?_, ?_, ?_⟩
  · simp [ReliableSocket.set_state, ReliableSocket.send_ack, ReliableSocket.on_socket,
      UnreliableSocket.send, UnreliableSocket.connect, UnreliableSocket.set_timeout_length, hw3,
      events, timeout_length]
  · simp [events, sent_bytes_append, sent_bytes_attempts, sent_bytes, List.replicate_succ]
  · simp [events, states_assigned_append, states_assigned_attempts, states_assigned]

/-- C8 (witness). The first `RDT_CONN` times out, the second is answered by an
`ACK 3`, the third by `ACK 2`. -/
theorem C8_client_handshake_witness :
    (ReliableSocket.init.state = connection_status.INIT ∧
      (∀ x ∈ [RecvResult.eagain, ack_datagram 3], is_noise host_le 2 x = true) ∧
      is_ack host_le 2 (ack_datagram 2) = true) ∧
    ∃ st', ReliableSocket.init.connect_to_remote host_le "10.0.0.2" 4000
        ([RecvResult.eagain, ack_datagram 3] ++ ack_datagram 2 :: []) =
          Outcome.returned st' () [] ∧
      st'.state = connection_status.WAIT_SEND :=
  ⟨⟨by decide, by decide, by decide⟩,
    (C8_client_handshake host_le ReliableSocket.init "10.0.0.2" 4000
      [RecvResult.eagain, ack_datagram 3] (ack_datagram 2) [] (by decide) (by decide)
      (by decide)).imp (fun _ h => ⟨h.1, h.2.1⟩)⟩

theorem send_ack_connected (host : Host) (st : ReliableSocket) (n : Nat) (hn : n < 256)
    (hc : st.socket.connected = true) :
    ReliableSocket.send_ack host st n =
      { st with objs := st.objs + 1, trace := st.trace ++ [Event.send (ack_bytes host st.objs n)] } := by
  have hw : wire_bytes host zero_buffer (RDTSegment.control host (host.junk st.objs) 0 n RDT_ACK) =
      ack_bytes host st.objs n :=
    wire_bytes_control host zero_buffer _ 0 n RDT_ACK (by decide) hn (by decide)
  simp [ReliableSocket.send_ack, ReliableSocket.on_socket, UnreliableSocket.send, hc, hw]

theorem is_type_cases (host : Host) (t : Nat) (r : RecvResult) (h : is_type host t r = true) :
    ∃ bytes, r = RecvResult.datagram bytes ∧ bytes.isEmpty = false ∧
      (received_segment host bytes).get_type = t := by
  cases r with
  | eagain => simp [is_type] at h
  | failure => simp [is_type] at h
  | datagram bytes =>
    simp only [is_type, Bool.and_eq_true, Bool.not_eq_true', decide_eq_true_eq] at h
    exact ⟨bytes, rfl, h.1, h.2⟩

theorem is_type_datagram (host : Host) (t : Nat) (bytes : List Nat) (hne : bytes.isEmpty = false) :
    is_type host t (RecvResult.datagram bytes) = decide ((received_segment host bytes).get_type = t) := by
  simp [is_type, hne]

/-- One pass of the second loop of `accept_connection` on a receive that does not
end it. -/
theorem accept_wait_ack_step (host : Host) (st : ReliableSocket) (r : RecvResult)
    (rest : List RecvResult) (hc : st.socket.connected = true)
    (hn : is_noise host 3 r = true) :
    accept_wait_ack host st (r :: rest) =
      accept_wait_ack host
        { st with
          objs := st.objs + (if asks_for_ack2 host r then 1 else 0)
          trace := st.trace ++ replies_trace host st.socket.timeout_length st.objs [r] } rest := by
  rcases is_noise_cases host 3 r hn with h | ⟨bytes, h, hne, hnot⟩
  · subst h
    simp only [accept_wait_ack, receive_eagain]
    rw [send_ack_connected host _ 2 (by decide) (by simpa using hc)]
    simp [replies_trace, asks_for_ack2, is_timeout, ReliableSocket.log]
  · subst h
    simp only [accept_wait_ack]
    rw [receive_datagram_connected _ _ _ hne hc]
    simp only [received_segment_of_span, hnot, if_false]
    by_cases hconn : (received_segment host bytes).get_type = RDT_CONN
    · simp only [hconn, if_true]
      rw [send_ack_connected host _ 2 (by decide) (by simpa using hc)]
      simp [replies_trace, asks_for_ack2, is_timeout, is_type_datagram host _ _ hne, hconn,
        ReliableSocket.log]
    · simp only [hconn, if_false]
      simp [replies_trace, asks_for_ack2, is_timeout, is_type_datagram host _ _ hne, hconn,
        ReliableSocket.log]

theorem replies_trace_append (host : Host) (t : Nat) (rs ss : List RecvResult) :
    ∀ i, replies_trace host t i (rs ++ ss) =
      replies_trace host t i rs ++
        replies_trace host t (i + (rs.filter (asks_for_ack2 host)).length) ss := by
  induction rs with
  | nil => intro i; simp [replies_trace]
  | cons r rs ih =>
    intro i
    by_cases h : asks_for_ack2 host r = true
    · simp [replies_trace, h, ih, List.filter_cons, Nat.add_assoc, Nat.add_comm 1]
    · simp [replies_trace, h, ih, List.filter_cons]

theorem accept_wait_ack_noise (host : Host) (mid : List RecvResult) :
    ∀ (st : ReliableSocket) (rest : List RecvResult), st.socket.connected = true →
      (∀ r ∈ mid, is_noise host 3 r = true) →
      accept_wait_ack host st (mid ++ rest) =
        accept_wait_ack host
          { st with
            objs := st.objs + (mid.filter (asks_for_ack2 host)).length
            trace := st.trace ++ replies_trace host st.socket.timeout_length st.objs mid }
          rest := by
  induction mid with
  | nil => intro st rest _ _; simp [replies_trace]
  | cons r mid ih =>
    intro st rest hc hn
    rw [List.cons_append, accept_wait_ack_step host st r _ hc (hn r (List.mem_cons_self _ _)),
      ih _ rest (by simpa using hc) (fun x hx => hn x (List.mem_cons_of_mem _ hx))]
    congr 1
    by_cases h : asks_for_ack2 host r = true
    · simp [h, replies_trace, List.filter_cons, Nat.add_assoc, Nat.add_comm 1]
    · simp [h, replies_trace, List.filter_cons]

theorem accept_wait_ack_match (host : Host) (st : ReliableSocket) (r : RecvResult)
    (rest : List RecvResult) (hc : st.socket.connected = true)
    (ha : is_ack host 3 r = true) :
    accept_wait_ack host st (r :: rest) =
      Outcome.returned
        { st with
          state := connection_status.WAIT_DATA0
          trace := st.trace ++ [Event.receive st.socket.timeout_length r,
            Event.state connection_status.WAIT_DATA0] } () rest := by
  obtain ⟨bytes, h, hne, h1, h2⟩ := is_ack_cases host 3 r ha
  subst h
  simp only [accept_wait_ack]
  rw [receive_datagram_connected _ _ _ hne hc]
  simp only [received_segment_of_span, h1, h2, and_self, if_true]
  simp [ReliableSocket.set_state, ReliableSocket.log]

theorem accept_wait_conn_skip (host : Host) (st : ReliableSocket) (r : RecvResult)
    (rest : List RecvResult) (hs : is_segment r = true)
    (ht : is_type host RDT_CONN r = false) :
    accept_wait_conn host st (r :: rest) =
      accept_wait_conn host
        (st.mark_connected.log [Event.receive st.socket.timeout_length r]) rest := by
  cases r with
  | eagain => simp [is_segment] at hs
  | failure => simp [is_segment] at hs
  | datagram bytes =>
    have hne : bytes.isEmpty = false := by simpa [is_segment] using hs
    have hnot : ¬ (received_segment host bytes).get_type = RDT_CONN := by
      simpa [is_type_datagram host _ _ hne] using ht
    simp only [accept_wait_conn]
    rw [receive_datagram _ _ _ hne]
    simp only [received_segment_of_span, hnot, if_false]
    rfl

theorem accept_wait_conn_match (host : Host) (st : ReliableSocket) (r : RecvResult)
    (rest : List RecvResult) (ht : is_type host RDT_CONN r = true) :
    accept_wait_conn host st (r :: rest) =
      accept_wait_ack host
        { st with
          socket := { timeout_length := ((st.estimated_rtt + 4 * st.dev_rtt) % 4294967296).toNat
                      connected := true }
          objs := st.objs + 1
          trace := st.trace ++ [Event.receive st.socket.timeout_length r,
            Event.send (ack_bytes host st.objs 2),
            Event.set_timeout_length
              ((st.estimated_rtt + 4 * st.dev_rtt) % 4294967296).toNat] } rest := by
  obtain ⟨bytes, h, hne, h1⟩ := is_type_cases host RDT_CONN r ht
  subst h
  simp only [accept_wait_conn]
  rw [receive_datagram _ _ _ hne]
  simp only [received_segment_of_span, h1, if_true]
  rw [send_ack_connected host _ 2 (by decide) rfl]
  simp [ReliableSocket.on_socket, UnreliableSocket.set_timeout_length, ReliableSocket.log]

theorem accept_wait_conn_ignores (host : Host) (pre : List RecvResult) :
    ∀ (st : ReliableSocket) (c : RecvResult) (rest : List RecvResult),
      (∀ r ∈ pre, is_segment r = true ∧ is_type host RDT_CONN r = false) →
      is_type host RDT_CONN c = true →
      accept_wait_conn host st (pre ++ c :: rest) =
        accept_wait_ack host
          { st with
            socket := { timeout_length := ((st.estimated_rtt + 4 * st.dev_rtt) % 4294967296).toNat
                        connected := true }
            objs := st.objs + 1
            trace := st.trace ++ ((pre ++ [c]).map (Event.receive st.socket.timeout_length) ++
              [Event.send (ack_bytes host st.objs 2),
                Event.set_timeout_length
                  ((st.estimated_rtt + 4 * st.dev_rtt) % 4294967296).toNat]) } rest := by
  induction pre with
  | nil =>
    intro st c rest _ hc
    rw [List.nil_append, accept_wait_conn_match host st c rest hc]
    simp
  | cons r pre ih =>
    intro st c rest hp hc
    rw [List.cons_append,
      accept_wait_conn_skip host st r _ (hp r (List.mem_cons_self _ _)).1
        (hp r (List.mem_cons_self _ _)).2,
      ih _ c rest (fun x hx => hp x (List.mem_cons_of_mem _ hx)) hc]
    simp [ReliableSocket.mark_connected, ReliableSocket.log]

theorem sent_bytes_receives (t : Nat) (rs : List RecvResult) :
    sent_bytes (rs.map (Event.receive t)) = [] := by
  induction rs with
  | nil => rfl
  | cons r rs ih => simp [sent_bytes, ih]

theorem states_assigned_receives (t : Nat) (rs : List RecvResult) :
    states_assigned (rs.map (Event.receive t)) = [] := by
  induction rs with
  | nil => rfl
  | cons r rs ih => simp [states_assigned, ih]

theorem sent_bytes_replies (host : Host) (t : Nat) (rs : List RecvResult) :
    ∀ i, sent_bytes (replies_trace host t i rs) =
      (List.range (rs.filter (asks_for_ack2 host)).length).map
        (fun j => ack_bytes host (i + j) 2) := by
  induction rs with
  | nil => intro i; rfl
  | cons r rs ih =>
    intro i
    by_cases h : asks_for_ack2 host r = true
    · simp [replies_trace, h, sent_bytes, ih, List.filter_cons, List.range_succ_eq_map,
        Nat.add_assoc, Nat.add_comm 1, Function.comp_def]
    · simp [replies_trace, h, sent_bytes, ih, List.filter_cons]

theorem states_assigned_replies (host : Host) (t : Nat) (rs : List RecvResult) :
    ∀ i, states_assigned (replies_trace host t i rs) = [] := by
  induction rs with
  | nil => intro i; rfl
  | cons r rs ih =>
    intro i
    by_cases h : asks_for_ack2 host r = true
    · simp [replies_trace, h, states_assigned, ih]
    · simp [replies_trace, h, states_assigned, ih]

theorem asks_for_ack2_count (host : Host) (rs : List RecvResult) :
    (rs.filter (asks_for_ack2 host)).length =
      (rs.filter is_timeout).length + (rs.filter (is_type host RDT_CONN)).length := by
  induction rs with
  | nil => rfl
  | cons r rs ih =>
    cases r with
    | eagain => simp [List.filter_cons, asks_for_ack2, is_timeout, is_type, ih]; omega
    | failure => simp [List.filter_cons, asks_for_ack2, is_timeout, is_type, ih]
    | datagram bytes =>
      by_cases h : is_type host RDT_CONN (RecvResult.datagram bytes) = true
      · simp [List.filter_cons, asks_for_ack2, is_timeout, h, ih]; omega
      · simp [List.filter_cons, asks_for_ack2, is_timeout, h, ih]

/-- The state `accept_connection` returns in. -/
theorem accept_completes (host : Host) (st : ReliableSocket) (port_num : Int)
    (pre : List RecvResult) (c : RecvResult) (mid : List RecvResult) (a3 : RecvResult)
    (rest : List RecvResult) (hinit : st.state = connection_status.INIT)
    (hpre : ∀ r ∈ pre, is_segment r = true ∧ is_type host RDT_CONN r = false)
    (hc : is_type host RDT_CONN c = true)
    (hmid : ∀ r ∈ mid, is_noise host 3 r = true)
    (hack : is_ack host 3 a3 = true) :
    st.accept_connection host port_num (pre ++ c :: (mid ++ a3 :: rest)) =
      Outcome.returned
        { st with
          socket := { timeout_length := ((st.estimated_rtt + 4 * st.dev_rtt) % 4294967296).toNat
                      connected := true }
          state := connection_status.WAIT_DATA0
          objs := st.objs + 1 + (mid.filter (asks_for_ack2 host)).length
          trace := st.trace ++
            ([Event.bind port_num] ++
              (pre ++ [c]).map (Event.receive st.socket.timeout_length) ++
              [Event.send (ack_bytes host st.objs 2),
                Event.set_timeout_length
                  ((st.estimated_rtt + 4 * st.dev_rtt) % 4294967296).toNat] ++
              replies_trace host ((st.estimated_rtt + 4 * st.dev_rtt) % 4294967296).toNat
                (st.objs + 1) mid ++
              [Event.receive ((st.estimated_rtt + 4 * st.dev_rtt) % 4294967296).toNat a3,
                Event.state connection_status.WAIT_DATA0]) } () rest := by
  unfold ReliableSocket.accept_connection
  rw [if_neg (not_not.mpr hinit),
    accept_wait_conn_ignores host pre _ c _ hpre hc,
    accept_wait_ack_noise host mid _ _ rfl hmid,
    accept_wait_ack_match host _ a3 rest rfl hack]
  simp [ReliableSocket.on_socket, UnreliableSocket.bind]

/-- C9. `accept_connection` called in `INIT` sends nothing for the segments that
come before the first `RDT_CONN`, answers that one with `ACK 2`, then sends
`ACK 2` once more for every `RDT_CONN` and every timeout that comes before the
first `ACK 3`, and on that `ACK 3` returns in `WAIT_DATA0`: all it sends are
`1 + timeouts + RDT_CONNs` segments `ACK 2`, it binds once and assigns no state
but `WAIT_DATA0`. -/
theorem C9_server_handshake (host : Host) (st : ReliableSocket) (port_num : Int)
    (pre : List RecvResult) (c : RecvResult) (mid : List RecvResult) (a3 : RecvResult)
    (rest : List RecvResult) (hinit : st.state = connection_status.INIT)
    (hpre : ∀ r ∈ pre, is_segment r = true ∧ is_type host RDT_CONN r = false)
    (hc : is_type host RDT_CONN c = true)
    (hmid : ∀ r ∈ mid, is_noise host 3 r = true)
    (hack : is_ack host 3 a3 = true) :
    let timeout_length := ((st.estimated_rtt + 4 * st.dev_rtt) % 4294967296).toNat
    let events := [Event.bind port_num] ++
      (pre ++ [c]).map (Event.receive st.socket.timeout_length) ++
      [Event.send (ack_bytes host st.objs 2), Event.set_timeout_length timeout_length] ++
      replies_trace host timeout_length (st.objs + 1) mid ++
      [Event.receive timeout_length a3, Event.state connection_status.WAIT_DATA0]
    ∃ st', st.accept_connection host port_num (pre ++ c :: (mid ++ a3 :: rest)) =
        Outcome.returned st' () rest ∧
      st'.state = connection_status.WAIT_DATA0 ∧
      st'.trace = st.trace ++ events ∧
      (sent_bytes events).length =
        1 + ((mid.filter is_timeout).length + (mid.filter (is_type host RDT_CONN)).length) ∧
      (∀ w ∈ sent_bytes events, ∃ j, w = [0, 2, RDT_ACK, j, 0, 0]) ∧
      states_assigned events = [connection_status.WAIT_DATA0] := by
  intro timeout_length events
  have hsent : sent_bytes events =
      ack_bytes host st.objs 2 ::
        (List.range (mid.filter (asks_for_ack2 host)).length).map
          (fun j => ack_bytes host (st.objs + 1 + j) 2) := by
    simp [events, sent_bytes_append, sent_bytes_receives, sent_bytes_replies, sent_bytes]
  refine ⟨_, accept_completes host st port_num pre c mid a3 rest hinit hpre hc hmid hack, rfl,
    rfl, ?_, ?_, ?_⟩
  · rw [hsent, ← asks_for_ack2_count]
    simp
    omega
  · intro w hw
    rw [hsent] at hw
    simp only [List.mem_cons, List.mem_map] at hw
    rcases hw with h | ⟨j, _, h⟩
    · exact ⟨_, h⟩
    · exact ⟨_, h.symm⟩
  · simp [events, states_assigned_append, states_assigned_receives, states_assigned_replies,
      states_assigned]

/-- C9 (witness). The first `ACK 2` is lost: the server times out once, sees the
`RDT_CONN` again, then gets `ACK 3`. -/
theorem C9_server_handshake_witness :
    (ReliableSocket.init.state = connection_status.INIT ∧
      (∀ r ∈ [ack_datagram 3], is_segment r = true ∧ is_type host_le RDT_CONN r = false) ∧
      is_type host_le RDT_CONN conn_datagram = true ∧
      (∀ r ∈ [RecvResult.eagain, conn_datagram], is_noise host_le 3 r = true) ∧
      is_ack host_le 3 (ack_datagram 3) = true) ∧
    ∃ st', ReliableSocket.init.accept_connection host_le 4000
        ([ack_datagram 3] ++ conn_datagram ::
          ([RecvResult.eagain, conn_datagram] ++ ack_datagram 3 :: [])) =
          Outcome.returned st' () [] ∧
      st'.state = connection_status.WAIT_DATA0 :=
  ⟨⟨by decide, by decide, by decide, by decide, by decide⟩,
    (C9_server_handshake host_le ReliableSocket.init 4000 [ack_datagram 3] conn_datagram
      [RecvResult.eagain, conn_datagram] (ack_datagram 3) [] (by decide) (by decide) (by decide)
      (by decide) (by decide)).imp (fun _ h => ⟨h.1, h.2.1⟩)⟩

/-! ## Theorems: receiving data -/

theorem of_span_write_header (host : Host) (buf : Mem) (bytes : List Nat)
    (h : sizeof_RDTHeader ≤ bytes.length) :
    RDTSegment.of_span host (Mem.write buf 0 (bytes.take MAX_SEG_SIZE)) buffer_span =
      received_segment host bytes := by
  have hl : ∀ k, k < 6 → k < (bytes.take MAX_SEG_SIZE).length := by
    intro k hk
    have h6 : sizeof_RDTHeader = 6 := sizeof_RDTHeader_eq
    have h14 : MAX_SEG_SIZE = 1400 := rfl
    simp only [List.length_take]
    omega
  have hr : ∀ (m : Mem) k, k < 6 →
      (Mem.write m 0 (bytes.take MAX_SEG_SIZE)).read (0 + k) =
        (bytes.take MAX_SEG_SIZE).getD k 0 % 256 :=
    fun m k hk => read_write_of_lt m 0 _ k (hl k hk)
  have e : ∀ k, k < 6 →
      (Mem.write buf 0 (bytes.take MAX_SEG_SIZE)).read (0 + k) =
        (Mem.write zero_buffer 0 (bytes.take MAX_SEG_SIZE)).read (0 + k) := by
    intro k hk; rw [hr buf k hk, hr zero_buffer k hk]
  have e0 := e 0 (by decide)
  have e1 := e 1 (by decide)
  have e2 := e 2 (by decide)
  have e3 := e 3 (by decide)
  have e4 := e 4 (by decide)
  have e5 := e 5 (by decide)
  unfold received_segment RDTSegment.of_span RDTHeader.of_memory
  show (_ : RDTSegment) = _
  have a0 : buffer_span.data + offsetof_sequence_number = 0 + 0 := rfl
  have a1 : buffer_span.data + offsetof_ack_number = 0 + 1 := rfl
  have a2 : buffer_span.data + offsetof_type = 0 + 2 := rfl
  have a3 : buffer_span.data + offsetof_pad = 0 + 3 := rfl
  have a4 : buffer_span.data + offsetof_payload_size = 0 + 4 := rfl
  have a5 : buffer_span.data + offsetof_payload_size + 1 = 0 + 5 := rfl
  simp only [a0, a1, a2, a3, a4, a5, e0, e1, e2, e3, e4, e5]

theorem flip_bit (b : Nat) (hb : b < 2) : (((1 : Int) - (b : Int)) % 256).toNat = 1 - b := by
  omega

/-- One pass of the loop of `receive_data` on a duplicate. -/
theorem receive_loop_duplicate (host : Host) (b : Nat) (buffer buf : Mem) (st : ReliableSocket)
    (r : RecvResult) (rest : List RecvResult) (hb : b < 2)
    (hc : st.socket.connected = true) (hr : is_duplicate host b r = true) :
    ∃ buf', receive_loop host b buffer buf st (r :: rest) =
      receive_loop host b buffer buf'
        { st with
          objs := st.objs + 1
          trace := st.trace ++ [Event.receive st.socket.timeout_length r,
            Event.send (ack_bytes host st.objs (1 - b))] } rest := by
  cases r with
  | eagain => simp [is_duplicate] at hr
  | failure => simp [is_duplicate] at hr
  | datagram bytes =>
    simp only [is_duplicate, Bool.and_eq_true, decide_eq_true_eq] at hr
    obtain ⟨⟨hlen, htype⟩, hseq⟩ := hr
    have hne : bytes.isEmpty = false := by
      cases bytes with
      | nil => simp [sizeof_RDTHeader_eq] at hlen
      | cons x xs => rfl
    obtain ⟨text, htext⟩ := to_string_of_known host (received_segment host bytes)
      ((known_type_iff _).mpr (Or.inr (Or.inr (Or.inl htype))))
    refine ⟨Mem.write buf 0 (bytes.take MAX_SEG_SIZE), ?_⟩
    simp only [receive_loop]
    rw [receive_datagram_connected _ _ _ hne hc]
    simp only [of_span_write_header host buf bytes hlen, htext, htype, hseq, if_true, if_false,
      flip_bit b hb]
    rw [send_ack_connected host _ (1 - b) (by omega) (by simpa using hc)]
    simp [ReliableSocket.log]

/-- One pass of the loop of `receive_data` on an `RDT_ACK` or `RDT_CONN` segment, which is
neither data nor a close request. -/
theorem receive_loop_neither (host : Host) (b : Nat) (buffer buf : Mem) (st : ReliableSocket)
    (r : RecvResult) (rest : List RecvResult)
    (hc : st.socket.connected = true) (hr : is_neither host r = true) :
    ∃ buf', receive_loop host b buffer buf st (r :: rest) =
      receive_loop host b buffer buf'
        { st with trace := st.trace ++ [Event.receive st.socket.timeout_length r] } rest := by
  cases r with
  | eagain => simp [is_neither] at hr
  | failure => simp [is_neither] at hr
  | datagram bytes =>
    simp only [is_neither, Bool.and_eq_true, Bool.or_eq_true, decide_eq_true_eq] at hr
    obtain ⟨hlen, htype⟩ := hr
    have hne : bytes.isEmpty = false := by
      cases bytes with
      | nil => simp [sizeof_RDTHeader_eq] at hlen
      | cons x xs => rfl
    have h1 : ¬ (received_segment host bytes).get_type = RDT_DATA := by
      rcases htype with h | h <;> rw [h] <;> decide
    have h2 : ¬ (received_segment host bytes).get_type = RDT_CLOSE := by
      rcases htype with h | h <;> rw [h] <;> decide
    obtain ⟨text, htext⟩ := to_string_of_known host (received_segment host bytes)
      ((known_type_iff _).mpr (by
        rcases htype with h | h
        · exact Or.inr (Or.inl h)
        · exact Or.inl h))
    refine ⟨Mem.write buf 0 (bytes.take MAX_SEG_SIZE), ?_⟩
    simp only [receive_loop]
    rw [receive_datagram_connected _ _ _ hne hc]
    simp only [of_span_write_header host buf bytes hlen, htext, h1, h2, if_false]
    simp [ReliableSocket.log]

theorem is_neither_not_duplicate (host : Host) (b : Nat) (r : RecvResult)
    (h : is_neither host r = true) : is_duplicate host b r = false := by
  cases r with
  | eagain => rfl
  | failure => rfl
  | datagram bytes =>
    simp only [is_neither, Bool.and_eq_true, Bool.or_eq_true, decide_eq_true_eq] at h
    have h1 : ¬ (received_segment host bytes).get_type = RDT_DATA := by
      rcases h.2 with h' | h' <;> rw [h'] <;> decide
    simp [is_duplicate, h1]

/-- The loop of `receive_data` on receives that do not end it: duplicates and
segments that are neither data nor a close request. -/
theorem receive_loop_skips (host : Host) (b : Nat) (buffer : Mem) (hb : b < 2)
    (pre : List RecvResult) :
    ∀ (buf : Mem) (st : ReliableSocket) (rest : List RecvResult),
      st.socket.connected = true → st.socket.timeout_length = 0 →
      (∀ r ∈ pre, is_duplicate host b r = true ∨ is_neither host r = true) →
      ∃ buf', receive_loop host b buffer buf st (pre ++ rest) =
        receive_loop host b buffer buf'
          { st with
            objs := st.objs + (pre.filter (is_duplicate host b)).length
            trace := st.trace ++ duplicates_trace host b st.objs pre } rest := by
  induction pre with
  | nil => intro buf st rest _ _ _; exact ⟨buf, by simp [duplicates_trace]⟩
  | cons r pre ih =>
    intro buf st rest hc ht hp
    rcases hp r (List.mem_cons_self _ _) with hd | hn
    · obtain ⟨buf1, h1⟩ := receive_loop_duplicate host b buffer buf st r (pre ++ rest) hb hc hd
      obtain ⟨buf2, h2⟩ := ih buf1
        { st with
          objs := st.objs + 1
          trace := st.trace ++ [Event.receive st.socket.timeout_length r,
            Event.send (ack_bytes host st.objs (1 - b))] } rest hc ht
        (fun x hx => hp x (List.mem_cons_of_mem _ hx))
      refine ⟨buf2, ?_⟩
      rw [List.cons_append, h1, h2]
      simp [duplicates_trace, hd, ht, List.filter_cons, Nat.add_assoc, Nat.add_comm 1]
    · obtain ⟨buf1, h1⟩ := receive_loop_neither host b buffer buf st r (pre ++ rest) hc hn
      obtain ⟨buf2, h2⟩ := ih buf1
        { st with trace := st.trace ++ [Event.receive st.socket.timeout_length r] } rest hc ht
        (fun x hx => hp x (List.mem_cons_of_mem _ hx))
      refine ⟨buf2, ?_⟩
      rw [List.cons_append, h1, h2]
      simp [duplicates_trace, is_neither_not_duplicate host b r hn, ht, List.filter_cons]

theorem read_span_write_append (m0 : Mem) (a : Nat) (hd tl : List Nat) :
    (Mem.write m0 a (hd ++ tl)).read_span ⟨a + hd.length, tl.length⟩ =
      tl.map (fun x => x % 256) := by
  apply List.ext_getElem
  · simp [Mem.read_span]
  · intro i h1 h2
    have hi : i < tl.length := by simpa using h2
    simp only [Mem.read_span, List.getElem_map, List.getElem_range]
    have : a + hd.length + i = a + (hd.length + i) := by omega
    rw [this, read_write_of_lt _ _ _ _ (by simp; omega)]
    simp only [List.getD_eq_getElem?_getD]
    rw [List.getElem?_append_right (by omega)]
    simp [hi]

theorem of_span_payload (host : Host) (m : Mem) (source : Span) :
    (RDTSegment.of_span host m source).payload =
      ⟨source.data + 6, 256 * m.read (source.data + 4) + m.read (source.data + 5)⟩ := by
  have h4 : m.read (source.data + 4) < 256 := Nat.mod_lt _ (by decide)
  have h5 : m.read (source.data + 5) < 256 := Nat.mod_lt _ (by decide)
  simp only [RDTSegment.of_span, RDTHeader.of_memory, ntohs_u16_of_bytes]
  have e4 : source.data + offsetof_payload_size = source.data + 4 := rfl
  have e5 : source.data + 4 + 1 = source.data + 5 := rfl
  have e6 : source.data + sizeof_RDTHeader = source.data + 6 := rfl
  rw [e4, e5, e6, Nat.mod_eq_of_lt h4, Nat.mod_eq_of_lt h5]

/-- What a receiver decodes from a DATA segment as `send_data` writes it. -/
theorem received_data_datagram (host : Host) (buf : Mem) (b pad : Nat) (payload : List Nat)
    (hb : b < 2) (hlen : payload.length ≤ MAX_DATA_SIZE) :
    let bytes := [b, 0, RDT_DATA, pad, payload.length / 256, payload.length % 256] ++ payload
    sizeof_RDTHeader ≤ bytes.length ∧ bytes.isEmpty = false ∧
    (received_segment host bytes).get_type = RDT_DATA ∧
    (received_segment host bytes).get_sequence_number = b ∧
    (received_segment host bytes).get_payload_size = payload.length ∧
    (received_segment host bytes).copy_payload_to (Mem.write buf 0 (bytes.take MAX_SEG_SIZE)) =
      payload.map (fun x => x % 256) := by
  intro bytes
  have hm := max_data_size_eq
  have h14 : MAX_SEG_SIZE = 1400 := rfl
  have hbl : bytes.length = 6 + payload.length := by simp [bytes]; omega
  have htake : bytes.take MAX_SEG_SIZE = bytes := List.take_of_length_le (by omega)
  have hr : ∀ (m : Mem) k, k < 6 →
      (Mem.write m 0 bytes).read (0 + k) = bytes.getD k 0 % 256 :=
    fun m k hk => read_write_of_lt m 0 _ k (by omega)
  have hp : (received_segment host bytes).payload = ⟨6, payload.length⟩ := by
    unfold received_segment
    rw [of_span_payload, htake]
    show (⟨0 + 6, 256 * (Mem.write zero_buffer 0 bytes).read (0 + 4) +
      (Mem.write zero_buffer 0 bytes).read (0 + 5)⟩ : Span) = _
    rw [hr _ 4 (by decide), hr _ 5 (by decide)]
    simp [bytes]
    omega
  refine ⟨by rw [sizeof_RDTHeader_eq]; omega, rfl, ?_, ?_, ?_, ?_⟩
  · show (Mem.write zero_buffer 0 (bytes.take MAX_SEG_SIZE)).read (0 + 2) = RDT_DATA
    rw [htake, hr _ 2 (by decide)]; rfl
  · show (Mem.write zero_buffer 0 (bytes.take MAX_SEG_SIZE)).read (0 + 0) = b
    rw [htake, hr _ 0 (by decide)]
    simp [bytes]
    omega
  · show (received_segment host bytes).payload.size % 65536 = payload.length
    rw [hp]
    show payload.length % 65536 = payload.length
    omega
  · show (Mem.write buf 0 (bytes.take MAX_SEG_SIZE)).read_span (received_segment host bytes).payload
      = _
    rw [hp, htake]
    exact read_span_write_append buf 0
      [b, 0, RDT_DATA, pad, payload.length / 256, payload.length % 256] payload

/-- The pass of the loop of `receive_data` that delivers: a DATA segment with the
expected sequence number. -/
theorem receive_loop_delivers (host : Host) (b : Nat) (buffer buf : Mem) (st : ReliableSocket)
    (pad : Nat) (payload : List Nat) (rest : List RecvResult) (hb : b < 2)
    (hlen : payload.length ≤ MAX_DATA_SIZE) (hc : st.socket.connected = true) :
    receive_loop host b buffer buf st (data_datagram b pad payload :: rest) =
      Outcome.returned
        { st with
          state := if st.state = connection_status.WAIT_DATA0 then connection_status.WAIT_DATA1
            else connection_status.WAIT_DATA0
          objs := st.objs + 1
          trace := st.trace ++ [Event.receive st.socket.timeout_length (data_datagram b pad payload),
            Event.send (ack_bytes host st.objs b),
            Event.state (if st.state = connection_status.WAIT_DATA0
              then connection_status.WAIT_DATA1 else connection_status.WAIT_DATA0)] }
        (payload.length, buffer.write 0 (payload.map (fun x => x % 256))) rest := by
  obtain ⟨h6, hne, htype, hseq, hsize, hcopy⟩ := received_data_datagram host buf b pad payload hb hlen
  obtain ⟨text, htext⟩ := to_string_of_known host _
    ((known_type_iff _).mpr (Or.inr (Or.inr (Or.inl htype))))
  simp only [receive_loop, data_datagram]
  rw [receive_datagram_connected _ _ _ hne hc]
  simp only [of_span_write_header host buf _ h6, htext, htype, hseq, hsize, hcopy, if_true]
  rw [send_ack_connected host _ b (by omega) (by simpa using hc)]
  simp [ReliableSocket.log, ReliableSocket.set_state, data_datagram]

/-- The pass of the loop of `receive_data` that sees the close request. -/
theorem receive_loop_close (host : Host) (b : Nat) (buffer buf : Mem) (st : ReliableSocket)
    (r : RecvResult) (rest : List RecvResult) (hc : st.socket.connected = true)
    (hr : is_close host r = true) :
    receive_loop host b buffer buf st (r :: rest) =
      Outcome.returned
        { st with
          state := connection_status.CLOSING
          objs := st.objs + 1
          trace := st.trace ++ [Event.receive st.socket.timeout_length r,
            Event.send (ack_bytes host st.objs 4), Event.state connection_status.CLOSING] }
        (0, buffer) rest := by
  cases r with
  | eagain => simp [is_close] at hr
  | failure => simp [is_close] at hr
  | datagram bytes =>
    simp only [is_close, Bool.and_eq_true, decide_eq_true_eq] at hr
    obtain ⟨hlen, htype⟩ := hr
    have hne : bytes.isEmpty = false := by
      cases bytes with
      | nil => simp [sizeof_RDTHeader_eq] at hlen
      | cons x xs => rfl
    have hnd : ¬ (RDT_CLOSE = RDT_DATA) := by decide
    obtain ⟨text, htext⟩ := to_string_of_known host (received_segment host bytes)
      ((known_type_iff _).mpr (Or.inr (Or.inr (Or.inr htype))))
    simp only [receive_loop]
    rw [receive_datagram_connected _ _ _ hne hc]
    simp only [of_span_write_header host buf bytes hlen, htext, htype, hnd, if_true, if_false]
    rw [send_ack_connected host _ 4 (by decide) (by simpa using hc)]
    simp [ReliableSocket.log, ReliableSocket.set_state]

theorem receive_loop_waiting (host : Host) (b : Nat) (buffer buf : Mem) (st : ReliableSocket) :
    receive_loop host b buffer buf st [] = Outcome.waiting st := rfl

/-- What `receive_data` does before its loop when called in `WAIT_DATA0` or
`WAIT_DATA1`. -/
theorem receive_data_enters (host : Host) (st : ReliableSocket) (buffer : Mem) (b : Nat)
    (inputs : List RecvResult) (hb : b < 2) (hstate : st.state = wait_data b) :
    st.receive_data host buffer inputs =
      receive_loop host b buffer zero_buffer
        { st with
          socket := { st.socket with timeout_length := 0 }
          trace := st.trace ++ [Event.set_timeout_length 0] } inputs := by
  have hb' : b = 0 ∨ b = 1 := by omega
  unfold ReliableSocket.receive_data
  rcases hb' with h | h <;> subst h <;>
    simp [hstate, wait_data, ReliableSocket.on_socket, UnreliableSocket.set_timeout_length]

theorem wait_data_toggle (b : Nat) (hb : b < 2) :
    (if wait_data b = connection_status.WAIT_DATA0 then connection_status.WAIT_DATA1
      else connection_status.WAIT_DATA0) = wait_data (1 - b) := by
  have hb' : b = 0 ∨ b = 1 := by omega
  rcases hb' with h | h <;> subst h <;> decide

/-- The state and the value `receive_data` returns with when a DATA segment with
the expected sequence number arrives after duplicates and segments that are
neither data nor a close request. -/
theorem receive_data_delivers (host : Host) (st : ReliableSocket) (buffer : Mem) (b pad : Nat)
    (payload : List Nat) (pre rest : List RecvResult) (hb : b < 2)
    (hstate : st.state = wait_data b) (hconn : st.socket.connected = true)
    (hlen : payload.length ≤ MAX_DATA_SIZE)
    (hpre : ∀ r ∈ pre, is_duplicate host b r = true ∨ is_neither host r = true) :
    st.receive_data host buffer (pre ++ data_datagram b pad payload :: rest) =
      Outcome.returned
        { st with
          socket := { st.socket with timeout_length := 0 }
          state := wait_data (1 - b)
          objs := st.objs + (pre.filter (is_duplicate host b)).length + 1
          trace := st.trace ++ Event.set_timeout_length 0 ::
            (duplicates_trace host b st.objs pre ++
              [Event.receive 0 (data_datagram b pad payload),
                Event.send (ack_bytes host (st.objs + (pre.filter (is_duplicate host b)).length) b),
                Event.state (wait_data (1 - b))]) }
        (payload.length, buffer.write 0 (payload.map (fun x => x % 256))) rest := by
  rw [receive_data_enters host st buffer b _ hb hstate]
  obtain ⟨S, hS⟩ : ∃ S : ReliableSocket, S = { st with
      socket := { st.socket with timeout_length := 0 }
      trace := st.trace ++ [Event.set_timeout_length 0] } := ⟨_, rfl⟩
  have hcS : S.socket.connected = true := by rw [hS]; exact hconn
  have htS : S.socket.timeout_length = 0 := by rw [hS]
  rw [← hS]
  obtain ⟨buf', h⟩ := receive_loop_skips host b buffer hb pre zero_buffer S
    (data_datagram b pad payload :: rest) hcS htS hpre
  rw [h, receive_loop_delivers host b buffer buf'
    { S with
      objs := S.objs + (pre.filter (is_duplicate host b)).length
      trace := S.trace ++ duplicates_trace host b S.objs pre } pad payload rest hb hlen hcS]
  simp [hS, hstate, wait_data_toggle b hb]

/-- The state `receive_data` is blocked in after duplicates and segments that are
neither data nor a close request. -/
theorem receive_data_waits (host : Host) (st : ReliableSocket) (buffer : Mem) (b : Nat)
    (pre : List RecvResult) (hb : b < 2)
    (hstate : st.state = wait_data b) (hconn : st.socket.connected = true)
    (hpre : ∀ r ∈ pre, is_duplicate host b r = true ∨ is_neither host r = true) :
    st.receive_data host buffer pre =
      Outcome.waiting
        { st with
          socket := { st.socket with timeout_length := 0 }
          objs := st.objs + (pre.filter (is_duplicate host b)).length
          trace := st.trace ++ Event.set_timeout_length 0 :: duplicates_trace host b st.objs pre } := by
  rw [receive_data_enters host st buffer b _ hb hstate]
  obtain ⟨S, hS⟩ : ∃ S : ReliableSocket, S = { st with
      socket := { st.socket with timeout_length := 0 }
      trace := st.trace ++ [Event.set_timeout_length 0] } := ⟨_, rfl⟩
  have hcS : S.socket.connected = true := by rw [hS]; exact hconn
  have htS : S.socket.timeout_length = 0 := by rw [hS]
  rw [← hS]
  obtain ⟨buf', h⟩ := receive_loop_skips host b buffer hb pre zero_buffer S [] hcS htS hpre
  rw [List.append_nil] at h
  rw [h, receive_loop_waiting]
  simp [hS]

/-- The state `receive_data` returns in when the close request arrives. -/
theorem receive_data_sees_close (host : Host) (st : ReliableSocket) (buffer : Mem) (b : Nat)
    (pre : List RecvResult) (c : RecvResult) (rest : List RecvResult) (hb : b < 2)
    (hstate : st.state = wait_data b) (hconn : st.socket.connected = true)
    (hpre : ∀ r ∈ pre, is_duplicate host b r = true ∨ is_neither host r = true)
    (hc : is_close host c = true) :
    st.receive_data host buffer (pre ++ c :: rest) =
      Outcome.returned
        { st with
          socket := { st.socket with timeout_length := 0 }
          state := connection_status.CLOSING
          objs := st.objs + (pre.filter (is_duplicate host b)).length + 1
          trace := st.trace ++ Event.set_timeout_length 0 ::
            (duplicates_trace host b st.objs pre ++
              [Event.receive 0 c,
                Event.send (ack_bytes host (st.objs + (pre.filter (is_duplicate host b)).length) 4),
                Event.state connection_status.CLOSING]) }
        (0, buffer) rest := by
  rw [receive_data_enters host st buffer b _ hb hstate]
  obtain ⟨S, hS⟩ : ∃ S : ReliableSocket, S = { st with
      socket := { st.socket with timeout_length := 0 }
      trace := st.trace ++ [Event.set_timeout_length 0] } := ⟨_, rfl⟩
  have hcS : S.socket.connected = true := by rw [hS]; exact hconn
  have htS : S.socket.timeout_length = 0 := by rw [hS]
  rw [← hS]
  obtain ⟨buf', h⟩ := receive_loop_skips host b buffer hb pre zero_buffer S (c :: rest) hcS htS
    hpre
  rw [h, receive_loop_close host b buffer buf'
    { S with
      objs := S.objs + (pre.filter (is_duplicate host b)).length
      trace := S.trace ++ duplicates_trace host b S.objs pre } c rest hcS hc]
  simp [hS]

theorem sent_bytes_duplicates (host : Host) (b : Nat) (rs : List RecvResult) :
    ∀ i, sent_bytes (duplicates_trace host b i rs) =
      (List.range (rs.filter (is_duplicate host b)).length).map
        (fun j => ack_bytes host (i + j) (1 - b)) := by
  induction rs with
  | nil => intro i; rfl
  | cons r rs ih =>
    intro i
    by_cases h : is_duplicate host b r = true
    · simp [duplicates_trace, h, sent_bytes, ih, List.filter_cons, List.range_succ_eq_map,
        Nat.add_assoc, Nat.add_comm 1, Function.comp_def]
    · simp [duplicates_trace, h, sent_bytes, ih, List.filter_cons]

theorem states_assigned_duplicates (host : Host) (b : Nat) (rs : List RecvResult) :
    ∀ i, states_assigned (duplicates_trace host b i rs) = [] := by
  induction rs with
  | nil => intro i; rfl
  | cons r rs ih =>
    intro i
    by_cases h : is_duplicate host b r = true
    · simp [duplicates_trace, h, states_assigned, ih]
    · simp [duplicates_trace, h, states_assigned, ih]

theorem is_data_other_is_duplicate (host : Host) (b : Nat) (r : RecvResult) (hb : b < 2)
    (h : is_data host (1 - b) r = true) : is_duplicate host b r = true := by
  cases r with
  | eagain => simp [is_data] at h
  | failure => simp [is_data] at h
  | datagram bytes =>
    simp only [is_data, Bool.and_eq_true, decide_eq_true_eq] at h
    simp only [is_duplicate, Bool.and_eq_true, decide_eq_true_eq]
    refine ⟨⟨h.1.1, h.1.2⟩, ?_⟩
    rw [h.2]; omega

/-- C12. `receive_data` called in `WAIT_DATA0` or `WAIT_DATA1` (expected bit `b`),
on receiving a DATA segment with sequence number `b`, sends exactly one `ACK b`,
assigns the state for bit `1 - b`, stores the payload from the start of the
caller's buffer and returns the payload length; the segments that come before
it (duplicates, `RDT_ACK` and `RDT_CONN` segments) add their own events and nothing to
the result. -/
theorem C12_receive_data_delivers (host : Host) (st : ReliableSocket) (buffer : Mem) (b pad : Nat)
    (payload : List Nat) (pre rest : List RecvResult) (hb : b < 2)
    (hstate : st.state = wait_data b) (hconn : st.socket.connected = true)
    (hlen : payload.length ≤ MAX_DATA_SIZE)
    (hpre : ∀ r ∈ pre, is_duplicate host b r = true ∨ is_neither host r = true) :
    ∃ st', st.receive_data host buffer (pre ++ data_datagram b pad payload :: rest) =
        Outcome.returned st'
          (payload.length, buffer.write 0 (payload.map (fun x => x % 256))) rest ∧
      st'.state = wait_data (1 - b) ∧
      st'.trace = st.trace ++ Event.set_timeout_length 0 ::
        (duplicates_trace host b st.objs pre ++
          [Event.receive 0 (data_datagram b pad payload),
            Event.send (ack_bytes host (st.objs + (pre.filter (is_duplicate host b)).length) b),
            Event.state (wait_data (1 - b))]) ∧
      (pre = [] → sent_bytes (st'.trace.drop st.trace.length) = [[0, b, RDT_ACK,
        host.junk st.objs % 256, 0, 0]]) := by
  refine ⟨_, receive_data_delivers host st buffer b pad payload pre rest hb hstate hconn hlen hpre,
    rfl, rfl, ?_⟩
  intro hp
  subst hp
  simp [duplicates_trace, sent_bytes, ack_bytes]

/-- C12 (witness). A server right after its handshake receives the five bytes
of "hello" in a DATA segment with sequence number 0. -/
theorem C12_receive_data_delivers_witness :
    ((0 : Nat) < 2 ∧ receiver_ready.state = wait_data 0 ∧
      receiver_ready.socket.connected = true ∧
      [104, 101, 108, 108, 111].length ≤ MAX_DATA_SIZE ∧
      (∀ r ∈ ([] : List RecvResult),
        is_duplicate host_le 0 r = true ∨ is_neither host_le r = true)) ∧
    ∃ st', receiver_ready.receive_data host_le zero_buffer
        ([] ++ data_datagram 0 0 [104, 101, 108, 108, 111] :: []) =
          Outcome.returned st'
            (5, zero_buffer.write 0 ([104, 101, 108, 108, 111].map (fun x => x % 256))) [] ∧
      st'.state = wait_data (1 - 0) :=
  ⟨⟨by decide, by decide, by decide, by decide, by decide⟩,
    (C12_receive_data_delivers host_le receiver_ready zero_buffer 0 0 [104, 101, 108, 108, 111]
      [] [] (by decide) (by decide) (by decide) (by decide) (by decide)).imp
      (fun _ h => ⟨h.1, h.2.1⟩)⟩

/-- C13. `receive_data` expecting bit `b`, on DATA segments with sequence number
`1 - b`, sends one `ACK (1 - b)` for each, assigns no state, does not return
and stays blocked in the receive; when the segment with bit `b` then arrives,
what is returned and stored in the caller's buffer is the payload of that
segment alone, so no duplicate is ever delivered. -/
theorem C13_duplicates_are_acknowledged_not_delivered (host : Host) (st : ReliableSocket)
    (buffer : Mem) (b pad : Nat) (payload : List Nat) (dups rest : List RecvResult) (hb : b < 2)
    (hstate : st.state = wait_data b) (hconn : st.socket.connected = true)
    (hlen : payload.length ≤ MAX_DATA_SIZE)
    (hdups : ∀ r ∈ dups, is_data host (1 - b) r = true) :
    (∃ st', st.receive_data host buffer dups = Outcome.waiting st' ∧
      st'.state = st.state ∧
      st'.trace = st.trace ++ Event.set_timeout_length 0 :: duplicates_trace host b st.objs dups ∧
      sent_bytes (duplicates_trace host b st.objs dups) =
        (List.range dups.length).map (fun j => ack_bytes host (st.objs + j) (1 - b)) ∧
      states_assigned (duplicates_trace host b st.objs dups) = []) ∧
    (∃ st', st.receive_data host buffer (dups ++ data_datagram b pad payload :: rest) =
        Outcome.returned st'
          (payload.length, buffer.write 0 (payload.map (fun x => x % 256))) rest ∧
      st'.state = wait_data (1 - b)) := by
  have hpre : ∀ r ∈ dups, is_duplicate host b r = true ∨ is_neither host r = true :=
    fun r hr => Or.inl (is_data_other_is_duplicate host b r hb (hdups r hr))
  have hall : dups.filter (is_duplicate host b) = dups :=
    List.filter_eq_self.mpr
      (fun r hr => is_data_other_is_duplicate host b r hb (hdups r hr))
  constructor
  · refine ⟨_, receive_data_waits host st buffer b dups hb hstate hconn hpre, rfl, rfl, ?_,
      states_assigned_duplicates host b dups st.objs⟩
    rw [sent_bytes_duplicates, hall]
  · exact ⟨_, receive_data_delivers host st buffer b pad payload dups rest hb hstate hconn hlen
      hpre, rfl⟩

/-- C13 (witness). A server that has delivered segment 0 receives it twice more,
then segment 1 with the bytes of "world". -/
theorem C13_duplicates_are_acknowledged_not_delivered_witness :
    ((1 : Nat) < 2 ∧
      receiver_after_hello.state = wait_data 1 ∧
      receiver_after_hello.socket.connected = true ∧
      [119, 111, 114, 108, 100].length ≤ MAX_DATA_SIZE ∧
      (∀ r ∈ [data_datagram 0 0 [104, 101, 108, 108, 111],
          data_datagram 0 0 [104, 101, 108, 108, 111]],
        is_data host_le (1 - 1) r = true)) ∧
    ∃ st', receiver_after_hello.receive_data host_le zero_buffer
        ([data_datagram 0 0 [104, 101, 108, 108, 111],
          data_datagram 0 0 [104, 101, 108, 108, 111]] ++
          data_datagram 1 0 [119, 111, 114, 108, 100] :: []) =
          Outcome.returned st'
            (5, zero_buffer.write 0 ([119, 111, 114, 108, 100].map (fun x => x % 256))) [] ∧
      st'.state = wait_data (1 - 1) :=
  ⟨⟨by decide, by decide, by decide, by decide, by decide⟩,
    (C13_duplicates_are_acknowledged_not_delivered host_le
      receiver_after_hello zero_buffer 1 0
      [119, 111, 114, 108, 100]
      [data_datagram 0 0 [104, 101, 108, 108, 111], data_datagram 0 0 [104, 101, 108, 108, 111]]
      [] (by decide) (by decide) (by decide) (by decide) (by decide)).2⟩

/-- C14. `receive_data` called in `WAIT_DATA0` or `WAIT_DATA1`, on receiving a
`RDT_CLOSE` segment, sends exactly one `ACK 4`, assigns the state `CLOSING` and
returns 0, leaving the caller's buffer as it was; duplicates and `RDT_ACK` or
`RDT_CONN` segments that come before it add their own events and nothing to the
result. -/
theorem C14_receive_data_close (host : Host) (st : ReliableSocket) (buffer : Mem) (b : Nat)
    (pre : List RecvResult) (c : RecvResult) (rest : List RecvResult) (hb : b < 2)
    (hstate : st.state = wait_data b) (hconn : st.socket.connected = true)
    (hpre : ∀ r ∈ pre, is_duplicate host b r = true ∨ is_neither host r = true)
    (hc : is_close host c = true) :
    ∃ st', st.receive_data host buffer (pre ++ c :: rest) =
        Outcome.returned st' (0, buffer) rest ∧
      st'.state = connection_status.CLOSING ∧
      st'.trace = st.trace ++ Event.set_timeout_length 0 ::
        (duplicates_trace host b st.objs pre ++
          [Event.receive 0 c,
            Event.send (ack_bytes host (st.objs + (pre.filter (is_duplicate host b)).length) 4),
            Event.state connection_status.CLOSING]) ∧
      (pre = [] → sent_bytes (st'.trace.drop st.trace.length) = [[0, 4, RDT_ACK,
        host.junk st.objs % 256, 0, 0]]) := by
  refine ⟨_, receive_data_sees_close host st buffer b pre c rest hb hstate hconn hpre hc,
    rfl, rfl, ?_⟩
  intro hp
  subst hp
  simp [duplicates_trace, sent_bytes, ack_bytes]

/-- C14 (witness). A server right after its handshake receives the close request. -/
theorem C14_receive_data_close_witness :
    ((0 : Nat) < 2 ∧ receiver_ready.state = wait_data 0 ∧
      receiver_ready.socket.connected = true ∧
      (∀ r ∈ ([] : List RecvResult),
        is_duplicate host_le 0 r = true ∨ is_neither host_le r = true) ∧
      is_close host_le close_datagram = true) ∧
    ∃ st', receiver_ready.receive_data host_le zero_buffer ([] ++ close_datagram :: []) =
          Outcome.returned st' (0, zero_buffer) [] ∧
      st'.state = connection_status.CLOSING :=
  ⟨⟨by decide, by decide, by decide, by decide, by decide⟩,
    (C14_receive_data_close host_le receiver_ready zero_buffer 0 [] close_datagram []
      (by decide) (by decide) (by decide) (by decide) (by decide)).imp
      (fun _ h => ⟨h.1, h.2.1⟩)⟩

/-- C11 (counterexample). While the client awaits `ACK 0` an `ACK 1` arrives, then
`ACK 0`: no timeout occurred, yet the DATA segment was handed to the transport
twice. -/
theorem C11_wrong_ack_triggers_retransmission :
    is_timeout (ack_datagram 1) = false ∧
    is_ack host_le 0 (ack_datagram 1) = false ∧
    sent_bytes ((sender_ready.send_data host_le (fun x => 104 + x) ⟨0, 5⟩
      [⟨0, ack_datagram 1, 10⟩, ⟨10, ack_datagram 0, 20⟩]).final.trace.drop
        sender_ready.trace.length) =
      [[0, 0, 0, 0, 0, 5, 104, 105, 106, 107, 108], [0, 0, 0, 0, 0, 5, 104, 105, 106, 107, 108]] := by
  decide

/-- C11 (amended). While `send_data` awaits `ACK b`, an `ACK` with another number
(like any other segment of one of the four message types that is not `ACK b`)
neither completes the send nor updates the RTT statistics, but it ends the pass
of the loop, so the DATA segment is transmitted again: when only timeouts and
such segments come before the awaited `ACK b`, the segment is transmitted
exactly once more than their number. -/
theorem C11_wrong_ack_is_answered_by_retransmission (host : Host) (st : ReliableSocket)
    (m : Mem) (data : Span) (noise : List Attempt) (a : Attempt) (rest : List Attempt)
    (hstate : st.state = connection_status.WAIT_SEND) (hconn : st.socket.connected = true)
    (hbit : st.sequence_number < 2) (hlen : data.size ≤ MAX_DATA_SIZE)
    (hnoise : ∀ x ∈ noise, is_retry host st.sequence_number x.result = true)
    (hack : is_ack host st.sequence_number a.result = true) :
    let wire := [st.sequence_number, 0, RDT_DATA, host.junk st.objs % 256, data.size / 256,
      data.size % 256] ++ m.read_span data
    (∃ st', st.send_data host m data noise = Outcome.waiting st' ∧
      st'.estimated_rtt = st.estimated_rtt ∧ st'.dev_rtt = st.dev_rtt ∧
      st'.socket.timeout_length = st.socket.timeout_length ∧
      sent_bytes (st'.trace.drop st.trace.length) = List.replicate (noise.length + 1) wire) ∧
    (∃ st', st.send_data host m data (noise ++ a :: rest) = Outcome.returned st' () rest ∧
      sent_bytes (st'.trace.drop st.trace.length) = List.replicate (noise.length + 1) wire) := by
  intro wire
  constructor
  · refine ⟨_, send_data_waits host st m data noise hstate hconn hbit hlen hnoise, rfl, rfl, rfl,
      ?_⟩
    simp [ReliableSocket.set_state, sent_bytes_append, sent_bytes_attempts, sent_bytes, wire,
      List.replicate_succ']
  · refine ⟨_, send_data_completes host st m data noise a rest hstate hconn hbit hlen hnoise hack,
      ?_⟩
    simp [ReliableSocket.set_state, ReliableSocket.update_rtt, ReliableSocket.on_socket,
      UnreliableSocket.set_timeout_length, sent_bytes_append, sent_bytes_attempts, sent_bytes, wire]

/-- C11 (witness). An `ACK 1` arrives while `ACK 0` is awaited. -/
theorem C11_wrong_ack_is_answered_by_retransmission_witness :
    (sender_ready.state = connection_status.WAIT_SEND ∧
      sender_ready.socket.connected = true ∧ sender_ready.sequence_number < 2 ∧
      (⟨0, 5⟩ : Span).size ≤ MAX_DATA_SIZE ∧
      (∀ x ∈ [(⟨0, ack_datagram 1, 10⟩ : Attempt)],
        is_retry host_le sender_ready.sequence_number x.result = true) ∧
      is_ack host_le sender_ready.sequence_number (ack_datagram 0) = true) ∧
    ∃ st', sender_ready.send_data host_le (fun x => 104 + x) ⟨0, 5⟩
        ([⟨0, ack_datagram 1, 10⟩] ++ ⟨10, ack_datagram 0, 20⟩ :: []) =
          Outcome.returned st' () [] ∧
      (sent_bytes (st'.trace.drop sender_ready.trace.length)).length = 2 :=
  ⟨⟨by decide, by decide, by decide, by decide, by decide, by decide⟩,
    (C11_wrong_ack_is_answered_by_retransmission host_le sender_ready (fun x => 104 + x) ⟨0, 5⟩
      [⟨0, ack_datagram 1, 10⟩] ⟨10, ack_datagram 0, 20⟩ [] (by decide) (by decide)
      (by decide) (by decide) (by decide) (by decide)).2.imp
      (fun _ h => ⟨h.1, by rw [h.2]; rfl⟩)⟩

/-! ## Theorems: closing -/

/-- The state `close_connection` returns in on the sending side when `ACK 4`
arrives after any number of timeouts and other segments of the four message
types. -/
theorem close_connection_sender_completes (host : Host) (st : ReliableSocket)
    (noise : List Attempt) (a : Attempt) (rest : List Attempt)
    (hstate : st.state = connection_status.WAIT_SEND) (hconn : st.socket.connected = true)
    (hnoise : ∀ x ∈ noise, is_retry host 4 x.result = true)
    (hack : is_ack host 4 a.result = true) :
    st.close_connection host (noise ++ a :: rest) =
      Outcome.returned
        { st with
          state := connection_status.CLOSED
          objs := st.objs + 1
          trace := st.trace ++
            (attempts_trace (close_bytes host st.objs) st.socket.timeout_length
              ((noise ++ [a]).map Attempt.result) ++
              [Event.state connection_status.CLOSED, Event.close]) } () rest := by
  have hw : wire_bytes host zero_buffer (RDTSegment.control host (host.junk st.objs) 4 0 RDT_CLOSE)
      = close_bytes host st.objs :=
    wire_bytes_control host zero_buffer _ 4 0 RDT_CLOSE (by decide) (by decide) (by decide)
  have htype : (RDTSegment.control host (host.junk st.objs) 4 0 RDT_CLOSE).get_type = RDT_CLOSE :=
    rfl
  have hne : ¬ (RDT_CLOSE = RDT_DATA) := by decide
  unfold ReliableSocket.close_connection
  rw [if_pos hstate]
  simp only [send_until_acked_close]
  simp only [htype, hne, hw, if_true, if_false]
  rw [send_loop_noise host _ false 4 noise { st with objs := st.objs + 1 } _ hconn hnoise,
    send_loop_match host _ false 4 _ a rest (by simpa using hconn) hack]
  simp [log_log, ReliableSocket.log, ReliableSocket.set_state, ReliableSocket.on_socket,
    UnreliableSocket.close, attempts_trace_append, attempts_trace]

/-- The state `close_connection` is blocked in on the sending side while only
timeouts and other segments arrive. -/
theorem close_connection_sender_waits (host : Host) (st : ReliableSocket)
    (noise : List Attempt)
    (hstate : st.state = connection_status.WAIT_SEND) (hconn : st.socket.connected = true)
    (hnoise : ∀ x ∈ noise, is_retry host 4 x.result = true) :
    st.close_connection host noise =
      Outcome.waiting
        { st with
          objs := st.objs + 1
          trace := st.trace ++
            (attempts_trace (close_bytes host st.objs) st.socket.timeout_length
              (noise.map Attempt.result) ++ [Event.send (close_bytes host st.objs)]) } := by
  have hw : wire_bytes host zero_buffer (RDTSegment.control host (host.junk st.objs) 4 0 RDT_CLOSE)
      = close_bytes host st.objs :=
    wire_bytes_control host zero_buffer _ 4 0 RDT_CLOSE (by decide) (by decide) (by decide)
  have htype : (RDTSegment.control host (host.junk st.objs) 4 0 RDT_CLOSE).get_type = RDT_CLOSE :=
    rfl
  have hne : ¬ (RDT_CLOSE = RDT_DATA) := by decide
  unfold ReliableSocket.close_connection
  rw [if_pos hstate]
  simp only [send_until_acked_close]
  simp only [htype, hne, hw, if_true, if_false]
  have h := send_loop_noise host (close_bytes host st.objs) false 4 noise
    { st with objs := st.objs + 1 } [] hconn hnoise
  rw [List.append_nil] at h
  rw [h, send_loop_waiting _ _ _ _ _ (by simpa using hconn)]
  simp [log_log, ReliableSocket.log]

/-- C15. `close_connection` called in `WAIT_SEND` hands the transport a
`RDT_CLOSE` segment with sequence number 4 and no payload, the same bytes again
after every timeout and every segment of one of the four message types that is
not `ACK 4`, and on `ACK 4` assigns `CLOSED` and closes the transport; the RTT
statistics are not touched. -/
theorem C15_sender_close (host : Host) (st : ReliableSocket)
    (noise : List Attempt) (a : Attempt) (rest : List Attempt)
    (hstate : st.state = connection_status.WAIT_SEND) (hconn : st.socket.connected = true)
    (hnoise : ∀ x ∈ noise, is_retry host 4 x.result = true)
    (hack : is_ack host 4 a.result = true) :
    let wire := [4, 0, RDT_CLOSE, host.junk st.objs % 256, 0, 0]
    (∃ st', st.close_connection host (noise ++ a :: rest) = Outcome.returned st' () rest ∧
      st'.state = connection_status.CLOSED ∧
      st'.trace = st.trace ++
        (attempts_trace wire st.socket.timeout_length ((noise ++ [a]).map Attempt.result) ++
          [Event.state connection_status.CLOSED, Event.close]) ∧
      sent_bytes (st'.trace.drop st.trace.length) = List.replicate (noise.length + 1) wire ∧
      st'.estimated_rtt = st.estimated_rtt ∧ st'.dev_rtt = st.dev_rtt) ∧
    (∃ st', st.close_connection host noise = Outcome.waiting st' ∧
      st'.state = connection_status.WAIT_SEND ∧
      sent_bytes (st'.trace.drop st.trace.length) = List.replicate (noise.length + 1) wire) := by
  intro wire
  constructor
  · refine ⟨_, close_connection_sender_completes host st noise a rest hstate hconn hnoise hack,
      rfl, rfl, ?_, rfl, rfl⟩
    simp [sent_bytes_append, sent_bytes_attempts, sent_bytes, wire, close_bytes]
  · refine ⟨_, close_connection_sender_waits host st noise hstate hconn hnoise, hstate, ?_⟩
    simp [sent_bytes_append, sent_bytes_attempts, sent_bytes, wire, close_bytes,
      List.replicate_succ']

/-- C15 (witness). A ready client closes; the first `RDT_CLOSE` times out, the
second is answered by `ACK 4`. -/
theorem C15_sender_close_witness :
    (sender_ready.state = connection_status.WAIT_SEND ∧
      sender_ready.socket.connected = true ∧
      (∀ x ∈ [(⟨0, RecvResult.eagain, 240⟩ : Attempt)], is_retry host_le 4 x.result = true) ∧
      is_ack host_le 4 (ack_datagram 4) = true) ∧
    ∃ st', sender_ready.close_connection host_le
        ([⟨0, RecvResult.eagain, 240⟩] ++ ⟨240, ack_datagram 4, 250⟩ :: []) =
          Outcome.returned st' () [] ∧
      st'.state = connection_status.CLOSED :=
  ⟨⟨by decide, by decide, by decide, by decide⟩,
    (C15_sender_close host_le sender_ready [⟨0, RecvResult.eagain, 240⟩]
      ⟨240, ack_datagram 4, 250⟩ [] (by decide) (by decide) (by decide) (by decide)).1.imp
      (fun _ h => ⟨h.1, h.2.1⟩)⟩

/-- One pass of the linger loop on a segment. -/
theorem close_linger_segment (host : Host) (st : ReliableSocket) (a : Attempt)
    (rest : List Attempt) (hc : st.socket.connected = true)
    (ht : st.socket.timeout_length = 2000) (hs : is_segment a.result = true) :
    close_linger host st (a :: rest) =
      close_linger host
        { st with
          objs := st.objs + (if is_type host RDT_CLOSE a.result then 1 else 0)
          trace := st.trace ++ linger_trace host st.objs [a.result] } rest := by
  rcases a with ⟨ts, r, tr⟩
  cases r with
  | eagain => simp [is_segment] at hs
  | failure => simp [is_segment] at hs
  | datagram bytes =>
    have hne : bytes.isEmpty = false := by simpa [is_segment] using hs
    simp only [close_linger]
    rw [receive_datagram_connected _ _ _ hne hc]
    simp only [received_segment_of_span]
    by_cases hcl : (received_segment host bytes).get_type = RDT_CLOSE
    · simp only [hcl, if_true]
      rw [send_ack_connected host _ 4 (by decide) (by simpa using hc)]
      simp [linger_trace, is_type_datagram host _ _ hne, hcl, ReliableSocket.log, ht]
    · simp only [hcl, if_false]
      simp [linger_trace, is_type_datagram host _ _ hne, hcl, ReliableSocket.log, ht]

theorem close_linger_segments (host : Host) (segs : List Attempt) :
    ∀ (st : ReliableSocket) (rest : List Attempt), st.socket.connected = true →
      st.socket.timeout_length = 2000 →
      (∀ x ∈ segs, is_segment x.result = true) →
      close_linger host st (segs ++ rest) =
        close_linger host
          { st with
            objs := st.objs + ((segs.map Attempt.result).filter (is_type host RDT_CLOSE)).length
            trace := st.trace ++ linger_trace host st.objs (segs.map Attempt.result) } rest := by
  induction segs with
  | nil => intro st rest _ _ _; simp [linger_trace]
  | cons a segs ih =>
    intro st rest hc ht hs
    rw [List.cons_append, close_linger_segment host st a _ hc ht (hs a (List.mem_cons_self _ _)),
      ih { st with
          objs := st.objs + (if is_type host RDT_CLOSE a.result then 1 else 0)
          trace := st.trace ++ linger_trace host st.objs [a.result] } rest hc ht
        (fun x hx => hs x (List.mem_cons_of_mem _ hx))]
    congr 1
    by_cases h : is_type host RDT_CLOSE a.result = true
    · simp [h, linger_trace, List.filter_cons, Nat.add_assoc, Nat.add_comm 1]
    · simp [h, linger_trace, List.filter_cons]

theorem close_linger_ends (host : Host) (st : ReliableSocket) (a : Attempt)
    (rest : List Attempt)
    (he : is_timeout a.result = true ∨ is_closed_channel a.result = true) :
    close_linger host st (a :: rest) =
      Outcome.returned
        (st.log [Event.receive st.socket.timeout_length a.result]) () rest := by
  rcases a with ⟨ts, r, tr⟩
  cases r with
  | eagain => simp [close_linger, receive_eagain]
  | failure => simp [is_timeout, is_closed_channel] at he
  | datagram bytes =>
    have hb : bytes = [] := by
      rcases he with h | h
      · simp [is_timeout] at h
      · simpa [is_closed_channel] using h
    subst hb
    simp [close_linger, receive_empty]

theorem sent_bytes_linger (host : Host) (rs : List RecvResult) :
    ∀ i, sent_bytes (linger_trace host i rs) =
      (List.range (rs.filter (is_type host RDT_CLOSE)).length).map
        (fun j => ack_bytes host (i + j) 4) := by
  induction rs with
  | nil => intro i; rfl
  | cons r rs ih =>
    intro i
    by_cases h : is_type host RDT_CLOSE r = true
    · simp [linger_trace, h, sent_bytes, ih, List.filter_cons, List.range_succ_eq_map,
        Nat.add_assoc, Nat.add_comm 1, Function.comp_def]
    · simp [linger_trace, h, sent_bytes, ih, List.filter_cons]

theorem states_assigned_linger (host : Host) (rs : List RecvResult) :
    ∀ i, states_assigned (linger_trace host i rs) = [] := by
  induction rs with
  | nil => intro i; rfl
  | cons r rs ih =>
    intro i
    by_cases h : is_type host RDT_CLOSE r = true
    · simp [linger_trace, h, states_assigned, ih]
    · simp [linger_trace, h, states_assigned, ih]

/-- The state `close_connection` returns in on the receiving side. -/
theorem close_connection_receiver_completes (host : Host) (st : ReliableSocket)
    (segs : List Attempt) (t : Attempt) (rest : List Attempt)
    (hstate : st.state = connection_status.CLOSING) (hconn : st.socket.connected = true)
    (hsegs : ∀ x ∈ segs, is_segment x.result = true)
    (hend : is_timeout t.result = true ∨ is_closed_channel t.result = true) :
    st.close_connection host (segs ++ t :: rest) =
      Outcome.returned
        { st with
          socket := { st.socket with timeout_length := 2000 }
          state := connection_status.CLOSED
          objs := st.objs + ((segs.map Attempt.result).filter (is_type host RDT_CLOSE)).length
          trace := st.trace ++ Event.set_timeout_length 2000 ::
            (linger_trace host st.objs (segs.map Attempt.result) ++
              [Event.receive 2000 t.result, Event.state connection_status.CLOSED,
                Event.close]) } () rest := by
  have hns : ¬ (connection_status.CLOSING = connection_status.WAIT_SEND) := by decide
  unfold ReliableSocket.close_connection
  rw [hstate, if_neg hns, if_pos rfl]
  obtain ⟨S, hS⟩ : ∃ S : ReliableSocket,
      S = st.on_socket (fun sock => sock.set_timeout_length 2000) := ⟨_, rfl⟩
  have hcS : S.socket.connected = true := by rw [hS]; exact hconn
  have htS : S.socket.timeout_length = 2000 := by rw [hS]; rfl
  simp only [← hS]
  rw [close_linger_segments host segs S _ hcS htS hsegs,
    close_linger_ends host
      { S with
        objs := S.objs + ((segs.map Attempt.result).filter (is_type host RDT_CLOSE)).length
        trace := S.trace ++ linger_trace host S.objs (segs.map Attempt.result) } t rest hend]
  simp [hS, ReliableSocket.log, ReliableSocket.set_state, ReliableSocket.on_socket,
    UnreliableSocket.close, UnreliableSocket.set_timeout_length]

/-- The state `close_connection` is blocked in on the receiving side while
segments keep arriving. -/
theorem close_connection_receiver_waits (host : Host) (st : ReliableSocket)
    (segs : List Attempt)
    (hstate : st.state = connection_status.CLOSING) (hconn : st.socket.connected = true)
    (hsegs : ∀ x ∈ segs, is_segment x.result = true) :
    st.close_connection host segs =
      Outcome.waiting
        { st with
          socket := { st.socket with timeout_length := 2000 }
          objs := st.objs + ((segs.map Attempt.result).filter (is_type host RDT_CLOSE)).length
          trace := st.trace ++ Event.set_timeout_length 2000 ::
            linger_trace host st.objs (segs.map Attempt.result) } := by
  have hns : ¬ (connection_status.CLOSING = connection_status.WAIT_SEND) := by decide
  unfold ReliableSocket.close_connection
  rw [hstate, if_neg hns, if_pos rfl]
  obtain ⟨S, hS⟩ : ∃ S : ReliableSocket,
      S = st.on_socket (fun sock => sock.set_timeout_length 2000) := ⟨_, rfl⟩
  have hcS : S.socket.connected = true := by rw [hS]; exact hconn
  have htS : S.socket.timeout_length = 2000 := by rw [hS]; rfl
  simp only [← hS]
  have h := close_linger_segments host segs S [] hcS htS hsegs
  rw [List.append_nil] at h
  rw [h]
  simp [hS, close_linger, ReliableSocket.on_socket, UnreliableSocket.set_timeout_length, hstate]

/-- C16. `close_connection` called in `CLOSING` sets the timeout length to 2000
ms and, for the segments that arrive before the first timeout or closed-channel
signal, sends exactly one `ACK 4` per `RDT_CLOSE` segment and nothing for any
other segment; on that signal it assigns `CLOSED`, the only state it assigns,
and closes the transport. While segments keep arriving it stays in `CLOSING`. -/
theorem C16_receiver_close (host : Host) (st : ReliableSocket)
    (segs : List Attempt) (t : Attempt) (rest : List Attempt)
    (hstate : st.state = connection_status.CLOSING) (hconn : st.socket.connected = true)
    (hsegs : ∀ x ∈ segs, is_segment x.result = true)
    (hend : is_timeout t.result = true ∨ is_closed_channel t.result = true) :
    let events := Event.set_timeout_length 2000 ::
      (linger_trace host st.objs (segs.map Attempt.result) ++
        [Event.receive 2000 t.result, Event.state connection_status.CLOSED, Event.close])
    (∃ st', st.close_connection host (segs ++ t :: rest) = Outcome.returned st' () rest ∧
      st'.state = connection_status.CLOSED ∧
      st'.socket.timeout_length = 2000 ∧
      st'.trace = st.trace ++ events) ∧
    sent_bytes events =
      (List.range ((segs.map Attempt.result).filter (is_type host RDT_CLOSE)).length).map
        (fun j => [0, 4, RDT_ACK, host.junk (st.objs + j) % 256, 0, 0]) ∧
    states_assigned events = [connection_status.CLOSED] ∧
    (∃ st', st.close_connection host segs = Outcome.waiting st' ∧
      st'.state = connection_status.CLOSING) := by
  intro events
  refine ⟨⟨_, close_connection_receiver_completes host st segs t rest hstate hconn hsegs hend,
      rfl, rfl, rfl⟩, ?_, ?_,
    ⟨_, close_connection_receiver_waits host st segs hstate hconn hsegs, hstate⟩⟩
  · show sent_bytes (Event.set_timeout_length 2000 :: _) = _
    simp [sent_bytes, sent_bytes_append, sent_bytes_linger, ack_bytes]
  · show states_assigned (Event.set_timeout_length 2000 :: _) = _
    simp [states_assigned, states_assigned_append, states_assigned_linger]

/-- C16 (witness). During the linger two more close requests and an `ACK` arrive,
then the timeout expires. -/
theorem C16_receiver_close_witness :
    (receiver_closing.state = connection_status.CLOSING ∧
      receiver_closing.socket.connected = true ∧
      (∀ x ∈ [(⟨0, close_datagram, 0⟩ : Attempt), ⟨0, ack_datagram 1, 0⟩, ⟨0, close_datagram, 0⟩],
        is_segment x.result = true) ∧
      (is_timeout (⟨0, RecvResult.eagain, 0⟩ : Attempt).result = true ∨
        is_closed_channel (⟨0, RecvResult.eagain, 0⟩ : Attempt).result = true)) ∧
    ∃ st', receiver_closing.close_connection host_le
        ([⟨0, close_datagram, 0⟩, ⟨0, ack_datagram 1, 0⟩, ⟨0, close_datagram, 0⟩] ++
          ⟨0, RecvResult.eagain, 0⟩ :: []) = Outcome.returned st' () [] ∧
      st'.state = connection_status.CLOSED :=
  ⟨⟨by decide, by decide, by decide, by decide⟩,
    (C16_receiver_close host_le receiver_closing
      [⟨0, close_datagram, 0⟩, ⟨0, ack_datagram 1, 0⟩, ⟨0, close_datagram, 0⟩]
      ⟨0, RecvResult.eagain, 0⟩ [] (by decide) (by decide) (by decide) (by decide)).1.imp
      (fun _ h => ⟨h.1, h.2.1⟩)⟩

/-! ## Theorems: misuse, the terminal state, the initial state -/

/-- C17. A call in the wrong state touches nothing: `send_data` outside
`WAIT_SEND` and `receive_data` outside `WAIT_DATA0` and `WAIT_DATA1` return at
once (`receive_data` returns 0 with the caller's buffer as it was),
`connect_to_remote` and `accept_connection` outside `INIT` end the process; in
each case the connection, its trace of transport calls included, is exactly as
before, and no input is consumed. -/
theorem C17_misuse_is_rejected (host : Host) (st : ReliableSocket) (m : Mem) (data : Span)
    (buffer : Mem) (hostname : String) (port_num : Int) (attempts : List Attempt)
    (results : List RecvResult) :
    (st.state ≠ connection_status.WAIT_SEND →
      st.send_data host m data attempts = Outcome.returned st () attempts) ∧
    (st.state ≠ connection_status.WAIT_DATA0 → st.state ≠ connection_status.WAIT_DATA1 →
      st.receive_data host buffer results = Outcome.returned st (0, buffer) results) ∧
    (st.state ≠ connection_status.INIT →
      st.connect_to_remote host hostname port_num results = Outcome.exited st ∧
      st.accept_connection host port_num results = Outcome.exited st) := by
  refine ⟨?_, ?_, ?_⟩
  · intro h
    unfold ReliableSocket.send_data
    rw [if_pos h]
  · intro h0 h1
    unfold ReliableSocket.receive_data
    rw [if_pos ⟨h0, h1⟩]
  · intro h
    constructor
    · unfold ReliableSocket.connect_to_remote
      rw [if_pos h]
    · unfold ReliableSocket.accept_connection
      rw [if_pos h]

/-- C17 (witness). A new socket, still in `INIT`, is asked to send and to
receive; a connected client is asked to connect again. -/
theorem C17_misuse_is_rejected_witness :
    (ReliableSocket.init.state ≠ connection_status.WAIT_SEND ∧
      ReliableSocket.init.state ≠ connection_status.WAIT_DATA0 ∧
      ReliableSocket.init.state ≠ connection_status.WAIT_DATA1 ∧
      sender_ready.state ≠ connection_status.INIT) ∧
    ReliableSocket.init.send_data host_le zero_buffer ⟨0, 5⟩ [⟨0, ack_datagram 0, 1⟩] =
      Outcome.returned ReliableSocket.init () [⟨0, ack_datagram 0, 1⟩] ∧
    ReliableSocket.init.receive_data host_le zero_buffer [close_datagram] =
      Outcome.returned ReliableSocket.init (0, zero_buffer) [close_datagram] ∧
    sender_ready.connect_to_remote host_le "10.0.0.2" 4000 [ack_datagram 2] =
      Outcome.exited sender_ready :=
  ⟨⟨by decide, by decide, by decide, by decide⟩,
    (C17_misuse_is_rejected host_le ReliableSocket.init zero_buffer ⟨0, 5⟩ zero_buffer "10.0.0.2"
      4000 [⟨0, ack_datagram 0, 1⟩] [close_datagram]).1 (by decide),
    (C17_misuse_is_rejected host_le ReliableSocket.init zero_buffer ⟨0, 5⟩ zero_buffer "10.0.0.2"
      4000 [⟨0, ack_datagram 0, 1⟩] [close_datagram]).2.1 (by decide) (by decide),
    ((C17_misuse_is_rejected host_le sender_ready zero_buffer ⟨0, 5⟩ zero_buffer "10.0.0.2"
      4000 [⟨0, ack_datagram 0, 1⟩] [ack_datagram 2]).2.2 (by decide)).1⟩

theorem call_run_closed (host : Host) (st : ReliableSocket) (c : Call)
    (h : st.state = connection_status.CLOSED) :
    (Call.run host st c).state = connection_status.CLOSED ∧
    ∃ n, (Call.run host st c).trace = st.trace ++ List.replicate n Event.close := by
  have h1 : st.state ≠ connection_status.WAIT_SEND := by rw [h]; decide
  have h2 : ¬ (st.state ≠ connection_status.WAIT_SEND) → False := fun hh => hh h1
  have h3 : st.state ≠ connection_status.WAIT_DATA0 ∧ st.state ≠ connection_status.WAIT_DATA1 := by
    rw [h]; decide
  have h4 : ¬ (st.state = connection_status.CLOSING) := by rw [h]; decide
  cases c with
  | send_data m data inputs =>
    simp only [Call.run, ReliableSocket.send_data, if_pos h1, Outcome.final]
    exact ⟨h, 0, by simp⟩
  | receive_data buffer inputs =>
    simp only [Call.run, ReliableSocket.receive_data, if_pos h3, Outcome.final]
    exact ⟨h, 0, by simp⟩
  | close_connection inputs =>
    simp only [Call.run, ReliableSocket.close_connection, if_neg h1, if_neg h4, Outcome.final]
    exact ⟨h, 1, rfl⟩

theorem run_calls_closed (host : Host) (calls : List Call) :
    ∀ st : ReliableSocket, st.state = connection_status.CLOSED →
      (run_calls host st calls).state = connection_status.CLOSED ∧
      ∃ n, (run_calls host st calls).trace = st.trace ++ List.replicate n Event.close := by
  induction calls with
  | nil => intro st h; exact ⟨h, 0, by simp [run_calls]⟩
  | cons c calls ih =>
    intro st h
    obtain ⟨hs, n, hn⟩ := call_run_closed host st c h
    obtain ⟨hs2, k, hk⟩ := ih (Call.run host st c) hs
    refine ⟨hs2, n + k, ?_⟩
    show (run_calls host (Call.run host st c) calls).trace = _
    rw [hk, hn, List.append_assoc, List.replicate_add]

theorem sent_bytes_closes (n : Nat) : sent_bytes (List.replicate n Event.close) = [] := by
  induction n with
  | zero => rfl
  | succ n ih => simp [List.replicate_succ, sent_bytes, ih]

/-- C18. Once the state is `CLOSED`, every series of `send_data`, `receive_data`
and `close_connection` calls, whatever the environment offers, leaves the state
`CLOSED` and hands nothing to the transport to send (the only transport calls
are the `close` of each `close_connection`); each such call returns at once,
and `connect_to_remote` and `accept_connection` end the process. -/
theorem C18_closed_is_terminal (host : Host) (st : ReliableSocket) (calls : List Call)
    (h : st.state = connection_status.CLOSED) :
    (run_calls host st calls).state = connection_status.CLOSED ∧
    sent_bytes ((run_calls host st calls).trace.drop st.trace.length) = [] ∧
    (∀ (m : Mem) (data : Span) (inputs : List Attempt),
      st.send_data host m data inputs = Outcome.returned st () inputs) ∧
    (∀ (buffer : Mem) (inputs : List RecvResult),
      st.receive_data host buffer inputs = Outcome.returned st (0, buffer) inputs) ∧
    (∀ inputs : List Attempt,
      st.close_connection host inputs = Outcome.returned (st.log [Event.close]) () inputs) ∧
    (∀ (hostname : String) (port_num : Int) (inputs : List RecvResult),
      st.connect_to_remote host hostname port_num inputs = Outcome.exited st ∧
      st.accept_connection host port_num inputs = Outcome.exited st) := by
  have h1 : st.state ≠ connection_status.WAIT_SEND := by rw [h]; decide
  have h3 : st.state ≠ connection_status.WAIT_DATA0 ∧ st.state ≠ connection_status.WAIT_DATA1 := by
    rw [h]; decide
  have h4 : ¬ (st.state = connection_status.CLOSING) := by rw [h]; decide
  have h5 : st.state ≠ connection_status.INIT := by rw [h]; decide
  obtain ⟨hs, n, hn⟩ := run_calls_closed host calls st h
  refine ⟨hs, ?_, ?_, ?_, ?_, ?_⟩
  · rw [hn, List.drop_left, sent_bytes_closes]
  · intro m data inputs
    unfold ReliableSocket.send_data
    rw [if_pos h1]
  · intro buffer inputs
    unfold ReliableSocket.receive_data
    rw [if_pos h3]
  · intro inputs
    unfold ReliableSocket.close_connection
    rw [if_neg h1, if_neg h4]
    rfl
  · intro hostname port_num inputs
    constructor
    · unfold ReliableSocket.connect_to_remote
      rw [if_pos h5]
    · unfold ReliableSocket.accept_connection
      rw [if_pos h5]

/-- C18 (witness). A client that has closed is asked to send, to close again
and to receive. -/
theorem C18_closed_is_terminal_witness :
    (sender_ready.close_connection host_le [⟨0, ack_datagram 4, 1⟩]).final.state =
      connection_status.CLOSED ∧
    (run_calls host_le (sender_ready.close_connection host_le [⟨0, ack_datagram 4, 1⟩]).final
      [Call.send_data zero_buffer ⟨0, 5⟩ [⟨0, ack_datagram 0, 1⟩],
        Call.close_connection [⟨0, ack_datagram 4, 1⟩],
        Call.receive_data zero_buffer [data_datagram 0 0 [1, 2, 3]]]).state =
      connection_status.CLOSED :=
  ⟨by decide,
    (C18_closed_is_terminal host_le
      (sender_ready.close_connection host_le [⟨0, ack_datagram 4, 1⟩]).final
      [Call.send_data zero_buffer ⟨0, 5⟩ [⟨0, ack_datagram 0, 1⟩],
        Call.close_connection [⟨0, ack_datagram 4, 1⟩],
        Call.receive_data zero_buffer [data_datagram 0 0 [1, 2, 3]]] (by decide)).1⟩

/-- C20. A newly constructed `ReliableSocket` is in state `INIT` with sequence
bit 0, `estimated_rtt = 200` and `dev_rtt = 10`, has made no transport call, and
`get_estimated_rtt()` returns 200. -/
theorem C20_initial_state :
    ReliableSocket.init.state = connection_status.INIT ∧
    ReliableSocket.init.sequence_number = 0 ∧
    ReliableSocket.init.estimated_rtt = 200 ∧
    ReliableSocket.init.dev_rtt = 10 ∧
    ReliableSocket.init.trace = [] ∧
    ReliableSocket.init.get_estimated_rtt = 200 := by
  decide

/-! ## Theorems: the end-to-end scenario -/

theorem hang_client_noise (y : Attempt) (h : y = expiry ∨ y = arrival (ack_wire 2)) :
    is_retry host_le 0 y.result = true := by
  rcases h with h | h <;> subst h <;> decide

theorem hang_server_noise (x : Attempt) (h : x = expiry ∨ x = arrival hello_wire) :
    is_noise host_le 3 x.result = true := by
  rcases h with h | h <;> subst h <;> decide

/-- The client of the scenario after `ACK 2` and then only timeouts and further
`ACK 2`: it is blocked in its first `send_data` and has sent the connection
request, `ACK 3` and the first DATA segment once more than it has received
inputs since. -/
theorem client_program_stuck (ys : List Attempt)
    (h : ∀ y ∈ ys, y = expiry ∨ y = arrival (ack_wire 2)) :
    ∃ st, client_program host_le (arrival (ack_wire 2) :: ys) = Outcome.waiting st ∧
      sent_bytes st.trace =
        conn_wire :: ack_wire 3 :: List.replicate (ys.length + 1) hello_wire := by
  have hconn := connect_completes host_le ReliableSocket.init "server" 4000 []
    (RecvResult.datagram (ack_wire 2)) (ys.map Attempt.result) rfl (by simp) (by decide)
  have hdrop : (arrival (ack_wire 2) :: ys).drop
      ((arrival (ack_wire 2) :: ys).length - (ys.map Attempt.result).length) = ys := by
    simp
  have hnoise : ∀ y ∈ ys, is_retry host_le 0 y.result = true :=
    fun y hy => hang_client_noise y (h y hy)
  unfold client_program on_results
  rw [show (arrival (ack_wire 2) :: ys).map Attempt.result =
    [] ++ RecvResult.datagram (ack_wire 2) :: ys.map Attempt.result from rfl, hconn]
  simp only [Outcome.and_then, hdrop]
  rw [send_data_waits host_le _ (Mem.write zero_buffer 0 hello) ⟨0, 5⟩ ys rfl rfl (by decide)
    (by decide) hnoise]
  refine ⟨_, rfl, ?_⟩
  simp [ReliableSocket.set_state, ReliableSocket.send_ack, ReliableSocket.on_socket,
    UnreliableSocket.send, UnreliableSocket.connect, UnreliableSocket.set_timeout_length,
    ReliableSocket.init, UnreliableSocket.init, sent_bytes_append, sent_bytes_attempts, sent_bytes,
    attempts_trace, conn_bytes, host_le, List.replicate_succ']
  have hw : (0 :: 0 :: RDT_DATA :: 0 :: 0 :: 5 ::
      (Mem.write zero_buffer 0 hello).read_span ⟨0, 5⟩) = hello_wire := by decide
  rw [hw]
  exact ⟨by decide, by decide, rfl⟩

/-- The server of the scenario after the connection request and then only
timeouts and DATA segments: it is blocked in `accept_connection`, in state
`INIT`, and all it has sent are `ACK 2` segments. -/
theorem server_program_stuck (xs : List Attempt)
    (h : ∀ x ∈ xs, x = expiry ∨ x = arrival hello_wire) :
    ∃ st, server_program host_le (arrival conn_wire :: xs) = Outcome.waiting st ∧
      st.state = connection_status.INIT ∧
      ∀ w ∈ sent_bytes st.trace, w = ack_wire 2 := by
  have hnoise : ∀ r ∈ xs.map Attempt.result, is_noise host_le 3 r = true := by
    intro r hr
    obtain ⟨x, hx, rfl⟩ := List.mem_map.mp hr
    exact hang_server_noise x (h x hx)
  have hacc : ReliableSocket.init.accept_connection host_le 4000
      ((arrival conn_wire :: xs).map Attempt.result) =
      Outcome.waiting
        { ReliableSocket.init with
          socket := { timeout_length := 240, connected := true }
          objs := 1 + ((xs.map Attempt.result).filter (asks_for_ack2 host_le)).length
          trace := [Event.bind 4000, Event.receive 0 (RecvResult.datagram conn_wire),
            Event.send (ack_bytes host_le 0 2), Event.set_timeout_length 240] ++
            replies_trace host_le 240 1 (xs.map Attempt.result) } := by
    unfold ReliableSocket.accept_connection
    rw [if_neg (by decide)]
    have h1 := accept_wait_conn_ignores host_le []
      (ReliableSocket.init.on_socket (fun sock => sock.bind 4000))
      (RecvResult.datagram conn_wire) (xs.map Attempt.result) (by simp) (by decide)
    rw [show (arrival conn_wire :: xs).map Attempt.result =
      [] ++ RecvResult.datagram conn_wire :: xs.map Attempt.result from rfl, h1]
    have h2 := accept_wait_ack_noise host_le (xs.map Attempt.result)
      { ReliableSocket.init.on_socket (fun sock => sock.bind 4000) with
        socket := { timeout_length := 240, connected := true }
        objs := 1
        trace := [Event.bind 4000, Event.receive 0 (RecvResult.datagram conn_wire),
          Event.send (ack_bytes host_le 0 2), Event.set_timeout_length 240] } [] rfl hnoise
    rw [List.append_nil] at h2
    exact h2
  unfold server_program on_results
  rw [hacc]
  refine ⟨_, rfl, rfl, ?_⟩
  intro w hw
  have hs : sent_bytes ([Event.bind 4000, Event.receive 0 (RecvResult.datagram conn_wire),
      Event.send (ack_bytes host_le 0 2), Event.set_timeout_length 240] ++
      replies_trace host_le 240 1 (xs.map Attempt.result)) =
      ack_bytes host_le 0 2 ::
        (List.range ((xs.map Attempt.result).filter (asks_for_ack2 host_le)).length).map
          (fun j => ack_bytes host_le (1 + j) 2) := by
    rw [sent_bytes_append, sent_bytes_replies]
    rfl
  change w ∈ sent_bytes ([Event.bind 4000, Event.receive 0 (RecvResult.datagram conn_wire),
      Event.send (ack_bytes host_le 0 2), Event.set_timeout_length 240] ++
      replies_trace host_le 240 1 (xs.map Attempt.result)) at hw
  rw [hs] at hw
  simp only [List.mem_cons, List.mem_map] at hw
  rcases hw with hw | ⟨j, _, hw⟩
  · rw [hw]; rfl
  · rw [← hw]; rfl

theorem getD_of_all_eq (l : List (List Nat)) (w : List Nat) (k : Nat) (hk : k < l.length)
    (h : ∀ x ∈ l, x = w) : l.getD k [] = w := by
  rw [List.getD_eq_getElem _ _ hk]
  exact h _ (List.getElem_mem _)

theorem getD_client_packets (n k : Nat) (h2 : 2 ≤ k)
    (hk : k < (conn_wire :: ack_wire 3 :: List.replicate n hello_wire).length) :
    (conn_wire :: ack_wire 3 :: List.replicate n hello_wire).getD k [] = hello_wire := by
  obtain ⟨j, rfl⟩ : ∃ j, k = j + 2 := ⟨k - 2, by omega⟩
  have hj : j < n := by simpa using hk
  simp [List.getD_eq_getElem?_getD, List.getElem?_replicate, hj]

/-- Once the client's `ACK 3` is lost, every step of the channel that drops every
third packet leaves the handshake stuck. -/
theorem step_keeps_stuck (s : System) (h : handshake_stuck s) :
    handshake_stuck (step host_le every_third s) := by
  obtain ⟨client, server, ct, vt, turn⟩ := s
  obtain ⟨⟨xs, hserver, hxs⟩, ⟨ys, hclient, hys⟩, hct, hvt⟩ := h
  simp only at hserver hclient hct hvt
  subst hserver hclient
  obtain ⟨cst, hc1, hc2⟩ := client_program_stuck ys hys
  obtain ⟨vst, hv1, _, hv3⟩ := server_program_stuck xs hxs
  simp only [step, hc1, hv1, Outcome.final, hc2]
  split_ifs with h1 h2 h3 h4 h5
  · exact ⟨⟨xs, rfl, hxs⟩, ⟨ys, rfl, hys⟩, by simp only; omega, hvt⟩
  · refine ⟨⟨xs ++ [arrival hello_wire], ?_, ?_⟩, ⟨ys, rfl, hys⟩, by simp only; omega, hvt⟩
    · simp only [getD_client_packets _ _ hct h1, List.cons_append]
    · intro x hx
      rcases List.mem_append.mp hx with hx | hx
      · exact hxs x hx
      · exact Or.inr (List.mem_singleton.mp hx)
  · exact ⟨⟨xs, rfl, hxs⟩, ⟨ys, rfl, hys⟩, hct, by simp only; omega⟩
  · refine ⟨⟨xs, rfl, hxs⟩, ⟨ys ++ [arrival (ack_wire 2)], ?_, ?_⟩, hct, by simp only; omega⟩
    · simp only [getD_of_all_eq _ (ack_wire 2) _ h3 hv3, List.cons_append]
    · intro y hy
      rcases List.mem_append.mp hy with hy | hy
      · exact hys y hy
      · exact Or.inr (List.mem_singleton.mp hy)
  · refine ⟨⟨xs, rfl, hxs⟩, ⟨ys ++ [expiry], rfl, ?_⟩, hct, hvt⟩
    intro y hy
    rcases List.mem_append.mp hy with hy | hy
    · exact hys y hy
    · exact Or.inl (List.mem_singleton.mp hy)
  · refine ⟨⟨xs ++ [expiry], rfl, ?_⟩, ⟨ys, rfl, hys⟩, hct, hvt⟩
    intro x hx
    rcases List.mem_append.mp hx with hx | hx
    · exact hxs x hx
    · exact Or.inl (List.mem_singleton.mp hx)
  · exact ⟨⟨xs, rfl, hxs⟩, ⟨ys, rfl, hys⟩, hct, hvt⟩

theorem simulate_keeps_stuck (n : Nat) :
    ∀ s : System, handshake_stuck s → handshake_stuck (simulate host_le every_third n s) := by
  induction n with
  | zero => intro s h; exact h
  | succ n ih => intro s h; exact ih _ (step_keeps_stuck s h)

theorem simulate_add (host : Host) (drops : Nat → Nat → Bool) (m : Nat) :
    ∀ (n : Nat) (s : System),
      simulate host drops (m + n) s = simulate host drops n (simulate host drops m s) := by
  induction m with
  | zero => intro n s; simp [simulate]
  | succ m ih =>
    intro n s
    rw [Nat.add_right_comm]
    exact ih n (step host drops s)

theorem stuck_after_three : handshake_stuck (simulate host_le every_third 3 System.start) := by
  have h : simulate host_le every_third 3 System.start =
      ⟨[arrival (ack_wire 2)], [arrival conn_wire], 2, 1, true⟩ := by decide
  rw [h]
  exact ⟨⟨[], rfl, by simp⟩, ⟨[], rfl, by simp⟩, le_refl _, le_refl _⟩

/-- Over the channel that drops every third packet the server of the scenario
never leaves `accept_connection`. -/
theorem server_never_accepts (n : Nat) :
    (server_program host_le (simulate host_le every_third (3 + n) System.start).server).value
      = none ∧
    (server_program host_le (simulate host_le every_third (3 + n) System.start).server).final.state
      = connection_status.INIT := by
  rw [simulate_add]
  obtain ⟨⟨xs, hserver, hxs⟩, _⟩ := simulate_keeps_stuck n _ stuck_after_three
  obtain ⟨vst, hv1, hv2, _⟩ := server_program_stuck xs hxs
  rw [hserver, hv1]
  exact ⟨rfl, hv2⟩

/-- C19 (counterexample). Over the channel that drops every third packet, counted
over all packets, the first three packets are the connection request, `ACK 2`
and the client's `ACK 3`: the third one is dropped, the client goes on to send
"hello", and the server, which has received the connection request only, never
returns from `accept_connection`, so it never delivers "helloworld". -/
theorem C19_lost_ack3_blocks_the_server :
    simulate host_le every_third 3 System.start =
      ⟨[arrival (ack_wire 2)], [arrival conn_wire], 2, 1, true⟩ ∧
    sent_bytes (client_program host_le
      (simulate host_le every_third 3 System.start).client).final.trace =
        [conn_wire, ack_wire 3, hello_wire] ∧
    ¬ ∃ n, (server_program host_le (simulate host_le every_third n System.start).server).value =
      some (hello ++ world) := by
  refine ⟨by decide, by decide, ?_⟩
  rintro ⟨n, hn⟩
  by_cases h : n < 3
  · have h3 : n = 0 ∨ n = 1 ∨ n = 2 := by omega
    rcases h3 with h0 | h0 | h0 <;> subst h0 <;> revert hn <;> decide
  · obtain ⟨k, rfl⟩ : ∃ k, n = 3 + k := ⟨n - 3, by omega⟩
    rw [(server_never_accepts k).1] at hn
    exact Option.noConfusion hn

set_option maxRecDepth 100000 in
/-- C19 (amended). Over the channel that drops every third packet of each sender
(the client's third and sixth packet and the server's third, while the client's
`ACK 3`, its second packet, gets through) the run of the scenario comes to rest
after the client has sent 8 packets and the server 5: the server has written
exactly the bytes of "helloworld" and both connections are `CLOSED`. -/
theorem C19_end_to_end_drops_per_sender :
    (server_program host_le
      (simulate host_le every_third_of_each 30 System.start).server).value =
        some (hello ++ world) ∧
    (server_program host_le
      (simulate host_le every_third_of_each 30 System.start).server).final.state =
        connection_status.CLOSED ∧
    (client_program host_le
      (simulate host_le every_third_of_each 30 System.start).client).value = some () ∧
    (client_program host_le
      (simulate host_le every_third_of_each 30 System.start).client).final.state =
        connection_status.CLOSED ∧
    (simulate host_le every_third_of_each 30 System.start).client_taken = 8 ∧
    (simulate host_le every_third_of_each 30 System.start).server_taken = 5 ∧
    step host_le every_third_of_each (simulate host_le every_third_of_each 30 System.start) =
      simulate host_le every_third_of_each 30 System.start := by
  decide

/-! ## Theorems: the estimator in integers -/

/-- C26. `update_rtt` stores truncated integers: for statistics that are
non-negative `int` values and a sample below `2^31`, the stored estimate is
`⌊(7 * estimated_rtt + sample) / 8⌋`, the stored deviation is
`⌊(3 * dev_rtt + |sample - estimated_rtt'|) / 4⌋`, the new estimate lies between
the minimum and the maximum of the old estimate and the sample, and the new
deviation is not negative. -/
theorem C26_update_rtt_stores_truncated_integers (st : ReliableSocket) (sample_rtt : Nat)
    (he : 0 ≤ st.estimated_rtt) (he2 : st.estimated_rtt < 2147483648) (hd : 0 ≤ st.dev_rtt)
    (hs : sample_rtt < 2147483648) :
    (st.update_rtt sample_rtt).estimated_rtt =
      ⌊((7 * st.estimated_rtt + (sample_rtt : Int) : Int) : ℚ) / 8⌋ ∧
    (st.update_rtt sample_rtt).dev_rtt =
      ⌊((3 * st.dev_rtt + |(sample_rtt : Int) - (st.update_rtt sample_rtt).estimated_rtt| : Int) : ℚ)
        / 4⌋ ∧
    min st.estimated_rtt (sample_rtt : Int) ≤ (st.update_rtt sample_rtt).estimated_rtt ∧
    (st.update_rtt sample_rtt).estimated_rtt ≤ max st.estimated_rtt (sample_rtt : Int) ∧
    0 ≤ (st.update_rtt sample_rtt).dev_rtt := by
  have hfloor : ∀ (a : Int) (n : Nat), ⌊(a : ℚ) / (n : ℚ)⌋ = a / (n : Int) :=
    fun a n => Rat.floor_intCast_div_natCast a n
  have hE := update_rtt_estimated_nonneg st sample_rtt he
  have hD := update_rtt_dev_nonneg st sample_rtt he he2 hd hs
  refine ⟨?_, ?_, ?_, ?_, ?_⟩
  · rw [hE]
    have := hfloor (7 * st.estimated_rtt + (sample_rtt : Int)) 8
    simpa using this.symm
  · rw [hD]
    have := hfloor (3 * st.dev_rtt + |(sample_rtt : Int) - (st.update_rtt sample_rtt).estimated_rtt|) 4
    simpa using this.symm
  · rw [hE]; omega
  · rw [hE]; omega
  · rw [hD]
    have := abs_nonneg ((sample_rtt : Int) - (st.update_rtt sample_rtt).estimated_rtt)
    omega

/-- C26 (witness). The initial statistics and a sample of 250: the stored values
are 206 and 18. -/
theorem C26_update_rtt_stores_truncated_integers_witness :
    ((0 : Int) ≤ ReliableSocket.init.estimated_rtt ∧
      ReliableSocket.init.estimated_rtt < 2147483648 ∧
      (0 : Int) ≤ ReliableSocket.init.dev_rtt ∧ (250 : Nat) < 2147483648) ∧
    min ReliableSocket.init.estimated_rtt ((250 : Nat) : Int) ≤
      (ReliableSocket.init.update_rtt 250).estimated_rtt ∧
    (ReliableSocket.init.update_rtt 250).estimated_rtt ≤
      max ReliableSocket.init.estimated_rtt ((250 : Nat) : Int) ∧
    0 ≤ (ReliableSocket.init.update_rtt 250).dev_rtt :=
  ⟨⟨by decide, by decide, by decide, by decide⟩,
    (C26_update_rtt_stores_truncated_integers ReliableSocket.init 250 (by decide) (by decide)
      (by decide) (by decide)).2.2⟩

/-- C27. The adaptive timeout can collapse to the value that means "wait for
ever": from the initial statistics 200 and 10, thirty-two samples of 0 ms leave
`estimated_rtt = dev_rtt = 0`, and the last thing `update_rtt` does is set the
timeout length of the transport to 0, the length under which a blocked receive
never times out; further samples of 0 ms change nothing. -/
theorem C27_timeout_collapses_to_zero :
    (feed_samples ReliableSocket.init (List.replicate 32 0)).estimated_rtt = 0 ∧
    (feed_samples ReliableSocket.init (List.replicate 32 0)).dev_rtt = 0 ∧
    (feed_samples ReliableSocket.init (List.replicate 32 0)).socket.timeout_length = 0 ∧
    (feed_samples ReliableSocket.init (List.replicate 32 0)).trace.getLast? =
      some (Event.set_timeout_length 0) ∧
    times_out (Outcome.waiting (feed_samples ReliableSocket.init (List.replicate 32 0)) :
      Outcome Attempt Unit) = false ∧
    (feed_samples ReliableSocket.init (List.replicate 31 0)).socket.timeout_length ≠ 0 ∧
    ∀ n, (feed_samples ReliableSocket.init (List.replicate (32 + n) 0)).estimated_rtt = 0 ∧
      (feed_samples ReliableSocket.init (List.replicate (32 + n) 0)).dev_rtt = 0 ∧
      (feed_samples ReliableSocket.init (List.replicate (32 + n) 0)).socket.timeout_length = 0 := by
  refine ⟨by decide, by decide, by decide, by decide, by decide, by decide, ?_⟩
  intro n
  induction n with
  | zero => exact ⟨by decide, by decide, by decide⟩
  | succ n ih =>
    have hstep : feed_samples ReliableSocket.init (List.replicate (32 + (n + 1)) 0) =
        (feed_samples ReliableSocket.init (List.replicate (32 + n) 0)).update_rtt 0 := by
      rw [show 32 + (n + 1) = (32 + n) + 1 from rfl, List.replicate_succ']
      simp [feed_samples, List.foldl_append]
    obtain ⟨h1, h2, _⟩ := ih
    rw [hstep]
    generalize feed_samples ReliableSocket.init (List.replicate (32 + n) 0) = s at h1 h2
    have e1 : (s.update_rtt 0).estimated_rtt = 0 := by
      rw [update_rtt_estimated, h1]; decide
    have e2 : (s.update_rtt 0).dev_rtt = 0 := by
      simp only [ReliableSocket.update_rtt, ReliableSocket.on_socket, h1, h2]
      decide
    refine ⟨e1, e2, ?_⟩
    rw [update_rtt_timeout, e1, e2]; decide

/-! ## Theorems: closing in other states -/

/-- C30. `close_connection` called in a state other than `WAIT_SEND` and
`CLOSING` returns at once without consuming an input: it sends nothing, receives
nothing and assigns no state, the only event is the `close` of the transport;
the state, the sequence bit and the RTT statistics are what they were, so a
state that was not `CLOSED` is not `CLOSED` afterwards. -/
theorem C30_close_in_other_states (host : Host) (st : ReliableSocket) (inputs : List Attempt)
    (h1 : st.state ≠ connection_status.WAIT_SEND) (h2 : st.state ≠ connection_status.CLOSING) :
    st.close_connection host inputs = Outcome.returned (st.log [Event.close]) () inputs ∧
    (st.close_connection host inputs).final.trace = st.trace ++ [Event.close] ∧
    (st.close_connection host inputs).final.state = st.state ∧
    (st.close_connection host inputs).final.sequence_number = st.sequence_number ∧
    (st.close_connection host inputs).final.estimated_rtt = st.estimated_rtt ∧
    (st.close_connection host inputs).final.dev_rtt = st.dev_rtt ∧
    (st.close_connection host inputs).final.socket = st.socket ∧
    (st.state ≠ connection_status.CLOSED →
      (st.close_connection host inputs).final.state ≠ connection_status.CLOSED) := by
  have h : st.close_connection host inputs = Outcome.returned (st.log [Event.close]) () inputs := by
    unfold ReliableSocket.close_connection
    rw [if_neg h1, if_neg h2]
    rfl
  rw [h]
  exact ⟨rfl, rfl, rfl, rfl, rfl, rfl, rfl, fun hne => hne⟩

/-- C30 (witness). A new socket, and a server that is still waiting for data. -/
theorem C30_close_in_other_states_witness :
    (receiver_ready.state ≠ connection_status.WAIT_SEND ∧
      receiver_ready.state ≠ connection_status.CLOSING) ∧
    (receiver_ready.close_connection host_le []).final.state = connection_status.WAIT_DATA0 :=
  ⟨⟨by decide, by decide⟩,
    ((C30_close_in_other_states host_le receiver_ready [] (by decide) (by decide)).2.2.1).trans
      (by decide)⟩

/-! ## Theorems: the empty DATA segment -/

theorem write_nil (m : Mem) (a : Nat) : Mem.write m a [] = m := by
  funext x
  simp [Mem.write]

/-- C28. A DATA segment without payload looks like the end of the stream:
`receive_data` expecting bit `b`, given the DATA segment with bit `b` and no
payload, sends `ACK b`, assigns the state for bit `1 - b` and returns 0 with the
caller's buffer untouched; given a close request instead it sends `ACK 4`,
assigns `CLOSING` and returns 0 as well. The same value is returned in both
cases, after the first no close request was received and the state is not
`CLOSING`. -/
theorem C28_empty_data_returns_zero (host : Host) (st : ReliableSocket) (buffer : Mem)
    (b pad : Nat) (c : RecvResult) (rest : List RecvResult) (hb : b < 2)
    (hstate : st.state = wait_data b) (hconn : st.socket.connected = true)
    (hc : is_close host c = true) :
    ∃ st_data st_close,
      st.receive_data host buffer (data_datagram b pad [] :: rest) =
        Outcome.returned st_data (0, buffer) rest ∧
      st.receive_data host buffer (c :: rest) = Outcome.returned st_close (0, buffer) rest ∧
      st_data.state = wait_data (1 - b) ∧
      st_data.state ≠ connection_status.CLOSING ∧
      is_close host (data_datagram b pad []) = false ∧
      sent_bytes (st_data.trace.drop st.trace.length) = [ack_bytes host st.objs b] ∧
      st_close.state = connection_status.CLOSING ∧
      sent_bytes (st_close.trace.drop st.trace.length) = [ack_bytes host st.objs 4] := by
  have hd := receive_data_delivers host st buffer b pad [] [] rest hb hstate hconn
    (Nat.zero_le _) (fun r hr => absurd hr (List.not_mem_nil r))
  have hcl := receive_data_sees_close host st buffer b [] c rest hb hstate hconn
    (fun r hr => absurd hr (List.not_mem_nil r)) hc
  simp only [List.nil_append, List.length_nil, List.map_nil, write_nil] at hd hcl
  have hb' : b = 0 ∨ b = 1 := by omega
  refine ⟨_, _, hd, hcl, rfl, ?_, ?_, ?_, rfl, ?_⟩
  · show wait_data (1 - b) ≠ connection_status.CLOSING
    rcases hb' with h | h <;> subst h <;> decide
  · have h := (received_data_datagram host zero_buffer b pad [] hb (Nat.zero_le _)).2.2.1
    have hnc : ¬ (RDT_DATA = RDT_CLOSE) := by decide
    simp only [List.append_nil, List.length_nil] at h
    simp [is_close, data_datagram, h, hnc]
  · simp [duplicates_trace, sent_bytes]
  · simp [duplicates_trace, sent_bytes]

/-- C28 (witness). A server right after its handshake: the sender's empty DATA
segment with bit 0, or its close request. -/
theorem C28_empty_data_returns_zero_witness :
    ((0 : Nat) < 2 ∧ receiver_ready.state = wait_data 0 ∧
      receiver_ready.socket.connected = true ∧ is_close host_le close_datagram = true) ∧
    ∃ st_data st_close,
      receiver_ready.receive_data host_le zero_buffer (data_datagram 0 0 [] :: []) =
        Outcome.returned st_data (0, zero_buffer) [] ∧
      receiver_ready.receive_data host_le zero_buffer (close_datagram :: []) =
        Outcome.returned st_close (0, zero_buffer) [] ∧
      st_data.state = wait_data (1 - 0) ∧
      st_data.state ≠ connection_status.CLOSING :=
  ⟨⟨by decide, by decide, by decide, by decide⟩,
    (C28_empty_data_returns_zero host_le receiver_ready zero_buffer 0 0 close_datagram []
      (by decide) (by decide) (by decide) (by decide)).imp
      (fun _ h => h.imp (fun _ h => ⟨h.1, h.2.1, h.2.2.1, h.2.2.2.1⟩))⟩

/-! ## Theorems: what the loops leave alone -/

@[simp]
theorem on_socket_state (st : ReliableSocket)
    (call : UnreliableSocket → UnreliableSocket × List Event) :
    (st.on_socket call).state = st.state := rfl

@[simp]
theorem on_socket_sequence_number (st : ReliableSocket)
    (call : UnreliableSocket → UnreliableSocket × List Event) :
    (st.on_socket call).sequence_number = st.sequence_number := rfl

@[simp]
theorem receive_state (st : ReliableSocket) (buffer : Mem) (r : RecvResult) :
    (st.receive buffer r).1.state = st.state := rfl

@[simp]
theorem receive_sequence_number (st : ReliableSocket) (buffer : Mem) (r : RecvResult) :
    (st.receive buffer r).1.sequence_number = st.sequence_number := rfl

@[simp]
theorem send_ack_state (host : Host) (st : ReliableSocket) (n : Nat) :
    (ReliableSocket.send_ack host st n).state = st.state := rfl

@[simp]
theorem send_ack_sequence_number (host : Host) (st : ReliableSocket) (n : Nat) :
    (ReliableSocket.send_ack host st n).sequence_number = st.sequence_number := rfl

/-- The second loop of `accept_connection` returns on `ACK 3` only, and assigns
no state before it returns. -/
theorem accept_wait_ack_needs_ack3 (host : Host) (inputs : List RecvResult) :
    ∀ st : ReliableSocket, (∀ r ∈ inputs, is_ack host 3 r = false) →
      (accept_wait_ack host st inputs).value = none ∧
      (accept_wait_ack host st inputs).final.state = st.state := by
  induction inputs with
  | nil => intro st _; exact ⟨rfl, rfl⟩
  | cons r rest ih =>
    intro st hno
    have hrest : ∀ x ∈ rest, is_ack host 3 x = false :=
      fun x hx => hno x (List.mem_cons_of_mem _ hx)
    have hr := hno r (List.mem_cons_self _ _)
    cases r with
    | eagain =>
      simp only [accept_wait_ack, receive_eagain]
      exact ih _ hrest
    | failure =>
      simp only [accept_wait_ack, receive_failure]
      exact ⟨rfl, rfl⟩
    | datagram bytes =>
      by_cases hne : bytes.isEmpty = true
      · have : bytes = [] := by simpa using hne
        subst this
        simp only [accept_wait_ack, receive_empty]
        exact ⟨rfl, rfl⟩
      · have hne2 : bytes.isEmpty = false := by simpa using hne
        have hcond : ¬ ((received_segment host bytes).get_type = RDT_ACK ∧
            (received_segment host bytes).get_ack_number = 3) := by
          rintro ⟨h1, h2⟩
          simp [is_ack, hne2, h1, h2] at hr
        simp only [accept_wait_ack]
        rw [receive_datagram _ _ _ hne2]
        simp only [received_segment_of_span, hcond, if_false]
        split
        · exact ih _ hrest
        · exact ih _ hrest

/-- The first loop of `accept_connection` assigns no state either. -/
theorem accept_wait_conn_needs_ack3 (host : Host) (inputs : List RecvResult) :
    ∀ st : ReliableSocket, (∀ r ∈ inputs, is_ack host 3 r = false) →
      (accept_wait_conn host st inputs).value = none ∧
      (accept_wait_conn host st inputs).final.state = st.state := by
  induction inputs with
  | nil => intro st _; exact ⟨rfl, rfl⟩
  | cons r rest ih =>
    intro st hno
    have hrest : ∀ x ∈ rest, is_ack host 3 x = false :=
      fun x hx => hno x (List.mem_cons_of_mem _ hx)
    cases r with
    | eagain =>
      simp only [accept_wait_conn, receive_eagain]
      exact ⟨rfl, rfl⟩
    | failure =>
      simp only [accept_wait_conn, receive_failure]
      exact ⟨rfl, rfl⟩
    | datagram bytes =>
      by_cases hne : bytes.isEmpty = true
      · have : bytes = [] := by simpa using hne
        subst this
        simp only [accept_wait_conn, receive_empty]
        exact ⟨rfl, rfl⟩
      · have hne2 : bytes.isEmpty = false := by simpa using hne
        simp only [accept_wait_conn]
        rw [receive_datagram _ _ _ hne2]
        simp only [received_segment_of_span]
        split
        · exact accept_wait_ack_needs_ack3 host rest _ hrest
        · exact ih _ hrest

/-! ## Theorems: the handshake of the server without `ACK 3` -/

theorem is_stray_cases (host : Host) (r : RecvResult) (h : is_stray host r = true) :
    is_noise host 3 r = true ∧ asks_for_ack2 host r = false := by
  cases r with
  | eagain => simp [is_stray, is_type, is_ack] at h
  | failure => simp [is_stray, is_type, is_ack] at h
  | datagram bytes =>
    by_cases hne : bytes.isEmpty = true
    · simp [is_stray, is_type, is_ack, hne] at h
    · have hne2 : bytes.isEmpty = false := by simpa using hne
      have h0 : ¬ (RDT_DATA = RDT_ACK) := by decide
      have h1 : ¬ (RDT_CLOSE = RDT_ACK) := by decide
      have h2 : ¬ (RDT_DATA = RDT_CONN) := by decide
      have h3 : ¬ (RDT_CLOSE = RDT_CONN) := by decide
      have h4 : ¬ (RDT_ACK = RDT_CONN) := by decide
      simp only [is_stray, is_type, is_ack, hne2, Bool.not_false, Bool.true_and, Bool.or_eq_true,
        decide_eq_true_eq, Bool.and_eq_true, Bool.not_eq_true', Bool.and_eq_false_iff,
        decide_eq_false_iff_not] at h
      simp only [is_noise, is_timeout, is_segment, is_ack, asks_for_ack2, is_type, hne2,
        Bool.not_false, Bool.true_and, Bool.false_or, Bool.not_eq_true', Bool.and_eq_false_iff,
        decide_eq_false_iff_not, Bool.and_eq_true, decide_eq_true_eq]
      rcases h with (h | h) | ⟨h, h'⟩
      · exact ⟨Or.inl (by rw [h]; exact h0), by rw [h]; exact h2⟩
      · exact ⟨Or.inl (by rw [h]; exact h1), by rw [h]; exact h3⟩
      · refine ⟨?_, by rw [h]; exact h4⟩
        rcases h' with h' | h'
        · exact absurd h h'
        · exact Or.inr h'

theorem replies_trace_strays (host : Host) (t : Nat) (rs : List RecvResult)
    (h : ∀ r ∈ rs, asks_for_ack2 host r = false) :
    ∀ i, replies_trace host t i rs = rs.map (Event.receive t) := by
  induction rs with
  | nil => intro i; rfl
  | cons r rs ih =>
    intro i
    have hr := h r (List.mem_cons_self _ _)
    simp [replies_trace, hr, ih (fun x hx => h x (List.mem_cons_of_mem _ hx))]

/-- C29. Only `ACK 3` completes the handshake of the server. Whatever the
receives give, as long as none of them is an `ACK` with number 3,
`accept_connection` called in `INIT` does not return and the state is still
`INIT`. After the connection request, DATA segments, close requests and `ACK`s
with other numbers are received and nothing is sent for them: the one `ACK 2`
that answered the request is all that was transmitted, and the call is blocked
in its receive. -/
theorem C29_only_ack3_completes_accept (host : Host) (st : ReliableSocket) (port_num : Int)
    (inputs : List RecvResult) (c : RecvResult) (mid : List RecvResult)
    (hinit : st.state = connection_status.INIT)
    (hno : ∀ r ∈ inputs, is_ack host 3 r = false)
    (hc : is_type host RDT_CONN c = true)
    (hmid : ∀ r ∈ mid, is_stray host r = true) :
    let timeout_length := ((st.estimated_rtt + 4 * st.dev_rtt) % 4294967296).toNat
    let events := [Event.bind port_num, Event.receive st.socket.timeout_length c,
      Event.send (ack_bytes host st.objs 2), Event.set_timeout_length timeout_length] ++
      mid.map (Event.receive timeout_length)
    (st.accept_connection host port_num inputs).value = none ∧
    (st.accept_connection host port_num inputs).final.state = connection_status.INIT ∧
    (st.accept_connection host port_num (c :: mid)).is_waiting = true ∧
    (st.accept_connection host port_num (c :: mid)).final.state = connection_status.INIT ∧
    (st.accept_connection host port_num (c :: mid)).final.trace = st.trace ++ events ∧
    sent_bytes events = [ack_bytes host st.objs 2] ∧
    states_assigned events = [] := by
  intro timeout_length events
  have hgen : (st.accept_connection host port_num inputs).value = none ∧
      (st.accept_connection host port_num inputs).final.state = connection_status.INIT := by
    unfold ReliableSocket.accept_connection
    rw [if_neg (not_not.mpr hinit)]
    have h := accept_wait_conn_needs_ack3 host inputs
      (st.on_socket (fun sock => sock.bind port_num)) hno
    exact ⟨h.1, h.2.trans hinit⟩
  have hrun : st.accept_connection host port_num (c :: mid) =
      Outcome.waiting
        { st with
          socket := { timeout_length := timeout_length, connected := true }
          objs := st.objs + 1
          trace := st.trace ++ events } := by
    have hnoise : ∀ r ∈ mid, is_noise host 3 r = true := fun r hr => (is_stray_cases host r (hmid r hr)).1
    have hask : ∀ r ∈ mid, asks_for_ack2 host r = false :=
      fun r hr => (is_stray_cases host r (hmid r hr)).2
    have hfil : mid.filter (asks_for_ack2 host) = [] := by
      rw [List.filter_eq_nil_iff]
      intro r hr
      simp [hask r hr]
    unfold ReliableSocket.accept_connection
    rw [if_neg (not_not.mpr hinit), accept_wait_conn_match host _ c mid hc]
    have h := accept_wait_ack_noise host mid
      { st.on_socket (fun sock => sock.bind port_num) with
        socket := { timeout_length := timeout_length, connected := true }
        objs := st.objs + 1
        trace := st.trace ++ [Event.bind port_num, Event.receive st.socket.timeout_length c,
          Event.send (ack_bytes host st.objs 2), Event.set_timeout_length timeout_length] } []
      rfl hnoise
    rw [List.append_nil] at h
    simp only [ReliableSocket.on_socket, UnreliableSocket.bind, List.append_assoc,
      List.singleton_append, List.cons_append, List.nil_append] at h ⊢
    rw [h]
    simp only [hfil, replies_trace_strays host _ mid hask, events, List.length_nil, Nat.add_zero,
      List.cons_append, List.nil_append, accept_wait_ack]
  refine ⟨hgen.1, hgen.2, ?_, ?_, ?_, ?_, ?_⟩
  · rw [hrun]; rfl
  · rw [hrun]; exact hinit
  · rw [hrun]; rfl
  · simp [events, sent_bytes, sent_bytes_receives]
  · simp [events, states_assigned, states_assigned_receives]

/-- C29 (witness). The client's `ACK 3` is lost and its first DATA segment
arrives instead: the server is still in the handshake. -/
theorem C29_only_ack3_completes_accept_witness :
    (ReliableSocket.init.state = connection_status.INIT ∧
      (∀ r ∈ [conn_datagram, data_datagram 0 0 hello], is_ack host_le 3 r = false) ∧
      is_type host_le RDT_CONN conn_datagram = true ∧
      (∀ r ∈ [data_datagram 0 0 hello, close_datagram, ack_datagram 2],
        is_stray host_le r = true)) ∧
    (ReliableSocket.init.accept_connection host_le 4000
      [conn_datagram, data_datagram 0 0 hello]).value = none ∧
    (ReliableSocket.init.accept_connection host_le 4000
      [conn_datagram, data_datagram 0 0 hello]).final.state = connection_status.INIT :=
  ⟨⟨by decide, by decide, by decide, by decide⟩,
    ⟨(C29_only_ack3_completes_accept host_le ReliableSocket.init 4000
        [conn_datagram, data_datagram 0 0 hello] conn_datagram
        [data_datagram 0 0 hello, close_datagram, ack_datagram 2]
        (by decide) (by decide) (by decide) (by decide)).1,
      (C29_only_ack3_completes_accept host_le ReliableSocket.init 4000
        [conn_datagram, data_datagram 0 0 hello] conn_datagram
        [data_datagram 0 0 hello, close_datagram, ack_datagram 2]
        (by decide) (by decide) (by decide) (by decide)).2.1⟩⟩

/-! ## Theorems: retransmissions -/

/-- A pass of the retransmission loop whose receive is neither a timeout, nor a
segment of one of the four types, nor the awaited acknowledgement ends the
process: the transport failed or reported the channel closed, or the segment
could not be written to the log. -/
theorem send_loop_ends (host : Host) (wire : List Nat) (d : Bool) (e : Nat)
    (st : ReliableSocket) (a : Attempt) (rest : List Attempt)
    (hc : st.socket.connected = true) (hn : is_retry host e a.result = false)
    (ha : is_ack host e a.result = false) :
    send_loop host wire d e st (a :: rest) =
      Outcome.exited
        (st.log [Event.send wire, Event.receive st.socket.timeout_length a.result]) := by
  rcases a with ⟨ts, r, tr⟩
  cases r with
  | eagain => simp [is_retry, is_timeout] at hn
  | failure => simp [send_loop, socket_send_connected _ _ hc, receive_failure, log_log]
  | datagram bytes =>
    by_cases hne : bytes.isEmpty = true
    · have : bytes = [] := by simpa using hne
      subst this
      simp [send_loop, socket_send_connected _ _ hc, receive_empty, log_log]
    · have hne2 : bytes.isEmpty = false := by simpa using hne
      simp only at ha hn
      have hk : known_type (received_segment host bytes).get_type = false := by
        simpa [is_retry, is_timeout, is_known, hne2, ha] using hn
      have htext := to_string_of_unknown host _ hk
      simp only [send_loop, socket_send_connected _ _ hc]
      rw [receive_datagram_connected _ _ _ hne2 (by simpa using hc)]
      simp only [log_log, log_socket, received_segment_of_span, htext]
      rfl

/-- What the retransmission loop does whatever its receives give: it transmits
the same bytes once per pass, the passes being the receives up to the first that
is not a timeout or a segment of a known type other than the awaited
acknowledgement, and leaves the state, the sequence number and the count of
segment objects alone. -/
theorem send_loop_any (host : Host) (wire : List Nat) (d : Bool) (e : Nat)
    (inputs : List Attempt) :
    ∀ st : ReliableSocket, st.socket.connected = true →
      ∃ events, (send_loop host wire d e st inputs).final.trace = st.trace ++ events ∧
        sent_bytes events =
          List.replicate ((inputs.takeWhile (fun a => is_retry host e a.result)).length + 1) wire ∧
        states_assigned events = [] ∧
        (send_loop host wire d e st inputs).final.state = st.state ∧
        (send_loop host wire d e st inputs).final.sequence_number = st.sequence_number ∧
        (send_loop host wire d e st inputs).final.socket.connected = true ∧
        (send_loop host wire d e st inputs).final.objs = st.objs := by
  induction inputs with
  | nil =>
    intro st hc
    rw [send_loop_waiting host wire d e st hc]
    exact ⟨[Event.send wire], rfl, rfl, rfl, rfl, rfl, hc, rfl⟩
  | cons a rest ih =>
    intro st hc
    by_cases hn : is_retry host e a.result = true
    · rw [send_loop_noise_step host wire d e st a rest hc hn]
      obtain ⟨events, h1, h2, h3, h4, h5, h6, h7⟩ :=
        ih (st.log [Event.send wire, Event.receive st.socket.timeout_length a.result])
          (by simpa using hc)
      refine ⟨[Event.send wire, Event.receive st.socket.timeout_length a.result] ++ events,
        ?_, ?_, ?_, h4, h5, h6, h7⟩
      · rw [h1]; simp
      · simp [List.takeWhile_cons, hn, sent_bytes, h2, List.replicate_succ]
      · simp [states_assigned, h3]
    · have hn2 : is_retry host e a.result = false := by simpa using hn
      have htw : (List.takeWhile (fun a => is_retry host e a.result) (a :: rest)) = [] := by
        simp [List.takeWhile_cons, hn2]
      rw [htw]
      by_cases ha : is_ack host e a.result = true
      · rw [send_loop_match host wire d e st a rest hc ha]
        cases d
        · exact ⟨[Event.send wire, Event.receive st.socket.timeout_length a.result],
            rfl, rfl, rfl, rfl, rfl, hc, rfl⟩
        · simp only [if_true]
          refine ⟨[Event.send wire, Event.receive st.socket.timeout_length a.result] ++
            [Event.set_timeout_length
              ((st.log [Event.send wire,
                Event.receive st.socket.timeout_length a.result]).update_rtt
                  (rtt_sample a)).socket.timeout_length], ?_, rfl, rfl, rfl, rfl, hc, rfl⟩
          simp [Outcome.final, ReliableSocket.update_rtt, ReliableSocket.on_socket,
            UnreliableSocket.set_timeout_length, ReliableSocket.log]
      · have ha2 : is_ack host e a.result = false := by simpa using ha
        rw [send_loop_ends host wire d e st a rest hc hn2 ha2]
        exact ⟨[Event.send wire, Event.receive st.socket.timeout_length a.result],
          rfl, rfl, rfl, rfl, rfl, hc, rfl⟩

theorem takeWhile_of_all {α : Type} (p q : α → Bool) (xs : List α)
    (h : ∀ x ∈ xs, p x = true) (hpq : ∀ x, p x = true → q x = true) :
    xs.takeWhile q = xs := by
  induction xs with
  | nil => rfl
  | cons x xs ih =>
    simp [List.takeWhile_cons, hpq x (h x (List.mem_cons_self _ _)),
      ih (fun y hy => h y (List.mem_cons_of_mem _ hy))]

/-- C21. Retransmissions are byte-identical: whatever the receives give, all that
one call of `send_until_acked` hands to the transport are copies of one byte
string, the serialised segment as it was when the call began. A DATA or close
segment is transmitted once per pass of the loop, that is once and then once
more after every timeout and every segment of one of the four types that is not
the awaited acknowledgement, so after `k` timeouts in a row it has been handed
over `k + 1` times; an `RDT_ACK` or `RDT_CONN` segment is transmitted once; a
segment whose type is none of the four is not transmitted at all, the call ends
the process when it writes the segment to the log. No state is assigned and the
sequence number is left alone. -/
theorem C21_retransmissions_are_identical (host : Host) (st : ReliableSocket) (m : Mem)
    (segment : RDTSegment) (inputs : List Attempt) (hc : st.socket.connected = true) :
    let expect_ack := if segment.get_type = RDT_DATA then segment.get_sequence_number else 4
    ∃ events n, (st.send_until_acked host m segment inputs).final.trace = st.trace ++ events ∧
      sent_bytes events = List.replicate n (wire_bytes host m segment) ∧
      n ≤ inputs.length + 1 ∧
      (segment.get_type = RDT_DATA ∨ segment.get_type = RDT_CLOSE →
        n = (inputs.takeWhile (fun a => is_retry host expect_ack a.result)).length + 1) ∧
      (segment.get_type = RDT_DATA ∨ segment.get_type = RDT_CLOSE →
        (∀ a ∈ inputs, is_timeout a.result = true) → n = inputs.length + 1) ∧
      (segment.get_type = RDT_ACK ∨ segment.get_type = RDT_CONN → n = 1) ∧
      (known_type segment.get_type = false → n = 0) ∧
      states_assigned events = [] ∧
      (st.send_until_acked host m segment inputs).final.sequence_number = st.sequence_number := by
  intro expect_ack
  have hall : (∀ a ∈ inputs, is_timeout a.result = true) →
      (inputs.takeWhile (fun a => is_retry host expect_ack a.result)).length = inputs.length := by
    intro h
    rw [takeWhile_of_all (fun a => is_timeout a.result) _ inputs h
      (fun a ha => by simp only [is_retry] at ha ⊢; simp [ha])]
  have hle := (List.takeWhile_sublist (fun a => is_retry host expect_ack a.result)
    (l := inputs)).length_le
  have hda : ¬ (RDT_DATA = RDT_ACK) := by decide
  have hdc : ¬ (RDT_DATA = RDT_CONN) := by decide
  have hca : ¬ (RDT_CLOSE = RDT_ACK) := by decide
  have hcc : ¬ (RDT_CLOSE = RDT_CONN) := by decide
  unfold ReliableSocket.send_until_acked
  by_cases hk : known_type segment.get_type = true
  · obtain ⟨text, htext⟩ := to_string_of_known host segment hk
    have hk' : ¬ (known_type segment.get_type = false) := by simp [hk]
    simp only [htext]
    by_cases hd : segment.get_type = RDT_DATA
    · have he : expect_ack = segment.get_sequence_number := by simp [expect_ack, hd]
      rw [if_pos hd]
      obtain ⟨events, h1, h2, h3, _, h5, _, _⟩ :=
        send_loop_any host (wire_bytes host m segment) true segment.get_sequence_number inputs
          st hc
      rw [← he] at h2
      refine ⟨events, _, h1, h2, by omega, fun _ => rfl, fun _ h => by rw [hall h], ?_,
        fun h => absurd h hk', h3, h5⟩
      rintro (h | h)
      · exact absurd (hd.symm.trans h) hda
      · exact absurd (hd.symm.trans h) hdc
    · rw [if_neg hd]
      have he : expect_ack = 4 := by simp [expect_ack, hd]
      by_cases hcl : segment.get_type = RDT_CLOSE
      · rw [if_pos hcl]
        obtain ⟨events, h1, h2, h3, _, h5, _, _⟩ :=
          send_loop_any host (wire_bytes host m segment) false 4 inputs st hc
        rw [← he] at h2
        refine ⟨events, _, h1, h2, by omega, fun _ => rfl, fun _ h => by rw [hall h], ?_,
          fun h => absurd h hk', h3, h5⟩
        rintro (h | h)
        · exact absurd (hcl.symm.trans h) hca
        · exact absurd (hcl.symm.trans h) hcc
      · rw [if_neg hcl, socket_send_connected _ _ hc]
        refine ⟨[Event.send (wire_bytes host m segment)], 1, rfl, rfl, by omega,
          fun h => ?_, fun h => ?_, fun _ => rfl, fun h => absurd h hk', rfl, rfl⟩
        · rcases h with h | h
          · exact absurd h hd
          · exact absurd h hcl
        · rcases h with h | h
          · exact absurd h hd
          · exact absurd h hcl
  · have hk2 : known_type segment.get_type = false := by simpa using hk
    have hnot : ∀ t, known_type t = true → segment.get_type ≠ t := by
      intro t ht h
      rw [h] at hk
      exact hk ht
    rw [to_string_of_unknown host segment hk2]
    refine ⟨[], 0, by simp [Outcome.final], rfl, Nat.zero_le _, fun h => ?_, fun h => ?_,
      fun h => ?_, fun _ => rfl, rfl, rfl⟩
    · rcases h with h | h
      · exact absurd h (hnot _ (by decide))
      · exact absurd h (hnot _ (by decide))
    · rcases h with h | h
      · exact absurd h (hnot _ (by decide))
      · exact absurd h (hnot _ (by decide))
    · rcases h with h | h
      · exact absurd h (hnot _ (by decide))
      · exact absurd h (hnot _ (by decide))

/-- C21 (witness). A client right after its handshake sends a DATA segment with
bit 0 over the bytes of "hello"; two timeouts, then the acknowledgement: the
same eleven bytes are handed over three times. -/
theorem C21_retransmissions_are_identical_witness :
    sender_ready.socket.connected = true ∧
    ∃ events n,
      (sender_ready.send_until_acked host_le (Mem.write zero_buffer 0 hello)
        (RDTSegment.with_payload host_le 0 0 0 RDT_DATA ⟨0, 5⟩)
        [⟨0, RecvResult.eagain, 200⟩, ⟨200, RecvResult.eagain, 400⟩,
          ⟨400, ack_datagram 0, 450⟩]).final.trace = sender_ready.trace ++ events ∧
      sent_bytes events = List.replicate n
        (wire_bytes host_le (Mem.write zero_buffer 0 hello)
          (RDTSegment.with_payload host_le 0 0 0 RDT_DATA ⟨0, 5⟩)) ∧
      n = ([⟨0, RecvResult.eagain, 200⟩, ⟨200, RecvResult.eagain, 400⟩,
          ⟨400, ack_datagram 0, 450⟩] : List Attempt).length :=
  ⟨by decide,
    (C21_retransmissions_are_identical host_le sender_ready (Mem.write zero_buffer 0 hello)
      (RDTSegment.with_payload host_le 0 0 0 RDT_DATA ⟨0, 5⟩)
      [⟨0, RecvResult.eagain, 200⟩, ⟨200, RecvResult.eagain, 400⟩, ⟨400, ack_datagram 0, 450⟩]
      (by decide)).imp (fun _ h => h.imp (fun _ h =>
        ⟨h.1, h.2.1, (h.2.2.2.1 (Or.inl rfl)).trans (by decide)⟩))⟩

/-! ## Theorems: the sequence bit -/

/-- The loop of `connect_to_remote` leaves the state and the sequence number alone. -/
theorem connect_loop_any (host : Host) (wire : List Nat) (inputs : List RecvResult) :
    ∀ st : ReliableSocket, st.socket.connected = true →
      (connect_loop host wire st inputs).final.state = st.state ∧
      (connect_loop host wire st inputs).final.sequence_number = st.sequence_number ∧
      (connect_loop host wire st inputs).final.socket.connected = true := by
  induction inputs with
  | nil =>
    intro st hc
    simp only [connect_loop, socket_send_connected _ _ hc]
    exact ⟨rfl, rfl, hc⟩
  | cons r rest ih =>
    intro st hc
    cases r with
    | eagain =>
      simp only [connect_loop, socket_send_connected _ _ hc, receive_eagain]
      exact ih _ (by simpa using hc)
    | failure =>
      simp only [connect_loop, socket_send_connected _ _ hc, receive_failure]
      exact ⟨rfl, rfl, hc⟩
    | datagram bytes =>
      by_cases hne : bytes.isEmpty = true
      · have : bytes = [] := by simpa using hne
        subst this
        simp only [connect_loop, socket_send_connected _ _ hc, receive_empty]
        exact ⟨rfl, rfl, hc⟩
      · have hne2 : bytes.isEmpty = false := by simpa using hne
        simp only [connect_loop, socket_send_connected _ _ hc]
        rw [receive_datagram_connected _ _ _ hne2 (by simpa using hc)]
        simp only []
        split
        · exact ⟨rfl, rfl, hc⟩
        · exact ih _ (by simpa using hc)

/-- The linger loop of `close_connection` leaves the state and the sequence
number alone. -/
theorem close_linger_any (host : Host) (inputs : List Attempt) :
    ∀ st : ReliableSocket,
      (close_linger host st inputs).final.state = st.state ∧
      (close_linger host st inputs).final.sequence_number = st.sequence_number := by
  induction inputs with
  | nil => intro st; exact ⟨rfl, rfl⟩
  | cons a rest ih =>
    intro st
    rcases a with ⟨ts, r, tr⟩
    cases r with
    | eagain =>
      simp only [close_linger, receive_eagain]
      exact ⟨rfl, rfl⟩
    | failure =>
      simp only [close_linger, receive_failure]
      exact ⟨rfl, rfl⟩
    | datagram bytes =>
      by_cases hne : bytes.isEmpty = true
      · have : bytes = [] := by simpa using hne
        subst this
        simp only [close_linger, receive_empty]
        exact ⟨rfl, rfl⟩
      · have hne2 : bytes.isEmpty = false := by simpa using hne
        simp only [close_linger]
        rw [receive_datagram _ _ _ hne2]
        simp only []
        split
        · exact ih _
        · exact ih _

/-- Whatever the receives give, `connect_to_remote` leaves the sequence number
alone, and a client that is ready to send has a connected transport. -/
theorem connect_to_remote_any (host : Host) (st : ReliableSocket) (hostname : String)
    (port_num : Int) (inputs : List RecvResult)
    (hinv : st.state = connection_status.WAIT_SEND → st.socket.connected = true) :
    (st.connect_to_remote host hostname port_num inputs).final.sequence_number =
      st.sequence_number ∧
    ((st.connect_to_remote host hostname port_num inputs).final.state =
        connection_status.WAIT_SEND →
      (st.connect_to_remote host hostname port_num inputs).final.socket.connected = true) := by
  have key : ∀ (w : List Nat) (S : ReliableSocket), S.socket.connected = true →
      S.state = connection_status.WAIT_HS2 → S.sequence_number = st.sequence_number →
      (match connect_loop host w S inputs with
        | Outcome.returned st _ rest =>
          Outcome.returned
            ((ReliableSocket.send_ack host (st.set_state connection_status.WAIT_HS3) 3).set_state
              connection_status.WAIT_SEND) () rest
        | other => other).final.sequence_number = st.sequence_number ∧
      ((match connect_loop host w S inputs with
        | Outcome.returned st _ rest =>
          Outcome.returned
            ((ReliableSocket.send_ack host (st.set_state connection_status.WAIT_HS3) 3).set_state
              connection_status.WAIT_SEND) () rest
        | other => other).final.state = connection_status.WAIT_SEND →
       (match connect_loop host w S inputs with
        | Outcome.returned st _ rest =>
          Outcome.returned
            ((ReliableSocket.send_ack host (st.set_state connection_status.WAIT_HS3) 3).set_state
              connection_status.WAIT_SEND) () rest
        | other => other).final.socket.connected = true) := by
    intro w S hS hstate hseq
    obtain ⟨h1, h2, h3⟩ := connect_loop_any host w inputs S hS
    generalize connect_loop host w S inputs = o at h1 h2 h3
    cases o with
    | returned s v rest =>
      simp only [Outcome.final] at h1 h2 h3
      refine ⟨h2.trans hseq, fun _ => ?_⟩
      show (ReliableSocket.send_ack host (s.set_state connection_status.WAIT_HS3) 3).socket.connected
        = true
      rw [send_ack_connected host _ 3 (by decide) (by simpa [ReliableSocket.set_state] using h3)]
      simpa [ReliableSocket.set_state] using h3
    | waiting s =>
      simp only [Outcome.final] at h1 h2 h3 ⊢
      exact ⟨h2.trans hseq, fun h => by rw [h1, hstate] at h; exact absurd h (by decide)⟩
    | exited s =>
      simp only [Outcome.final] at h1 h2 h3 ⊢
      exact ⟨h2.trans hseq, fun h => by rw [h1, hstate] at h; exact absurd h (by decide)⟩
    | threw s =>
      simp only [Outcome.final] at h1 h2 h3 ⊢
      exact ⟨h2.trans hseq, fun h => by rw [h1, hstate] at h; exact absurd h (by decide)⟩
  unfold ReliableSocket.connect_to_remote
  by_cases hs : st.state = connection_status.INIT
  · rw [if_neg (not_not.mpr hs)]
    exact key _ _ rfl rfl rfl
  · rw [if_pos hs]
    exact ⟨rfl, hinv⟩

/-- Whatever the receives give, `send_data` called by a client that is ready to
send either returns, with the sequence bit flipped and the DATA segment with the
old bit as the last thing it transmitted, or does not return and leaves the bit
alone. -/
theorem send_data_any (host : Host) (st : ReliableSocket) (m : Mem) (data : Span)
    (inputs : List Attempt)
    (hstate : st.state = connection_status.WAIT_SEND) (hconn : st.socket.connected = true)
    (hbit : st.sequence_number < 2) (hlen : data.size ≤ MAX_DATA_SIZE) :
    (∃ st' rest, st.send_data host m data inputs = Outcome.returned st' () rest ∧
        st'.sequence_number = 1 - st.sequence_number ∧
        st'.state = connection_status.WAIT_SEND ∧ st'.socket.connected = true ∧
        (sent_bytes (st'.trace.drop st.trace.length)).getLast? =
          some ([st.sequence_number, 0, RDT_DATA, host.junk st.objs % 256, data.size / 256,
            data.size % 256] ++ m.read_span data)) ∨
    ((st.send_data host m data inputs).value = none ∧
      (st.send_data host m data inputs).final.sequence_number = st.sequence_number ∧
      (st.send_data host m data inputs).final.state ≠ connection_status.WAIT_SEND) := by
  have hw := wire_bytes_with_payload host m (host.junk st.objs) st.sequence_number 0 RDT_DATA data
    hlen (by omega) (by decide) (by decide)
  have hseq : st.sequence_number % 256 = st.sequence_number := Nat.mod_eq_of_lt (by omega)
  have htype : (RDTSegment.with_payload host (host.junk st.objs) st.sequence_number 0 RDT_DATA
      data).get_type = RDT_DATA := rfl
  have hsn : (RDTSegment.with_payload host (host.junk st.objs) st.sequence_number 0 RDT_DATA
      data).get_sequence_number = st.sequence_number := hseq
  have hflip : (((1 : Int) - (st.sequence_number : Int)) % 256).toNat = 1 - st.sequence_number := by
    omega
  obtain ⟨S, hS⟩ : ∃ S : ReliableSocket, S =
      { st with objs := st.objs + 1 }.set_state
        (if st.sequence_number = 0 then connection_status.WAIT_ACK0
         else connection_status.WAIT_ACK1) := ⟨_, rfl⟩
  have hS0 : (if ({ st with objs := st.objs + 1 } : ReliableSocket).sequence_number = 0 then
        ({ st with objs := st.objs + 1 } : ReliableSocket).set_state connection_status.WAIT_ACK0
      else ({ st with objs := st.objs + 1 } : ReliableSocket).set_state
        connection_status.WAIT_ACK1) = S := by
    rw [hS]
    split <;> rfl
  have hSc : S.socket.connected = true := by rw [hS]; exact hconn
  have hSq : S.sequence_number = st.sequence_number := by rw [hS]; rfl
  have hSs : S.state ≠ connection_status.WAIT_SEND := by
    rw [hS]
    show (if st.sequence_number = 0 then connection_status.WAIT_ACK0
      else connection_status.WAIT_ACK1) ≠ connection_status.WAIT_SEND
    split <;> decide
  have hSt : S.trace = st.trace ++ [Event.state S.state] := by rw [hS]; rfl
  unfold ReliableSocket.send_data
  rw [if_neg (not_not.mpr hstate)]
  simp only [send_until_acked_data]
  simp only [htype, hsn, hw, if_true, hS0]
  obtain ⟨events, h1, h2, _, h4, h5, h6, _⟩ := send_loop_any host
    ([st.sequence_number, 0, RDT_DATA, host.junk st.objs % 256, data.size / 256,
      data.size % 256] ++ m.read_span data) true st.sequence_number inputs S hSc
  generalize send_loop host
    ([st.sequence_number, 0, RDT_DATA, host.junk st.objs % 256, data.size / 256,
      data.size % 256] ++ m.read_span data) true st.sequence_number S inputs = o at h1 h2 h4 h5 h6 ⊢
  cases o with
  | returned s v rest =>
    left
    simp only [Outcome.final] at h1 h4 h5 h6
    refine ⟨_, rest, rfl, ?_, rfl, h6, ?_⟩
    · show (((1 : Int) - (s.sequence_number : Int)) % 256).toNat = 1 - st.sequence_number
      rw [h5, hSq, hflip]
    · show (sent_bytes ((s.trace ++ [Event.state connection_status.WAIT_SEND]).drop
        st.trace.length)).getLast? = _
      rw [h1, hSt]
      simp only [List.append_assoc, List.drop_left, sent_bytes_append, h2]
      simp [sent_bytes, List.getLast?_replicate]
  | waiting s =>
    right
    simp only [Outcome.final] at h4 h5 ⊢
    exact ⟨rfl, h5.trans hSq, by rw [h4]; exact hSs⟩
  | exited s =>
    right
    simp only [Outcome.final] at h4 h5 ⊢
    exact ⟨rfl, h5.trans hSq, by rw [h4]; exact hSs⟩
  | threw s =>
    right
    simp only [Outcome.final] at h4 h5 ⊢
    exact ⟨rfl, h5.trans hSq, by rw [h4]; exact hSs⟩

/-- Whatever the receives give, `close_connection` leaves the sequence number
alone, and a client that is ready to send afterwards has a connected
transport. -/
theorem close_connection_any (host : Host) (st : ReliableSocket) (inputs : List Attempt)
    (hinv : st.state = connection_status.WAIT_SEND → st.socket.connected = true) :
    (st.close_connection host inputs).final.sequence_number = st.sequence_number ∧
    ((st.close_connection host inputs).final.state = connection_status.WAIT_SEND →
      (st.close_connection host inputs).final.socket.connected = true) := by
  unfold ReliableSocket.close_connection
  by_cases hs : st.state = connection_status.WAIT_SEND
  · have hconn := hinv hs
    rw [if_pos hs]
    simp only [send_until_acked_close]
    obtain ⟨events, _, _, _, h4, h5, h6, _⟩ := send_loop_any host
      (wire_bytes host zero_buffer (RDTSegment.control host (host.junk st.objs) 4 0 RDT_CLOSE))
      false 4 inputs { st with objs := st.objs + 1 } hconn
    generalize send_loop host
      (wire_bytes host zero_buffer (RDTSegment.control host (host.junk st.objs) 4 0 RDT_CLOSE))
      false 4 { st with objs := st.objs + 1 } inputs = o at h4 h5 h6 ⊢
    cases o with
    | returned s v rest =>
      simp only [Outcome.final] at h5 ⊢
      exact ⟨h5, fun h => absurd
        (show connection_status.CLOSED = connection_status.WAIT_SEND from h) (by decide)⟩
    | waiting s => simp only [Outcome.final] at h5 h6 ⊢; exact ⟨h5, fun _ => h6⟩
    | exited s => simp only [Outcome.final] at h5 h6 ⊢; exact ⟨h5, fun _ => h6⟩
    | threw s => simp only [Outcome.final] at h5 h6 ⊢; exact ⟨h5, fun _ => h6⟩
  · rw [if_neg hs]
    by_cases hcl : st.state = connection_status.CLOSING
    · rw [if_pos hcl]
      dsimp only
      obtain ⟨h1, h2⟩ := close_linger_any host inputs
        (st.on_socket (fun sock => sock.set_timeout_length 2000))
      generalize close_linger host (st.on_socket (fun sock => sock.set_timeout_length 2000))
        inputs = o at h1 h2 ⊢
      have hne : connection_status.CLOSING ≠ connection_status.WAIT_SEND := by decide
      cases o with
      | returned s v rest =>
        simp only [Outcome.final] at h2 ⊢
        exact ⟨h2, fun h => absurd
          (show connection_status.CLOSED = connection_status.WAIT_SEND from h) (by decide)⟩
      | waiting s =>
        simp only [Outcome.final] at h1 h2 ⊢
        exact ⟨h2, fun h => by rw [h1] at h; exact absurd (hcl.symm.trans h) hne⟩
      | exited s =>
        simp only [Outcome.final] at h1 h2 ⊢
        exact ⟨h2, fun h => by rw [h1] at h; exact absurd (hcl.symm.trans h) hne⟩
      | threw s =>
        simp only [Outcome.final] at h1 h2 ⊢
        exact ⟨h2, fun h => by rw [h1] at h; exact absurd (hcl.symm.trans h) hne⟩
    · rw [if_neg hcl]
      exact ⟨rfl, fun h => absurd h hs⟩

/-- One call of the client: either it acknowledges nothing and leaves the
sequence bit alone, or it has sent the DATA segment with the current bit and
flipped the bit. -/
theorem client_call_step (host : Host) (st : ReliableSocket) (c : ClientCall) (j : Nat)
    (hseq : st.sequence_number = j % 2)
    (hinv : st.state = connection_status.WAIT_SEND → st.socket.connected = true)
    (hfit : c.fits = true) :
    ((c.acked host st = none ∧ (c.run host st).sequence_number = j % 2) ∨
      (∃ w, c.acked host st = some w ∧ (received_segment host w).get_type = RDT_DATA ∧
        (received_segment host w).get_sequence_number = j % 2 ∧
        (c.run host st).sequence_number = (j + 1) % 2)) ∧
    ((c.run host st).state = connection_status.WAIT_SEND →
      (c.run host st).socket.connected = true) := by
  cases c with
  | connect_to_remote hostname port_num inputs =>
    obtain ⟨h1, h2⟩ := connect_to_remote_any host st hostname port_num inputs hinv
    exact ⟨Or.inl ⟨rfl, h1.trans hseq⟩, h2⟩
  | close_connection inputs =>
    obtain ⟨h1, h2⟩ := close_connection_any host st inputs hinv
    exact ⟨Or.inl ⟨rfl, h1.trans hseq⟩, h2⟩
  | send_data m data inputs =>
    have hlen : data.size ≤ MAX_DATA_SIZE := by simpa [ClientCall.fits] using hfit
    have hbit : st.sequence_number < 2 := by omega
    by_cases hs : st.state = connection_status.WAIT_SEND
    · rcases send_data_any host st m data inputs hs (hinv hs) hbit hlen with
        ⟨st', rest, he, hq, hst, hc, hlast⟩ | ⟨hv, hq, hst⟩
      · refine ⟨Or.inr ⟨[st.sequence_number, 0, RDT_DATA, host.junk st.objs % 256,
          data.size / 256, data.size % 256] ++ m.read_span data, ?_, ?_, ?_, ?_⟩, ?_⟩
        · simp only [ClientCall.acked, he, if_pos hs]
          exact hlast
        · have h := (received_data_datagram host zero_buffer st.sequence_number
            (host.junk st.objs % 256) (m.read_span data) hbit
            (by rw [read_span_length]; exact hlen)).2.2.1
          simp only [read_span_length] at h
          exact h
        · have h := (received_data_datagram host zero_buffer st.sequence_number
            (host.junk st.objs % 256) (m.read_span data) hbit
            (by rw [read_span_length]; exact hlen)).2.2.2.1
          simp only [read_span_length] at h
          exact h.trans hseq
        · simp only [ClientCall.run, he, Outcome.final]
          rw [hq, hseq]
          omega
        · intro _
          simp only [ClientCall.run, he, Outcome.final]
          exact hc
      · refine ⟨Or.inl ⟨?_, ?_⟩, ?_⟩
        · simp only [ClientCall.acked]
          generalize st.send_data host m data inputs = o at hv
          cases o with
          | returned s v rest => simp [Outcome.value] at hv
          | waiting s => rfl
          | exited s => rfl
          | threw s => rfl
        · exact hq.trans hseq
        · intro h
          exact absurd h hst
    · have he : st.send_data host m data inputs = Outcome.returned st () inputs := by
        unfold ReliableSocket.send_data
        rw [if_pos hs]
      refine ⟨Or.inl ⟨?_, ?_⟩, ?_⟩
      · simp only [ClientCall.acked, he, if_neg hs]
      · simp only [ClientCall.run, he, Outcome.final]
        exact hseq
      · simp only [ClientCall.run, he, Outcome.final]
        exact hinv

/-- The DATA segments a client sends successfully carry alternating sequence
numbers, starting with the bit the client holds. -/
theorem acked_segments_alternate (host : Host) (calls : List ClientCall) :
    ∀ (st : ReliableSocket) (j : Nat), st.sequence_number = j % 2 →
      (st.state = connection_status.WAIT_SEND → st.socket.connected = true) →
      (∀ c ∈ calls, c.fits = true) →
      (client_run host st calls).sequence_number < 2 ∧
      ∀ k w, (acked_segments host st calls)[k]? = some w →
        (received_segment host w).get_type = RDT_DATA ∧
        (received_segment host w).get_sequence_number = (j + k) % 2 := by
  induction calls with
  | nil =>
    intro st j hseq _ _
    refine ⟨?_, ?_⟩
    · show st.sequence_number < 2
      omega
    · intro k w h
      simp [acked_segments] at h
  | cons c cs ih =>
    intro st j hseq hinv hfit
    obtain ⟨hstep, hinv'⟩ := client_call_step host st c j hseq hinv (hfit c (List.mem_cons_self _ _))
    have hfit' : ∀ x ∈ cs, x.fits = true := fun x hx => hfit x (List.mem_cons_of_mem _ hx)
    rcases hstep with ⟨hnone, hq⟩ | ⟨w0, hsome, ht, hn, hq⟩
    · obtain ⟨h1, h2⟩ := ih (c.run host st) j hq hinv' hfit'
      refine ⟨h1, ?_⟩
      intro k w h
      simp only [acked_segments, hnone, Option.toList, List.nil_append] at h
      exact h2 k w h
    · obtain ⟨h1, h2⟩ := ih (c.run host st) (j + 1) hq hinv' hfit'
      refine ⟨h1, ?_⟩
      intro k w h
      simp only [acked_segments, hsome, Option.toList, List.singleton_append] at h
      cases k with
      | zero =>
        simp only [List.getElem?_cons_zero, Option.some.injEq] at h
        subst h
        exact ⟨ht, by simpa using hn⟩
      | succ k =>
        simp only [List.getElem?_cons_succ] at h
        obtain ⟨h3, h4⟩ := h2 k w h
        exact ⟨h3, by rw [h4]; congr 1; omega⟩

/-- C24. The sequence bit is a bit, and it alternates. In every state a client
reaches from a new connection through calls of `connect_to_remote`, `send_data`
(with payloads of at most `MAX_DATA_SIZE` bytes) and `close_connection`,
whatever the network gives these calls, `sequence_number` is 0 or 1; and the
`k`-th DATA segment sent successfully, counting from 0, carries sequence number
`k mod 2`. -/
theorem C24_sequence_bit_invariant (host : Host) (calls : List ClientCall)
    (hfit : ∀ c ∈ calls, c.fits = true) :
    (client_run host ReliableSocket.init calls).sequence_number < 2 ∧
    ∀ k w, (acked_segments host ReliableSocket.init calls)[k]? = some w →
      (received_segment host w).get_type = RDT_DATA ∧
      (received_segment host w).get_sequence_number = k % 2 := by
  obtain ⟨h1, h2⟩ := acked_segments_alternate host calls ReliableSocket.init 0 rfl
    (fun h => absurd h (by decide)) hfit
  refine ⟨h1, fun k w h => ?_⟩
  have := h2 k w h
  simpa using this

/-- C24 (witness). The client of the end-to-end scenario: it connects, sends
"hello" (acknowledged after one timeout) and "world", then closes; the two DATA
segments carry the bits 0 and 1 and the bit is 0 again at the end. -/
theorem C24_sequence_bit_invariant_witness :
    (∀ c ∈ [ClientCall.connect_to_remote "server" 4000 [ack_datagram 2],
        ClientCall.send_data (Mem.write zero_buffer 0 hello) ⟨0, 5⟩
          [⟨0, RecvResult.eagain, 280⟩, ⟨280, ack_datagram 0, 300⟩],
        ClientCall.send_data (Mem.write zero_buffer 0 world) ⟨0, 5⟩ [⟨300, ack_datagram 1, 320⟩],
        ClientCall.close_connection [⟨320, ack_datagram 4, 340⟩]], c.fits = true) ∧
    (acked_segments host_le ReliableSocket.init
      [ClientCall.connect_to_remote "server" 4000 [ack_datagram 2],
        ClientCall.send_data (Mem.write zero_buffer 0 hello) ⟨0, 5⟩
          [⟨0, RecvResult.eagain, 280⟩, ⟨280, ack_datagram 0, 300⟩],
        ClientCall.send_data (Mem.write zero_buffer 0 world) ⟨0, 5⟩ [⟨300, ack_datagram 1, 320⟩],
        ClientCall.close_connection [⟨320, ack_datagram 4, 340⟩]]).length = 2 ∧
    (client_run host_le ReliableSocket.init
      [ClientCall.connect_to_remote "server" 4000 [ack_datagram 2],
        ClientCall.send_data (Mem.write zero_buffer 0 hello) ⟨0, 5⟩
          [⟨0, RecvResult.eagain, 280⟩, ⟨280, ack_datagram 0, 300⟩],
        ClientCall.send_data (Mem.write zero_buffer 0 world) ⟨0, 5⟩ [⟨300, ack_datagram 1, 320⟩],
        ClientCall.close_connection [⟨320, ack_datagram 4, 340⟩]]).sequence_number < 2 :=
  ⟨by decide, by decide,
    (C24_sequence_bit_invariant host_le
      [ClientCall.connect_to_remote "server" 4000 [ack_datagram 2],
        ClientCall.send_data (Mem.write zero_buffer 0 hello) ⟨0, 5⟩
          [⟨0, RecvResult.eagain, 280⟩, ⟨280, ack_datagram 0, 300⟩],
        ClientCall.send_data (Mem.write zero_buffer 0 world) ⟨0, 5⟩ [⟨300, ack_datagram 1, 320⟩],
        ClientCall.close_connection [⟨320, ack_datagram 4, 340⟩]] (by decide)).1⟩

end RDT

namespace Music

/-! ## Theorems: the message header -/

theorem to_byte_array_eq (host : RDT.Host) (h : Header) :
    h.to_byte_array host =
      [h.type % 256, u32_byte host h.len 0, u32_byte host h.len 1, u32_byte host h.len 2,
        u32_byte host h.len 3] := by
  simp [Header.to_byte_array, copy_n, Header.size, List.replicate, List.range_succ]

theorem u32_bytes_htonl (host : RDT.Host) (len : Nat) (h : len < 4294967296) :
    u32_byte host (htonl host len) 0 = len / 16777216 ∧
    u32_byte host (htonl host len) 1 = len / 65536 % 256 ∧
    u32_byte host (htonl host len) 2 = len / 256 % 256 ∧
    u32_byte host (htonl host len) 3 = len % 256 := by
  have hm : len % 4294967296 = len := Nat.mod_eq_of_lt h
  cases hl : host.little_endian
  · simp only [u32_byte, htonl, hl, hm, Bool.false_eq_true, if_false, Nat.sub_zero, Nat.reducePow,
      Nat.reduceSub, pow_zero, pow_one, Nat.div_one]
    refine ⟨?_, ?_, ?_, ?_⟩ <;> first | trivial | omega
  · simp only [u32_byte, htonl, hl, hm, if_true, Nat.reducePow, pow_zero, pow_one, Nat.div_one]
    obtain ⟨b0, hb0⟩ : ∃ b, b = len % 256 := ⟨_, rfl⟩
    obtain ⟨b1, hb1⟩ : ∃ b, b = len / 256 % 256 := ⟨_, rfl⟩
    obtain ⟨b2, hb2⟩ : ∃ b, b = len / 65536 % 256 := ⟨_, rfl⟩
    obtain ⟨b3, hb3⟩ : ∃ b, b = len / 16777216 := ⟨_, rfl⟩
    rw [← hb0, ← hb1, ← hb2, ← hb3]
    have h0 : b0 < 256 := by omega
    have h1 : b1 < 256 := by omega
    have h2 : b2 < 256 := by omega
    have h3 : b3 < 256 := by omega
    clear hb0 hb1 hb2 hb3
    refine ⟨?_, ?_, ?_, ?_⟩ <;> omega

theorem ntohl_u32_of_bytes (host : RDT.Host) (b0 b1 b2 b3 : Nat) :
    ntohl host (u32_of_bytes host b0 b1 b2 b3) =
      16777216 * (b0 % 256) + 65536 * (b1 % 256) + 256 * (b2 % 256) + b3 % 256 := by
  cases hl : host.little_endian
  · simp only [ntohl, u32_of_bytes, hl, Bool.false_eq_true, if_false]
    omega
  · simp only [ntohl, u32_of_bytes, hl, if_true]
    omega

theorem ntohl_htonl (host : RDT.Host) (len : Nat) (h : len < 4294967296) :
    ntohl host (htonl host len) = len := by
  have hm : len % 4294967296 = len := Nat.mod_eq_of_lt h
  cases hl : host.little_endian
  · simp only [ntohl, htonl, hl, Bool.false_eq_true, if_false]
    omega
  · simp only [ntohl, htonl, hl, hm, if_true]
    obtain ⟨b0, hb0⟩ : ∃ b, b = len % 256 := ⟨_, rfl⟩
    obtain ⟨b1, hb1⟩ : ∃ b, b = len / 256 % 256 := ⟨_, rfl⟩
    obtain ⟨b2, hb2⟩ : ∃ b, b = len / 65536 % 256 := ⟨_, rfl⟩
    obtain ⟨b3, hb3⟩ : ∃ b, b = len / 16777216 := ⟨_, rfl⟩
    have hlen : len = b0 + 256 * b1 + 65536 * b2 + 16777216 * b3 := by omega
    rw [← hb0, ← hb1, ← hb2, ← hb3]
    have h0 : b0 < 256 := by omega
    have h1 : b1 < 256 := by omega
    have h2 : b2 < 256 := by omega
    have h3 : b3 < 256 := by omega
    rw [hlen]
    clear hb0 hb1 hb2 hb3 hlen hm h
    omega

/-- C22. The header codec of the music protocol. For every message type (a byte;
the ten enumerators are bytes) and every 32-bit length,
`Header(type, len).to_byte_array()` is exactly 5 bytes, the type byte followed
by `len` in big-endian order, on a host of either byte order; and the header
constructed from these bytes, wherever they are stored, has `get_type() = type`
and `get_len() = len`. -/
theorem C22_header_codec (host : RDT.Host) (type len : Nat) (m : RDT.Mem) (a : Nat)
    (htype : type < 256) (hlen : len < 4294967296) :
    (Header.of_fields host type len).to_byte_array host =
      [type, len / 16777216, len / 65536 % 256, len / 256 % 256, len % 256] ∧
    ((Header.of_fields host type len).to_byte_array host).length = Header.size ∧
    Header.size = 5 ∧
    (Header.of_span host
      (m.write a ((Header.of_fields host type len).to_byte_array host)) ⟨a, Header.size⟩).get_type
        = type ∧
    (Header.of_span host
      (m.write a ((Header.of_fields host type len).to_byte_array host)) ⟨a, Header.size⟩).get_len
        host = len ∧
    (Header.of_fields host type len).get_type = type ∧
    (Header.of_fields host type len).get_len host = len ∧
    ∀ t ∈ message_types, t < 256 := by
  obtain ⟨h0, h1, h2, h3⟩ := u32_bytes_htonl host len hlen
  have hbytes : (Header.of_fields host type len).to_byte_array host =
      [type, len / 16777216, len / 65536 % 256, len / 256 % 256, len % 256] := by
    rw [to_byte_array_eq]
    simp only [Header.of_fields, h0, h1, h2, h3, Nat.mod_mod, Nat.mod_eq_of_lt htype]
  have hr : ∀ k, k < 5 →
      (RDT.Mem.write m a [type, len / 16777216, len / 65536 % 256, len / 256 % 256,
        len % 256]).read (a + k) =
      [type, len / 16777216, len / 65536 % 256, len / 256 % 256, len % 256].getD k 0 % 256 :=
    fun k hk => RDT.read_write_of_lt m a _ k (by simpa using hk)
  have hget : (Header.of_fields host type len).get_len host = len :=
    ntohl_htonl host len hlen
  refine ⟨hbytes, by rw [hbytes]; rfl, rfl, ?_, ?_, Nat.mod_eq_of_lt htype, hget, by decide⟩
  · rw [hbytes]
    show ((unpack _ _ 0 1).getD 0 0) = type
    simp only [unpack, List.range_succ, List.range_zero, List.nil_append, List.map_cons,
      List.map_nil, List.getD_cons_zero, Nat.add_zero]
    have hr0 := hr 0 (by decide)
    rw [Nat.add_zero] at hr0
    rw [hr0]
    simp [Nat.mod_eq_of_lt htype]
  · rw [hbytes]
    show ntohl host (u32_of_bytes host _ _ _ _) = len
    rw [ntohl_u32_of_bytes]
    simp only [unpack, List.range_succ, List.range_zero, List.nil_append, List.map_cons,
      List.map_nil, List.getD_cons_zero, List.getD_cons_succ, Nat.add_zero, List.append_nil,
      List.cons_append, List.map_append, Nat.add_assoc, Nat.reduceAdd]
    rw [hr 1 (by decide), hr 2 (by decide), hr 3 (by decide), hr 4 (by decide)]
    simp only [List.getD_cons_zero, List.getD_cons_succ, RDT.Mem.read, Nat.mod_mod]
    omega

/-- C22 (witness). The header of an `AUDIO_DATA` message of 4096 bytes, stored
at address 10 on a little-endian host. -/
theorem C22_header_codec_witness :
    (AUDIO_DATA < 256 ∧ (4096 : Nat) < 4294967296) ∧
    (Header.of_fields RDT.host_le AUDIO_DATA 4096).to_byte_array RDT.host_le =
      [AUDIO_DATA, 4096 / 16777216, 4096 / 65536 % 256, 4096 / 256 % 256, 4096 % 256] :=
  ⟨⟨by decide, by decide⟩,
    (C22_header_codec RDT.host_le AUDIO_DATA 4096 RDT.zero_buffer 10 (by decide) (by decide)).1⟩

/-! ## Theorems: the array sender -/

/-- One call of `ArraySender::send_next_chunk` on a socket that behaves. -/
theorem array_send_next_chunk (s : ArraySender) (r : SendResult)
    (hloc : s.curr_loc ≤ s.array.length) (hsize : s.array.length < 18446744073709551616)
    (hr : s.requested = 0 ∨ r.accepts s.requested = true ∨ r.full = true) :
    s.send_next_chunk r =
      if s.curr_loc = s.array.length then Chunk.returned s 0 none
      else if 0 < r.value then
        Chunk.returned { s with curr_loc := s.curr_loc + r.value.toNat } r.value
          (some ((s.array.drop s.curr_loc).take (min (s.array.length - s.curr_loc) CHUNK_SIZE)))
      else
        Chunk.returned s (-1)
          (some ((s.array.drop s.curr_loc).take (min (s.array.length - s.curr_loc) CHUNK_SIZE))) := by
  have hrem : to_size_t ((s.array.length : Int) - (s.curr_loc : Int)) =
      s.array.length - s.curr_loc := by
    unfold to_size_t
    omega
  have h4 : CHUNK_SIZE = 4096 := rfl
  unfold ArraySender.send_next_chunk
  simp only [hrem]
  by_cases hend : s.curr_loc = s.array.length
  · have : ¬ (min (s.array.length - s.curr_loc) CHUNK_SIZE > 0) := by omega
    rw [if_neg this, if_pos hend]
  · have hpos : min (s.array.length - s.curr_loc) CHUNK_SIZE > 0 := by omega
    rw [if_pos hpos, if_neg hend]
    have hreq : s.requested ≠ 0 := by
      unfold ArraySender.requested
      omega
    rcases hr with h | h | h
    · exact absurd h hreq
    · simp only [SendResult.accepts, ArraySender.requested, decide_eq_true_eq] at h
      have hv : r.value > 0 := by omega
      have hv' : (0 : Int) < r.value := hv
      rw [if_pos hv, if_pos hv']
      have : to_size_t ((s.curr_loc : Int) + r.value) = s.curr_loc + r.value.toNat := by
        unfold to_size_t
        omega
      rw [this]
    · simp only [SendResult.full, Bool.and_eq_true, decide_eq_true_eq] at h
      have hv : ¬ (r.value > 0) := by omega
      have hv' : ¬ ((0 : Int) < r.value) := hv
      have hneg : r.value < 0 ∧ r.eagain = true := ⟨by omega, h.2⟩
      rw [if_neg hv, if_pos hneg, if_neg hv']

/-- Successive calls on a socket that behaves: the position stays inside the
array and the bytes accepted extend what was accepted before to a longer initial
part of the array. -/
theorem array_calls_invariant (rs : List SendResult) :
    ∀ s : ArraySender, s.curr_loc ≤ s.array.length →
      s.array.length < 18446744073709551616 → s.socket_behaves rs = true →
      (s.calls rs).1.array = s.array ∧
      (s.calls rs).1.curr_loc ≤ s.array.length ∧
      s.curr_loc ≤ (s.calls rs).1.curr_loc ∧
      s.array.take s.curr_loc ++ (s.calls rs).2 = s.array.take (s.calls rs).1.curr_loc := by
  induction rs with
  | nil => intro s h _ _; exact ⟨rfl, h, le_refl _, by simp [ArraySender.calls]⟩
  | cons r rs ih =>
    intro s hloc hsize hb
    simp only [ArraySender.socket_behaves, Bool.and_eq_true, Bool.or_eq_true,
      decide_eq_true_eq] at hb
    obtain ⟨hr, hrest⟩ := hb
    have hr' : s.requested = 0 ∨ r.accepts s.requested = true ∨ r.full = true := by
      rcases hr with (h | h) | h
      · exact Or.inl h
      · exact Or.inr (Or.inl h)
      · exact Or.inr (Or.inr h)
    have hspec := array_send_next_chunk s r hloc hsize hr'
    have h4 : CHUNK_SIZE = 4096 := rfl
    simp only [ArraySender.calls]
    by_cases hend : s.curr_loc = s.array.length
    · rw [if_pos hend] at hspec
      rw [hspec] at hrest ⊢
      simp only [Chunk.sender, Chunk.accepted, List.nil_append] at hrest ⊢
      exact ih s hloc hsize hrest
    · rw [if_neg hend] at hspec
      by_cases hv : 0 < r.value
      · rw [if_pos hv] at hspec
        have hacc : r.accepts s.requested = true := by
          rcases hr' with h | h | h
          · unfold ArraySender.requested at h; omega
          · exact h
          · simp only [SendResult.full, Bool.and_eq_true, decide_eq_true_eq] at h; omega
        simp only [SendResult.accepts, ArraySender.requested, decide_eq_true_eq] at hacc
        have hn : r.value.toNat ≤ min (s.array.length - s.curr_loc) CHUNK_SIZE := by omega
        rw [hspec] at hrest ⊢
        simp only [Chunk.sender, Chunk.accepted, if_pos hv] at hrest ⊢
        obtain ⟨i1, i2, i3, i4⟩ := ih { s with curr_loc := s.curr_loc + r.value.toNat }
          (by show s.curr_loc + r.value.toNat ≤ s.array.length; omega) hsize hrest
        refine ⟨i1, i2, ?_, ?_⟩
        · have : s.curr_loc + r.value.toNat ≤ _ := i3
          omega
        · rw [← i4, ← List.append_assoc]
          congr 1
          show _ = s.array.take (s.curr_loc + r.value.toNat)
          rw [List.take_take, Nat.min_eq_left hn, List.take_add]
      · rw [if_neg hv] at hspec
        rw [hspec] at hrest ⊢
        simp only [Chunk.sender, Chunk.accepted, if_neg hv, List.nil_append] at hrest ⊢
        exact ih s hloc hsize hrest

theorem array_calls_append (rs ss : List SendResult) :
    ∀ s : ArraySender,
      (s.calls (rs ++ ss)).1 = ((s.calls rs).1.calls ss).1 ∧
      (s.calls (rs ++ ss)).2 = (s.calls rs).2 ++ ((s.calls rs).1.calls ss).2 ∧
      s.socket_behaves (rs ++ ss) = (s.socket_behaves rs && (s.calls rs).1.socket_behaves ss) := by
  induction rs with
  | nil => intro s; simp [ArraySender.calls, ArraySender.socket_behaves]
  | cons r rs ih =>
    intro s
    obtain ⟨h1, h2, h3⟩ := ih (s.send_next_chunk r).sender
    simp only [List.cons_append, ArraySender.calls, ArraySender.socket_behaves, List.append_eq,
      h1, h2, h3, List.append_assoc, Bool.and_assoc, and_self]

/-- C23. Chunking of `ArraySender`. For every array (shorter than `2^64` bytes)
and every series of calls of `send_next_chunk` in which the socket, whenever
`send` is called, accepts between 1 and the requested number of bytes or
reports a full buffer: before each call `curr_loc` is at most the size of the
array and the bytes accepted so far are the first `curr_loc` bytes of the
array; the call returns 0, without calling `send`, when nothing is left, and
otherwise offers the next `min(remaining, 4096)` bytes from index `curr_loc` on
and returns the number of bytes accepted, advancing `curr_loc` by it, or
returns -1 without advancing when the buffer is full. It returns 0 exactly when
nothing is left, and then the bytes accepted are the whole array. -/
theorem C23_array_sender_chunking (array : List Nat) (rs : List SendResult) (r : SendResult)
    (hsize : array.length < 18446744073709551616)
    (hrs : (ArraySender.init array).socket_behaves (rs ++ [r]) = true) :
    let s := ((ArraySender.init array).calls rs).1
    let accepted := ((ArraySender.init array).calls rs).2
    s.array = array ∧ s.curr_loc ≤ array.length ∧ accepted = array.take s.curr_loc ∧
    s.send_next_chunk r =
      (if s.curr_loc = array.length then Chunk.returned s 0 none
       else if 0 < r.value then
        Chunk.returned { s with curr_loc := s.curr_loc + r.value.toNat } r.value
          (some ((array.drop s.curr_loc).take (min (array.length - s.curr_loc) CHUNK_SIZE)))
       else
        Chunk.returned s (-1)
          (some ((array.drop s.curr_loc).take (min (array.length - s.curr_loc) CHUNK_SIZE)))) ∧
    ((s.send_next_chunk r).value = some 0 ↔ s.curr_loc = array.length) ∧
    ((s.send_next_chunk r).value = some 0 → accepted = array) ∧
    (s.send_next_chunk r).sender.curr_loc ≤ array.length ∧
    accepted ++ (s.send_next_chunk r).accepted =
      array.take (s.send_next_chunk r).sender.curr_loc := by
  intro s accepted
  obtain ⟨_, _, happ⟩ := array_calls_append rs [r] (ArraySender.init array)
  rw [happ, Bool.and_eq_true] at hrs
  obtain ⟨hb1, hb2⟩ := hrs
  obtain ⟨i1, i2, _, i4⟩ := array_calls_invariant rs (ArraySender.init array) (Nat.zero_le _)
    hsize hb1
  have i1' : s.array = array := i1
  have i2' : s.curr_loc ≤ array.length := i2
  have i4' : accepted = array.take s.curr_loc := by
    have : List.take 0 array ++ accepted = List.take s.curr_loc array := i4
    simpa using this
  obtain ⟨j1, j2, _, j4⟩ := array_calls_invariant [r] s (by rw [i1']; exact i2')
    (by rw [i1']; exact hsize) hb2
  have hr : s.requested = 0 ∨ r.accepts s.requested = true ∨ r.full = true := by
    have : s.socket_behaves [r] = true := hb2
    simp only [ArraySender.socket_behaves, Bool.and_true, Bool.or_eq_true,
      decide_eq_true_eq] at this
    rcases this with (h | h) | h
    · exact Or.inl h
    · exact Or.inr (Or.inl h)
    · exact Or.inr (Or.inr h)
  have hspec := array_send_next_chunk s r (by rw [i1']; exact i2') (by rw [i1']; exact hsize) hr
  have hspec' : s.send_next_chunk r =
      (if s.curr_loc = array.length then Chunk.returned s 0 none
       else if 0 < r.value then
        Chunk.returned { s with curr_loc := s.curr_loc + r.value.toNat } r.value
          (some ((array.drop s.curr_loc).take (min (array.length - s.curr_loc) CHUNK_SIZE)))
       else
        Chunk.returned s (-1)
          (some ((array.drop s.curr_loc).take (min (array.length - s.curr_loc) CHUNK_SIZE)))) := by
    rw [hspec, i1']
  have hzero : (s.send_next_chunk r).value = some 0 ↔ s.curr_loc = array.length := by
    rw [hspec']
    by_cases hend : s.curr_loc = array.length
    · simp [hend, Chunk.value]
    · by_cases hv : 0 < r.value
      · simp only [if_neg hend, if_pos hv, Chunk.value, Option.some.injEq]
        constructor
        · intro h; omega
        · intro h; exact absurd h hend
      · simp [if_neg hend, if_neg hv, Chunk.value, hend]
  refine ⟨i1', i2', i4', hspec', hzero, ?_, ?_, ?_⟩
  · intro h
    rw [i4', hzero.mp h]
    exact List.take_length _
  · have : ((s.calls [r]).1).curr_loc ≤ s.array.length := j2
    rw [i1'] at this
    exact this
  · have h : s.array.take s.curr_loc ++ (s.calls [r]).2 = s.array.take (s.calls [r]).1.curr_loc :=
      j4
    rw [i1'] at h
    rw [i4']
    simpa [ArraySender.calls] using h

/-- C23 (witness). Five bytes: the socket takes two, then reports a full
buffer, then takes the other three. -/
theorem C23_array_sender_chunking_witness :
    (([1, 2, 3, 4, 5] : List Nat).length < 18446744073709551616 ∧
      (ArraySender.init [1, 2, 3, 4, 5]).socket_behaves
        ([⟨2, false⟩, ⟨-1, true⟩] ++ [⟨3, false⟩]) = true) ∧
    ((ArraySender.init [1, 2, 3, 4, 5]).calls [⟨2, false⟩, ⟨-1, true⟩]).2 =
      ([1, 2, 3, 4, 5] : List Nat).take
        ((ArraySender.init [1, 2, 3, 4, 5]).calls [⟨2, false⟩, ⟨-1, true⟩]).1.curr_loc :=
  ⟨⟨by decide, by decide⟩,
    (C23_array_sender_chunking [1, 2, 3, 4, 5] [⟨2, false⟩, ⟨-1, true⟩] ⟨3, false⟩ (by decide)
      (by decide)).2.2.1⟩

/-! ## Theorems: the file sender -/

/-- C25 (the code at the failing input). A file of three bytes, and a socket
whose buffer is full at the first call: `send_next_chunk` reads the three bytes,
`send` returns -1, and the read position is moved forward by another three
bytes instead of back, to 6, while `bytes_sent` is still 0. The next call reads
nothing, offers no byte to `send` and, when `send` returns 0 for it, ends the
process: the chunk is never tried again. After a partial send, in contrast, the
read position equals the updated `bytes_sent` and the next call offers the byte
that follows. -/
theorem C25_failed_send_moves_forward :
    ((FileSender.init [10, 20, 30]).send_next_chunk ⟨-1, true⟩).value = some (-1) ∧
    ((FileSender.init [10, 20, 30]).send_next_chunk ⟨-1, true⟩).offered = some [10, 20, 30] ∧
    ((FileSender.init [10, 20, 30]).send_next_chunk ⟨-1, true⟩).sender.bytes_sent = 0 ∧
    ((FileSender.init [10, 20, 30]).send_next_chunk ⟨-1, true⟩).sender.file.pos = 6 ∧
    (((FileSender.init [10, 20, 30]).send_next_chunk ⟨-1, true⟩).sender.send_next_chunk
      ⟨0, false⟩).offered = some [] ∧
    (((FileSender.init [10, 20, 30]).send_next_chunk ⟨-1, true⟩).sender.send_next_chunk
      ⟨0, false⟩).value = none ∧
    ((FileSender.init [10, 20, 30]).send_next_chunk ⟨2, false⟩).sender.bytes_sent = 2 ∧
    ((FileSender.init [10, 20, 30]).send_next_chunk ⟨2, false⟩).sender.file.pos = 2 ∧
    (((FileSender.init [10, 20, 30]).send_next_chunk ⟨2, false⟩).sender.send_next_chunk
      ⟨1, false⟩).offered = some [30] := by
  decide

end Music
